import Mathlib

/-!
# Game workshop starter: the per-frame simulation of `src/main.c`

A shallow embedding of the simulation core of `main.c` (bullet pool, enemy swarm,
terminal flags) and the properties of it that the specification states.

## Conventions of the embedding

* C `float` values are modelled by `Flt`: either an exact rational `fin q` or `undef`,
  which stands for the non-finite floats (NaN, ±inf).  Division by zero gives `undef`,
  arithmetic on `undef` gives `undef`, and every comparison with `undef` is false, as
  with NaN.
* The operations of `Flt` are exact.  Where a property depends on the rounding of the
  float operations (the countdown of a bullet, the step of an enemy) it is stated on
  the loop bodies of the section "Rounding", in which every operation is followed by a
  rounding function; `Flt.single` is the rounding of IEEE 754 single precision.
* `bullets[NUM_BULLETS]` and `enemies[NUM_ENEMIES]` are lists, traversed in index order.
* Functions that the program takes from outside `main.c` and that cannot be computed
  exactly on rationals (`sqrtf`, `cos`, `sin`, the constant `PI`, `Vector2Normalize`) are
  fields of `Extern`; the model is parametric in them.
* One pass of the game loop is `frame`; what raylib reports during the pass is a `Poll`.
  Rendering, the camera and the exit prompt do not touch the `World` and are left out.
-/

namespace GameWorkshop

/-! ## Scalars -/

/-- A C `float`: an exact rational, or `undef` for NaN and the infinities. -/
inductive Flt where
  | fin (q : ℚ)
  | undef
  deriving DecidableEq

namespace Flt

/-- Float addition. -/
def add : Flt → Flt → Flt
  | fin a, fin b => fin (a + b)
  | _, _ => undef

/-- Float subtraction. -/
def sub : Flt → Flt → Flt
  | fin a, fin b => fin (a - b)
  | _, _ => undef

/-- Float multiplication. -/
def mul : Flt → Flt → Flt
  | fin a, fin b => fin (a * b)
  | _, _ => undef

/-- Float division; a zero divisor leaves the finite range. -/
def div : Flt → Flt → Flt
  | fin a, fin b => if b = 0 then undef else fin (a / b)
  | _, _ => undef

/-- The C comparison `a <= b`; false when either side is not finite. -/
def le : Flt → Flt → Bool
  | fin a, fin b => decide (a ≤ b)
  | _, _ => false

/-- The C comparison `a > b`; false when either side is not finite. -/
def gt : Flt → Flt → Bool
  | fin a, fin b => decide (b < a)
  | _, _ => false

instance : Add Flt := ⟨add⟩
instance : Sub Flt := ⟨sub⟩
instance : Mul Flt := ⟨mul⟩
instance : Div Flt := ⟨div⟩
instance (n : Nat) : OfNat Flt n := ⟨fin n⟩

end Flt

/-! ## Constants of `main.c` -/

def PLAYER_RADIUS : Flt := 16
def PLAYER_SPEED : Flt := 150
def ENEMY_RADIUS : Flt := 30
def ENEMY_SPEED : Flt := 50
def ENEMY_INIT_HEALTH : Int := 100
def NUM_ENEMIES : Nat := 3
def NUM_BULLETS : Nat := 30
def BULLET_LIFETIME : Flt := 3
def BULLET_SPEED : Flt := 500
def BULLET_RADIUS : Flt := 4
def BULLET_DAMAGE : Int := 10

/-! ## Vectors and the raylib helpers -/

/-- The raylib `Vector2`. -/
structure Vector2 where
  x : Flt
  y : Flt
  deriving DecidableEq

/-- Modelled from the spec: the raymath helper `Vector2Add` ("vector add"), which is
declared in `include/raymath.h`; componentwise sum. -/
def Vector2Add (v1 v2 : Vector2) : Vector2 := ⟨v1.x + v2.x, v1.y + v2.y⟩

/-- Modelled from the spec: the raymath helper `Vector2Subtract` ("vector subtract"),
declared in `include/raymath.h`; componentwise difference. -/
def Vector2Subtract (v1 v2 : Vector2) : Vector2 := ⟨v1.x - v2.x, v1.y - v2.y⟩

/-- Modelled from the spec: the raymath helper `Vector2Scale` ("vector scale"),
declared in `include/raymath.h`; both components times the factor. -/
def Vector2Scale (v : Vector2) (scale : Flt) : Vector2 := ⟨v.x * scale, v.y * scale⟩

/-- Modelled from the spec: the raylib test `CheckCollisionCircles` ("circle-circle
intersection": the centres are within the sum of the radii), declared in
`include/raylib.h`.  The distances are compared squared, which needs no square root. -/
def CheckCollisionCircles (center1 : Vector2) (radius1 : Flt) (center2 : Vector2)
    (radius2 : Flt) : Bool :=
  let dx := center2.x - center1.x
  let dy := center2.y - center1.y
  let distanceSquared := dx * dx + dy * dy
  let radiusSum := radius1 + radius2
  Flt.le distanceSquared (radiusSum * radiusSum)

/-- What `main.c` uses from libm and raymath and that has no exact rational definition. -/
structure Extern where
  /-- The libm square root. -/
  sqrtf : Flt → Flt
  /-- The libm cosine. -/
  cos : Flt → Flt
  /-- The libm sine. -/
  sin : Flt → Flt
  /-- The raylib constant `PI`. -/
  PI : Flt
  /-- The raymath `Vector2Normalize`, whose result on the zero vector differs between
  raymath versions. -/
  Vector2Normalize : Vector2 → Vector2

/-- Modelled from the spec: the raymath helper `Vector2Length` ("vector length"),
declared in `include/raymath.h`; the square root of the sum of the squares. -/
def Vector2Length (E : Extern) (v : Vector2) : Flt := E.sqrtf (v.x * v.x + v.y * v.y)

/-! ## Data model (`::STRUCT DECLARATIONS`) -/

structure Bullet where
  position : Vector2
  unitDirection : Vector2
  timeLeft : Flt
  isValid : Bool
  deriving DecidableEq

structure Enemy where
  position : Vector2
  isValid : Bool
  health : Int
  deriving DecidableEq

structure Player where
  position : Vector2
  isValid : Bool
  deriving DecidableEq

structure World where
  isPlayerDead : Bool
  isGameWon : Bool
  cameraTarget : Vector2
  player : Player
  bullets : List Bullet
  nextBulletIndex : Int
  enemies : List Enemy
  deriving DecidableEq

/-- What raylib reports during one pass of the game loop. -/
structure Poll where
  /-- `GetFrameTime()`. -/
  deltaTime : Flt
  /-- `IsMouseButtonPressed(0)`. -/
  mousePressed : Bool
  /-- `IsKeyPressed(KEY_Y) || IsKeyPressed(KEY_ENTER)`. -/
  keyYes : Bool
  /-- `IsKeyDown(KEY_RIGHT) || IsKeyDown(KEY_D)`. -/
  keyRight : Bool
  /-- `IsKeyDown(KEY_LEFT) || IsKeyDown(KEY_A)`. -/
  keyLeft : Bool
  /-- `IsKeyDown(KEY_UP) || IsKeyDown(KEY_W)`. -/
  keyUp : Bool
  /-- `IsKeyDown(KEY_DOWN) || IsKeyDown(KEY_S)`. -/
  keyDown : Bool
  /-- `GetScreenToWorld2D(GetMousePosition(), camera)`. -/
  WORLD_MOUSE_POS : Vector2

/-! ## Helper functions (`::HELPER FUNCTIONS`) -/

/-- The all-zero vector. -/
def zeroVector2 : Vector2 := ⟨0, 0⟩

/-- A zeroed `World`, as `calloc` and `memset(world, 0, sizeof(World))` leave it. -/
def zeroWorld : World :=
  { isPlayerDead := false
    isGameWon := false
    cameraTarget := zeroVector2
    player := ⟨zeroVector2, false⟩
    bullets := List.replicate NUM_BULLETS ⟨zeroVector2, zeroVector2, 0, false⟩
    nextBulletIndex := 0
    enemies := List.replicate NUM_ENEMIES ⟨zeroVector2, false, 0⟩ }

/-- The record that `spawnNextBullet` stores in the slot it picks (lines 79-82). -/
def newBullet (position unitDirection : Vector2) : Bullet :=
  { position := position
    unitDirection := unitDirection
    timeLeft := BULLET_LIFETIME
    isValid := true }

/-- The write `world->bullets[i] = b`.  An index outside the pool is undefined behaviour
in C; the model leaves the pool as it is. -/
def writeBullet (bullets : List Bullet) (i : Int) (b : Bullet) : List Bullet :=
  if 0 ≤ i then bullets.set i.toNat b else bullets

/-- `spawnNextBullet` (lines 76-86); the warning it prints is not part of the state. -/
def spawnNextBullet (world : World) (position unitDirection : Vector2) : World :=
  let bullets := writeBullet world.bullets world.nextBulletIndex
    (newBullet position unitDirection)
  let next := world.nextBulletIndex + 1
  { world with
    bullets := bullets
    nextBulletIndex := if next ≥ (NUM_BULLETS : Int) then 0 else next }

/-- The body of the spawn loop of `InitGame` for enemy `iEnemy` (lines 101-109). -/
def spawnEnemy (E : Extern) (world : World) (iEnemy : Nat) : World :=
  let ENEMY_SPAWN_RADIUS : Flt := 300
  let ANGLE_STEP : Flt := (2 * E.PI) / Flt.fin NUM_ENEMIES
  let angle : Flt := Flt.fin iEnemy * ANGLE_STEP
  let spawnPoint : Vector2 :=
    ⟨world.player.position.x + ENEMY_SPAWN_RADIUS * E.cos angle,
     world.player.position.y + ENEMY_SPAWN_RADIUS * E.sin angle⟩
  { world with
    enemies := world.enemies.set iEnemy
      { position := spawnPoint, isValid := true, health := ENEMY_INIT_HEALTH } }

/-- `InitGame` (lines 88-111): a fresh zeroed `World`, the player, then the enemies. -/
def InitGame (E : Extern) : World :=
  let world := zeroWorld
  let world := { world with player := { position := ⟨0, 0⟩, isValid := true } }
  (List.range NUM_ENEMIES).foldl (spawnEnemy E) world

/-- The reset of lines 155-156: `memset(world, 0, sizeof(World))`, then `InitGame()`.
`InitGame` points `world` at a newly zeroed block, so nothing of the cleared block is
read again. -/
def resetGame (E : Extern) (_world : World) : World := InitGame E

/-! ## One pass of the game loop (`::GAME LOOP`) -/

/-- The four movement keys of lines 159-166, applied in source order. -/
def movePlayer (world : World) (p : Poll) : World :=
  let step := PLAYER_SPEED * p.deltaTime
  let pos := world.player.position
  let pos : Vector2 := if p.keyRight then ⟨pos.x + step, pos.y⟩ else pos
  let pos : Vector2 := if p.keyLeft then ⟨pos.x - step, pos.y⟩ else pos
  let pos : Vector2 := if p.keyUp then ⟨pos.x, pos.y - step⟩ else pos
  let pos : Vector2 := if p.keyDown then ⟨pos.x, pos.y + step⟩ else pos
  { world with player := { world.player with position := pos } }

/-- `::LOOP INPUT`, lines 153-167: in a terminal state only the reset key is read,
otherwise the movement keys are. -/
def loopInput (E : Extern) (world : World) (p : Poll) : World :=
  if world.isPlayerDead || world.isGameWon then
    if p.keyYes then resetGame E world else world
  else movePlayer world p

/-- The fire handling of lines 177-183. -/
def fire (E : Extern) (world : World) (p : Poll) : World :=
  if p.mousePressed then
    let shotDirection := Vector2Subtract p.WORLD_MOUSE_POS world.player.position
    let shotDirection := E.Vector2Normalize shotDirection
    spawnNextBullet world world.player.position shotDirection
  else world

/-- The enemy a bullet has hit (lines 206-209). -/
def damageEnemy (curEnemy : Enemy) : Enemy :=
  let health := curEnemy.health - BULLET_DAMAGE
  { curEnemy with
    health := health
    isValid := if health ≤ 0 then false else curEnemy.isValid }

/-- PART 3 of the bullet loop (lines 200-212) for a bullet at `bulletPosition`: the
enemies in index order, stopping at the first live enemy in range.  The Boolean tells
whether the `break` was taken, that is whether `curBullet->isValid` was cleared. -/
def collideEnemies (bulletPosition : Vector2) : List Enemy → Bool × List Enemy
  | [] => (false, [])
  | curEnemy :: rest =>
    if !curEnemy.isValid then
      let r := collideEnemies bulletPosition rest
      (r.1, curEnemy :: r.2)
    else if CheckCollisionCircles curEnemy.position ENEMY_RADIUS bulletPosition
        BULLET_RADIUS then
      (true, damageEnemy curEnemy :: rest)
    else
      let r := collideEnemies bulletPosition rest
      (r.1, curEnemy :: r.2)

/-- The body of the bullet loop for one slot (lines 186-212). -/
def updateBullet (deltaTime : Flt) (curBullet : Bullet) (enemies : List Enemy) :
    Bullet × List Enemy :=
  if !curBullet.isValid then (curBullet, enemies)
  else
    let curBullet := { curBullet with timeLeft := curBullet.timeLeft - deltaTime }
    if Flt.le curBullet.timeLeft 0 then ({ curBullet with isValid := false }, enemies)
    else
      let curBullet := { curBullet with
        position := Vector2Add curBullet.position
          (Vector2Scale curBullet.unitDirection (deltaTime * BULLET_SPEED)) }
      let r := collideEnemies curBullet.position enemies
      ({ curBullet with isValid := if r.1 then false else curBullet.isValid }, r.2)

/-- The bullet loop (lines 185-213): every slot in index order, each against the enemies
as the earlier slots left them. -/
def bulletLoop (deltaTime : Flt) : List Bullet → List Enemy → List Bullet × List Enemy
  | [], enemies => ([], enemies)
  | curBullet :: rest, enemies =>
    let r := updateBullet deltaTime curBullet enemies
    let s := bulletLoop deltaTime rest r.2
    (r.1 :: s.1, s.2)

/-- `BULLET UPDATE` (lines 176-214): the fire handling, then the bullet loop. -/
def bulletUpdate (E : Extern) (world : World) (p : Poll) : World :=
  let world := fire E world p
  let r := bulletLoop p.deltaTime world.bullets world.enemies
  { world with bullets := r.1, enemies := r.2 }

/-- The uniform-speed move of one live enemy (lines 230-232). -/
def moveEnemy (E : Extern) (deltaTime : Flt) (target_pos : Vector2) (curEnemy : Enemy) :
    Enemy :=
  let displacement := Vector2Subtract target_pos curEnemy.position
  let displacement := Vector2Scale displacement
    ((ENEMY_SPEED * deltaTime) / Vector2Length E displacement)
  { curEnemy with position := Vector2Add curEnemy.position displacement }

/-- The enemy loop (lines 220-241), carrying `numEnemyAlive` and `touchedPlayer`. -/
def enemyLoop (E : Extern) (deltaTime : Flt) (playerPosition : Vector2) :
    List Enemy → Nat → Bool → List Enemy × Nat × Bool
  | [], numEnemyAlive, touchedPlayer => ([], numEnemyAlive, touchedPlayer)
  | curEnemy :: rest, numEnemyAlive, touchedPlayer =>
    if !curEnemy.isValid then
      let r := enemyLoop E deltaTime playerPosition rest numEnemyAlive touchedPlayer
      (curEnemy :: r.1, r.2)
    else
      let curEnemy := moveEnemy E deltaTime playerPosition curEnemy
      let touchedPlayer :=
        if CheckCollisionCircles curEnemy.position ENEMY_RADIUS playerPosition
            PLAYER_RADIUS then true
        else touchedPlayer
      let r := enemyLoop E deltaTime playerPosition rest (numEnemyAlive + 1) touchedPlayer
      (curEnemy :: r.1, r.2)

/-- What `ENEMY UPDATE` leaves behind: the world and its two tick-scoped variables. -/
structure EnemyTick where
  world : World
  numEnemyAlive : Nat
  touchedPlayer : Bool

/-- `ENEMY UPDATE` (lines 216-246). -/
def enemyUpdate (E : Extern) (world : World) (deltaTime : Flt) : EnemyTick :=
  let r := enemyLoop E deltaTime world.player.position world.enemies 0 false
  let world := { world with enemies := r.1 }
  let world :=
    if r.2.2 then { world with player := { world.player with isValid := false } }
    else world
  { world := world, numEnemyAlive := r.2.1, touchedPlayer := r.2.2 }

/-- The guard of the `PlayerDead` transition (line 299). -/
def deathTransitionTaken (world : World) (touchedPlayer : Bool) : Bool :=
  !world.isPlayerDead && touchedPlayer

/-- The guard of the `GameWon` transition (line 304). -/
def winTransitionTaken (world : World) (numEnemyAlive : Nat) : Bool :=
  !world.isGameWon && numEnemyAlive == 0

/-- The state transitions of lines 299-306, reading the `touchedPlayer` and
`numEnemyAlive` that `ENEMY UPDATE` computed in the same pass. -/
def stateTransitions (t : EnemyTick) : World :=
  let world := t.world
  let world :=
    if deathTransitionTaken world t.touchedPlayer then
      { world with isPlayerDead := true, player := { world.player with isValid := false } }
    else world
  if winTransitionTaken world t.numEnemyAlive then { world with isGameWon := true }
  else world

/-- One pass of the game loop (lines 135-324) on the `World`. -/
def frame (E : Extern) (world : World) (p : Poll) : World :=
  let world := loopInput E world p
  let world := bulletUpdate E world p
  stateTransitions (enemyUpdate E world p.deltaTime)

/-- Consecutive passes of the game loop, one per element of `polls`. -/
def run (E : Extern) (world : World) (polls : List Poll) : World :=
  polls.foldl (frame E) world

/-! ## A computable instance of the external functions

The theorems below hold for every `Extern`.  To evaluate the model on concrete inputs an
instance is needed; this one is exact where the exact result is rational. -/

/-- Bisection for the integer square root: with `lo * lo ≤ n < hi * hi` the result is
the greatest `r` with `r * r ≤ n`, once `fuel` covers the halvings. -/
def isqrtAux (n : Nat) : Nat → Nat → Nat → Nat
  | 0, lo, _ => lo
  | fuel + 1, lo, hi =>
    if hi ≤ lo + 1 then lo
    else
      let mid := (lo + hi) / 2
      if mid * mid ≤ n then isqrtAux n fuel mid hi else isqrtAux n fuel lo mid

/-- The integer square root. -/
def isqrt (n : Nat) : Nat := isqrtAux n n 0 (n + 1)

/-- A square root on `Flt`: exact on squares of rationals, otherwise rounded down at
the sixth decimal; not finite on negative arguments. -/
def refSqrt : Flt → Flt
  | Flt.fin q =>
    if q < 0 then Flt.undef
    else Flt.fin ((isqrt (q.num.toNat * q.den * 10 ^ 12) : ℚ) / ((q.den : ℚ) * 10 ^ 6))
  | Flt.undef => Flt.undef

/-- Partial sums of the cosine series, `term` being the term of index `k`. -/
def cosSeries (x : ℚ) : Nat → Nat → ℚ → ℚ
  | 0, _, _ => 0
  | fuel + 1, k, term =>
    term + cosSeries x fuel (k + 1) (-term * x * x / (((2 * k + 1) * (2 * k + 2) : Nat) : ℚ))

/-- Partial sums of the sine series, `term` being the term of index `k`. -/
def sinSeries (x : ℚ) : Nat → Nat → ℚ → ℚ
  | 0, _, _ => 0
  | fuel + 1, k, term =>
    term + sinSeries x fuel (k + 1) (-term * x * x / (((2 * k + 2) * (2 * k + 3) : Nat) : ℚ))

/-- Rounding towards minus infinity at the sixth decimal. -/
def roundSixth (q : ℚ) : ℚ := ((q.num * 10 ^ 6 / (q.den : Int) : Int) : ℚ) / 10 ^ 6

/-- Cosine by twelve terms of its series, rounded at the sixth decimal. -/
def refCos : Flt → Flt
  | Flt.fin x => Flt.fin (roundSixth (cosSeries x 12 0 1))
  | Flt.undef => Flt.undef

/-- Sine by twelve terms of its series, rounded at the sixth decimal. -/
def refSin : Flt → Flt
  | Flt.fin x => Flt.fin (roundSixth (sinSeries x 12 0 x))
  | Flt.undef => Flt.undef

/-- The raymath 4 and 5 definition of `Vector2Normalize`: the zero vector when the
length is not positive, otherwise the vector times the inverse of its length. -/
def refNormalize (v : Vector2) : Vector2 :=
  let length := refSqrt (v.x * v.x + v.y * v.y)
  if Flt.gt length 0 then
    let ilength := (1 : Flt) / length
    ⟨v.x * ilength, v.y * ilength⟩
  else ⟨0, 0⟩

/-- The instance used for evaluation. -/
def refExtern : Extern :=
  { sqrtf := refSqrt
    cos := refCos
    sin := refSin
    PI := Flt.fin (355 / 113)
    Vector2Normalize := refNormalize }


/-! ## Rounding

`Flt` arithmetic is exact, and the program rounds the result of every float operation to
single precision.  Two properties below, the lifetime of a bullet and the speed of an
enemy, are about quantities on which that rounding shows.  For them the two loop bodies
are given a second time with the rounding explicit: `rnd` is applied to the result of
each float operation, in the order of the source.  With `rnd = id` these are the
definitions above; with `rnd = Flt.single` and `sqrtSingle` they compute what IEEE 754
single precision computes, rounding to nearest, ties to even. -/

/-- The binade of `num / den ≥ 0` in single precision, counted from the subnormals: the
least `k ≤ 253` with `num / den < 2 ^ (k + 1) / 2 ^ 126`.  Binade 0 holds zero, the
subnormals and the least normal binade; in binade `k` consecutive singles are
`2 ^ k / 2 ^ 149` apart. -/
def binadeSingle (num den : Nat) : Nat → Nat → Nat
  | 0, k => k
  | fuel + 1, k =>
    if num * 2 ^ 126 < 2 ^ (k + 1) * den then k else binadeSingle num den fuel (k + 1)

/-- The integer nearest to `N / D`, the even one of two that are equally near. -/
def nearestQuotient (N D : Nat) : Nat :=
  let f := N / D
  let r := N % D
  if 2 * r < D then f else if D < 2 * r then f + 1 else if f % 2 = 0 then f else f + 1

/-- The single nearest to `q`, ties to the even significand; `undef`, for an infinity,
when that is `2 ^ 128` or beyond.  In binade `k` the singles are the multiples of
`2 ^ k / 2 ^ 149`, and `|q|` is `|num| * 2 ^ 149 / (den * 2 ^ k)` times that. -/
def roundSingle (q : ℚ) : Flt :=
  let k := binadeSingle q.num.natAbs q.den 253 0
  let m := nearestQuotient (q.num.natAbs * 2 ^ 149) (q.den * 2 ^ k)
  if 2 ^ 277 ≤ m * 2 ^ k then Flt.undef
  else if q.num < 0 then Flt.fin (-((m * 2 ^ k : Nat) : ℚ) / ((2 ^ 149 : Nat) : ℚ))
  else Flt.fin (((m * 2 ^ k : Nat) : ℚ) / ((2 ^ 149 : Nat) : ℚ))

/-- Rounding to single precision on `Flt`. -/
def Flt.single : Flt → Flt
  | Flt.fin q => roundSingle q
  | Flt.undef => Flt.undef

/-- The libm `sqrtf` in single precision: the single nearest to the square root.  The
root is taken rounded down to a multiple of `1 / (den * 2 ^ 150)`, with half of that
added when it is not exact: a number that lies between the same two singles as the root,
and on the same side of their midpoint. -/
def sqrtSingle : Flt → Flt
  | Flt.fin q =>
    if q < 0 then Flt.undef
    else
      let n := q.num.toNat * q.den * 4 ^ 150
      let r := isqrt n
      roundSingle (((2 * r + (if r * r = n then 0 else 1) : Nat) : ℚ) /
        ((q.den * 2 ^ 151 : Nat) : ℚ))
  | Flt.undef => Flt.undef

/-- The instance `refExtern` with the square root of single precision. -/
def singleExtern : Extern := { refExtern with sqrtf := sqrtSingle }

/-- `Vector2Add` with rounding. -/
def Vector2AddRounded (rnd : Flt → Flt) (v1 v2 : Vector2) : Vector2 :=
  ⟨rnd (v1.x + v2.x), rnd (v1.y + v2.y)⟩

/-- `Vector2Subtract` with rounding. -/
def Vector2SubtractRounded (rnd : Flt → Flt) (v1 v2 : Vector2) : Vector2 :=
  ⟨rnd (v1.x - v2.x), rnd (v1.y - v2.y)⟩

/-- `Vector2Scale` with rounding. -/
def Vector2ScaleRounded (rnd : Flt → Flt) (v : Vector2) (scale : Flt) : Vector2 :=
  ⟨rnd (v.x * scale), rnd (v.y * scale)⟩

/-- `Vector2Length` with rounding: two products, their sum, and the square root, which
`sqrtf` returns rounded. -/
def Vector2LengthRounded (rnd : Flt → Flt) (E : Extern) (v : Vector2) : Flt :=
  E.sqrtf (rnd (rnd (v.x * v.x) + rnd (v.y * v.y)))

/-- `CheckCollisionCircles` with rounding. -/
def CheckCollisionCirclesRounded (rnd : Flt → Flt) (center1 : Vector2) (radius1 : Flt)
    (center2 : Vector2) (radius2 : Flt) : Bool :=
  let dx := rnd (center2.x - center1.x)
  let dy := rnd (center2.y - center1.y)
  let distanceSquared := rnd (rnd (dx * dx) + rnd (dy * dy))
  let radiusSum := rnd (radius1 + radius2)
  Flt.le distanceSquared (rnd (radiusSum * radiusSum))

/-- PART 3 of the bullet loop (lines 200-212) with rounding; as `collideEnemies`. -/
def collideEnemiesRounded (rnd : Flt → Flt) (bulletPosition : Vector2) :
    List Enemy → Bool × List Enemy
  | [] => (false, [])
  | curEnemy :: rest =>
    if !curEnemy.isValid then
      let r := collideEnemiesRounded rnd bulletPosition rest
      (r.1, curEnemy :: r.2)
    else if CheckCollisionCirclesRounded rnd curEnemy.position ENEMY_RADIUS bulletPosition
        BULLET_RADIUS then
      (true, damageEnemy curEnemy :: rest)
    else
      let r := collideEnemiesRounded rnd bulletPosition rest
      (r.1, curEnemy :: r.2)

/-- The body of the bullet loop for one slot (lines 186-212) with rounding: the
subtraction of line 190, the product, the scaling and the sum of line 197, and the
collision tests. -/
def updateBulletRounded (rnd : Flt → Flt) (deltaTime : Flt) (curBullet : Bullet)
    (enemies : List Enemy) : Bullet × List Enemy :=
  if !curBullet.isValid then (curBullet, enemies)
  else
    let curBullet := { curBullet with timeLeft := rnd (curBullet.timeLeft - deltaTime) }
    if Flt.le curBullet.timeLeft 0 then ({ curBullet with isValid := false }, enemies)
    else
      let curBullet := { curBullet with
        position := Vector2AddRounded rnd curBullet.position
          (Vector2ScaleRounded rnd curBullet.unitDirection (rnd (deltaTime * BULLET_SPEED))) }
      let r := collideEnemiesRounded rnd curBullet.position enemies
      ({ curBullet with isValid := if r.1 then false else curBullet.isValid }, r.2)

/-- The uniform-speed move of one live enemy (lines 230-232) with rounding. -/
def moveEnemyRounded (rnd : Flt → Flt) (E : Extern) (deltaTime : Flt) (target_pos : Vector2)
    (curEnemy : Enemy) : Enemy :=
  let displacement := Vector2SubtractRounded rnd target_pos curEnemy.position
  let displacement := Vector2ScaleRounded rnd displacement
    (rnd (rnd (ENEMY_SPEED * deltaTime) / Vector2LengthRounded rnd E displacement))
  { curEnemy with position := Vector2AddRounded rnd curEnemy.position displacement }

/-- The enemy loop (lines 220-241) with rounding; as `enemyLoop`. -/
def enemyLoopRounded (rnd : Flt → Flt) (E : Extern) (deltaTime : Flt)
    (playerPosition : Vector2) : List Enemy → Nat → Bool → List Enemy × Nat × Bool
  | [], numEnemyAlive, touchedPlayer => ([], numEnemyAlive, touchedPlayer)
  | curEnemy :: rest, numEnemyAlive, touchedPlayer =>
    if !curEnemy.isValid then
      let r := enemyLoopRounded rnd E deltaTime playerPosition rest numEnemyAlive touchedPlayer
      (curEnemy :: r.1, r.2)
    else
      let curEnemy := moveEnemyRounded rnd E deltaTime playerPosition curEnemy
      let touchedPlayer :=
        if CheckCollisionCirclesRounded rnd curEnemy.position ENEMY_RADIUS playerPosition
            PLAYER_RADIUS then true
        else touchedPlayer
      let r := enemyLoopRounded rnd E deltaTime playerPosition rest (numEnemyAlive + 1)
        touchedPlayer
      (curEnemy :: r.1, r.2)

/-- `ENEMY UPDATE` (lines 216-246) with rounding; as `enemyUpdate`. -/
def enemyUpdateRounded (rnd : Flt → Flt) (E : Extern) (world : World) (deltaTime : Flt) :
    EnemyTick :=
  let r := enemyLoopRounded rnd E deltaTime world.player.position world.enemies 0 false
  let world := { world with enemies := r.1 }
  let world :=
    if r.2.2 then { world with player := { world.player with isValid := false } }
    else world
  { world := world, numEnemyAlive := r.2.1, touchedPlayer := r.2.2 }

/-- The operation whose exact result is `q` gives `r`, within the relative error `u`. -/
def RoundsTo (rnd : Flt → Flt) (u q r : ℚ) : Prop :=
  rnd (Flt.fin q) = Flt.fin r ∧ |r - q| ≤ u * |q|

/-! ## Runs and relations used in the statements -/

/-- Fire operations one after another: `spawnNextBullet` for each (position, direction)
of `shots`, with no frame in between. -/
def fireAll (world : World) (shots : List (Vector2 × Vector2)) : World :=
  shots.foldl (fun w s => spawnNextBullet w s.1 s.2) world

/-- One bullet over consecutive passes.  Each step gives the `deltaTime` of a pass and
the enemies as the bullet loop holds them when it reaches the slot of the bullet. -/
def bulletRun (rnd : Flt → Flt) (b : Bullet) (steps : List (Flt × List Enemy)) : Bullet :=
  steps.foldl (fun b s => (updateBulletRounded rnd s.1 b s.2).1) b

/-- The bullet hits no enemy in any of the passes: the loop body on its slot leaves the
enemies as they were. -/
def hitsNoEnemy (rnd : Flt → Flt) (b : Bullet) : List (Flt × List Enemy) → Bool
  | [] => true
  | s :: rest =>
    decide ((updateBulletRounded rnd s.1 b s.2).2 = s.2) &&
      hitsNoEnemy rnd (updateBulletRounded rnd s.1 b s.2).1 rest

/-- The passes of a bullet with finite frame times. -/
def finiteSteps (steps : List (ℚ × List Enemy)) : List (Flt × List Enemy) :=
  steps.map (fun s => (Flt.fin s.1, s.2))

/-- The countdown of line 190 over passes with the frame times `dts`, from `timeLeft`:
every subtraction that the loop performs gives a finite number within `eps` of the exact
difference.  The loop stops subtracting once the result is not positive. -/
def countdownWithin (rnd : Flt → Flt) (eps : ℚ) : Flt → List Flt → Bool
  | _, [] => true
  | timeLeft, deltaTime :: rest =>
    match timeLeft - deltaTime, rnd (timeLeft - deltaTime) with
    | Flt.fin x, Flt.fin r =>
      decide (x - eps ≤ r ∧ r ≤ x + eps) &&
        (decide (r ≤ 0) || countdownWithin rnd eps (Flt.fin r) rest)
    | _, _ => false

/-- What the bullet loop of one pass can do to an enemy `e`: nothing, or one or more
hits on a live enemy, which keep its position, take `BULLET_DAMAGE` each from its health
and leave it valid exactly when the health is still positive. -/
def AfterHits (e e' : Enemy) : Prop :=
  e' = e ∨
    (e.isValid = true ∧ e'.position = e.position ∧
      (∃ k : Nat, 0 < k ∧ e'.health = e.health - k * BULLET_DAMAGE) ∧
      e'.isValid = decide (0 < e'.health))

/-- The flag `isGameWon` is only up in a world without live enemies. -/
def WonMeansNoEnemy (w : World) : Prop :=
  w.isGameWon = true → ∀ e ∈ w.enemies, e.isValid = false

/-! ## Concrete passes and worlds, for evaluation -/

/-- A pass with no key, no click and `deltaTime = 0`. -/
def idlePoll : Poll :=
  { deltaTime := 0
    mousePressed := false
    keyYes := false
    keyRight := false
    keyLeft := false
    keyUp := false
    keyDown := false
    WORLD_MOUSE_POS := ⟨0, 0⟩ }

/-- A pass with `deltaTime = 0` in which the mouse is clicked at `target`. -/
def clickPoll (target : Vector2) : Poll :=
  { idlePoll with mousePressed := true, WORLD_MOUSE_POS := target }

/-- A pass of `deltaTime` seconds with no key and no click. -/
def waitPoll (deltaTime : ℚ) : Poll := { idlePoll with deltaTime := Flt.fin deltaTime }

/-- A pass of `deltaTime` seconds with the right key down. -/
def rightPoll (deltaTime : ℚ) : Poll :=
  { idlePoll with deltaTime := Flt.fin deltaTime, keyRight := true }

/-- The opening of `lateWinPolls`, 21 passes.
Passes 1-20 (`deltaTime = 0`): ten clicks towards enemy 1 and ten towards enemy 2; the
bullets wait on the player at (0,0).
Pass 21 (3/5 s, right key): the twenty bullets fly 300 units and kill enemies 1 and 2;
the player walks to (90,0), enemy 0 from (300,0) to (270,0). -/
def openingPolls : List Poll :=
  List.replicate 10 (clickPoll ⟨Flt.fin (-8), 15⟩) ++
  List.replicate 10 (clickPoll ⟨Flt.fin (-8), Flt.fin (-15)⟩) ++
  [rightPoll (3 / 5)]

/-- The middle of `lateWinPolls`, 12 passes.
Pass 22 (133/200 s, right key): the player walks to (189.75,0), enemy 0 to (236.75,0),
which is 47 away: no contact.
Passes 23-32 (`deltaTime = 0`): ten clicks to the right of the player; the bullets wait
on the player, 47 away from enemy 0: out of range.
Pass 33 (1/50 s): the bullets fly to (199.75,0), 37 away from enemy 0: no hit; enemy 0
walks to (235.75,0), 46 away from the player: contact, the player is dead. -/
def closingPolls : List Poll :=
  [rightPoll (133 / 200)] ++
  List.replicate 10 (clickPoll ⟨Flt.fin (763 / 4), 0⟩) ++
  [waitPoll (1 / 50)]

/-- A run of 34 passes, none with the reset key, in which the player dies and the game
is won afterwards, by bullets fired before the death: `openingPolls`, `closingPolls`,
and pass 34 (1/50 s), in which the bullets fly to (209.75,0), 26 away from enemy 0: ten
hits, enemy 0 is dead and the game is won. -/
def lateWinPolls : List Poll := openingPolls ++ closingPolls ++ [waitPoll (1 / 50)]

/-- The Playing world that `openingPolls` reaches from a freshly initialised world under
`refExtern` (`duelWorld_reached`): the player at (90,0), enemy 0 at (270,0), enemies 1
and 2 dead, the twenty bullets spent. -/
def duelWorld : World :=
  { isPlayerDead := false
    isGameWon := false
    cameraTarget := ⟨0, 0⟩
    player := ⟨⟨90, 0⟩, true⟩
    bullets :=
      List.replicate 10
        ⟨⟨Flt.fin (-2400 / 17), Flt.fin (4500 / 17)⟩, ⟨Flt.fin (-8 / 17), Flt.fin (15 / 17)⟩,
        Flt.fin (12 / 5), false⟩ ++
      List.replicate 10
        ⟨⟨Flt.fin (-2400 / 17), Flt.fin (-4500 / 17)⟩, ⟨Flt.fin (-8 / 17), Flt.fin (-15 / 17)⟩,
        Flt.fin (12 / 5), false⟩ ++
      List.replicate 10 ⟨⟨0, 0⟩, ⟨0, 0⟩, 0, false⟩
    nextBulletIndex := 20
    enemies :=
      [⟨⟨270, 0⟩, true, 100⟩,
       ⟨⟨Flt.fin (-1500003 / 10000), Flt.fin (103923 / 400)⟩, false, 0⟩,
       ⟨⟨Flt.fin (-150), Flt.fin (-1299039 / 5000)⟩, false, 0⟩] }

/-- The world that `closingPolls` reaches from `duelWorld` (`deadWorld_reached`): enemy 0
at (235.75,0) has just touched the player at (189.75,0), who is dead; ten bullets are
in flight at (199.75,0). -/
def deadWorld : World :=
  { isPlayerDead := true
    isGameWon := false
    cameraTarget := ⟨0, 0⟩
    player := ⟨⟨Flt.fin (759 / 4), 0⟩, false⟩
    bullets :=
      List.replicate 10
        ⟨⟨Flt.fin (-2400 / 17), Flt.fin (4500 / 17)⟩, ⟨Flt.fin (-8 / 17), Flt.fin (15 / 17)⟩,
        Flt.fin (12 / 5), false⟩ ++
      List.replicate 10
        ⟨⟨Flt.fin (-2400 / 17), Flt.fin (-4500 / 17)⟩, ⟨Flt.fin (-8 / 17), Flt.fin (-15 / 17)⟩,
        Flt.fin (12 / 5), false⟩ ++
      List.replicate 10 ⟨⟨Flt.fin (799 / 4), 0⟩, ⟨1, 0⟩, Flt.fin (149 / 50), true⟩
    nextBulletIndex := 0
    enemies :=
      [⟨⟨Flt.fin (943 / 4), 0⟩, true, 100⟩,
       ⟨⟨Flt.fin (-1500003 / 10000), Flt.fin (103923 / 400)⟩, false, 0⟩,
       ⟨⟨Flt.fin (-150), Flt.fin (-1299039 / 5000)⟩, false, 0⟩] }

/-- The world that a pass of 1/50 s reaches from `deadWorld` (`wonWorld_reached`), the end
of `lateWinPolls`: the player is dead and every enemy is dead, enemy 0 at (235.75,0). -/
def wonWorld : World :=
  { isPlayerDead := true
    isGameWon := true
    cameraTarget := ⟨0, 0⟩
    player := ⟨⟨Flt.fin (759 / 4), 0⟩, false⟩
    bullets :=
      List.replicate 10
        ⟨⟨Flt.fin (-2400 / 17), Flt.fin (4500 / 17)⟩, ⟨Flt.fin (-8 / 17), Flt.fin (15 / 17)⟩,
        Flt.fin (12 / 5), false⟩ ++
      List.replicate 10
        ⟨⟨Flt.fin (-2400 / 17), Flt.fin (-4500 / 17)⟩, ⟨Flt.fin (-8 / 17), Flt.fin (-15 / 17)⟩,
        Flt.fin (12 / 5), false⟩ ++
      List.replicate 10 ⟨⟨Flt.fin (839 / 4), 0⟩, ⟨1, 0⟩, Flt.fin (74 / 25), false⟩
    nextBulletIndex := 0
    enemies :=
      [⟨⟨Flt.fin (943 / 4), 0⟩, false, 0⟩,
       ⟨⟨Flt.fin (-1500003 / 10000), Flt.fin (103923 / 400)⟩, false, 0⟩,
       ⟨⟨Flt.fin (-150), Flt.fin (-1299039 / 5000)⟩, false, 0⟩] }

/-- Ten passes with `deltaTime = 0` and a click to the right of (90,0). -/
def aimPolls : List Poll := List.replicate 10 (clickPoll ⟨91, 0⟩)

/-- The Playing world that `aimPolls` reaches from `duelWorld` (`aimedWorld_reached`): ten
bullets wait on the player at (90,0), heading for enemy 0 at (270,0). -/
def aimedWorld : World :=
  { isPlayerDead := false
    isGameWon := false
    cameraTarget := ⟨0, 0⟩
    player := ⟨⟨90, 0⟩, true⟩
    bullets :=
      List.replicate 10
        ⟨⟨Flt.fin (-2400 / 17), Flt.fin (4500 / 17)⟩, ⟨Flt.fin (-8 / 17), Flt.fin (15 / 17)⟩,
        Flt.fin (12 / 5), false⟩ ++
      List.replicate 10
        ⟨⟨Flt.fin (-2400 / 17), Flt.fin (-4500 / 17)⟩, ⟨Flt.fin (-8 / 17), Flt.fin (-15 / 17)⟩,
        Flt.fin (12 / 5), false⟩ ++
      List.replicate 10 ⟨⟨90, 0⟩, ⟨1, 0⟩, 3, true⟩
    nextBulletIndex := 0
    enemies :=
      [⟨⟨270, 0⟩, true, 100⟩,
       ⟨⟨Flt.fin (-1500003 / 10000), Flt.fin (103923 / 400)⟩, false, 0⟩,
       ⟨⟨Flt.fin (-150), Flt.fin (-1299039 / 5000)⟩, false, 0⟩] }

/-- A pass of 9/25 s with no input: bullets fly 180 units. -/
def flightPoll : Poll := waitPoll (9 / 25)

/-- A pass of one second with the right key down. -/
def chargePoll : Poll := rightPoll 1

/-- A pass of 1/5 s with no input: bullets fly 100 units, enemies walk 10. -/
def driftPoll : Poll := waitPoll (1 / 5)

/-- A pass of one second with the left and up keys down. -/
def fleePoll : Poll := { idlePoll with deltaTime := 1, keyLeft := true, keyUp := true }

/-- A pass in which the reset key is pressed. -/
def yesPoll : Poll := { idlePoll with keyYes := true }

/-- Thirty-one shots from different positions, all heading right. -/
def sampleShots : List (Vector2 × Vector2) :=
  (List.range 31).map (fun i => (⟨Flt.fin i, 0⟩, ⟨1, 0⟩))

/-- Three live enemies: the first out of range of a bullet at (300,0), the other two in
range of it. -/
def sampleEnemies : List Enemy :=
  [⟨⟨0, 300⟩, true, 100⟩, ⟨⟨300, 0⟩, true, 100⟩, ⟨⟨310, 0⟩, true, 100⟩]

/-- Eleven passes of 0.3 s against `sampleEnemies`; the frame time is the single nearest
to 3/10. -/
def slowSteps : List (ℚ × List Enemy) :=
  List.replicate 11 (5033165 / 16777216, sampleEnemies)

/-- Seven passes of about 0.43 s against `sampleEnemies`; the frame time is a single
just below 3/7. -/
def longSteps : List (ℚ × List Enemy) :=
  List.replicate 7 (7190235 / 16777216, sampleEnemies)

/-- Two hundred passes of 0.015 s against the enemies of `wonWorld`, which are all dead;
the frame time is the single nearest to 3/200. -/
def shortSteps : List (ℚ × List Enemy) :=
  List.replicate 200 (16106127 / 1073741824, wonWorld.enemies)

/-- Enemy 1 of a freshly initialised world under `refExtern` and `singleExtern`. -/
def secondEnemy : Enemy :=
  ⟨⟨Flt.fin (-1500003 / 10000), Flt.fin (103923 / 400)⟩, true, 100⟩

/-! ## Reachable worlds -/

/-- The worlds that the program can be in: the one `InitGame` builds, and from a
reachable world the one after a pass of the game loop, after a fire operation, or after
a reset. -/
inductive Reachable (E : Extern) : World → Prop where
  | init : Reachable E (InitGame E)
  | pass (w : World) (p : Poll) : Reachable E w → Reachable E (frame E w p)
  | shot (w : World) (position unitDirection : Vector2) :
      Reachable E w → Reachable E (spawnNextBullet w position unitDirection)
  | reset (w : World) : Reachable E w → Reachable E (resetGame E w)

/-- The cursor points into the pool, which has `NUM_BULLETS` slots. -/
def CursorInPool (w : World) : Prop :=
  0 ≤ w.nextBulletIndex ∧ w.nextBulletIndex < NUM_BULLETS ∧ w.bullets.length = NUM_BULLETS

/-- The health of an enemy is a multiple of `BULLET_DAMAGE` between 0 and
`ENEMY_INIT_HEALTH`, and the enemy is valid exactly when it has health left. -/
def EnemyOk (e : Enemy) : Prop :=
  BULLET_DAMAGE ∣ e.health ∧ 0 ≤ e.health ∧ e.health ≤ ENEMY_INIT_HEALTH ∧
    (e.isValid = true ↔ 0 < e.health)

/-- The flag `isPlayerDead` is up exactly when the player is invalid. -/
def DeadMeansInvalid (w : World) : Prop :=
  w.isPlayerDead = true ↔ w.player.isValid = false

/-- The setting of the example scenario: a Playing world with the player at (0,0), no
bullet in flight, a live enemy in slot `j` on the x axis at `x` with health `h`, and no
other live enemy. -/
def SoloShape (w : World) (j : Nat) (x : ℚ) (h : Int) : Prop :=
  w.player.position = ⟨0, 0⟩ ∧ w.isPlayerDead = false ∧ w.isGameWon = false ∧
    (∀ b ∈ w.bullets, b.isValid = false) ∧
    w.enemies[j]? = some ⟨⟨Flt.fin x, 0⟩, true, h⟩ ∧
    (∀ (i : Nat) (a : Enemy), i ≠ j → w.enemies[i]? = some a → a.isValid = false)

/-- A pass of one second with no movement key and no click. -/
def QuietSecond (p : Poll) : Prop :=
  p.deltaTime = 1 ∧ p.mousePressed = false ∧ p.keyRight = false ∧ p.keyLeft = false ∧
    p.keyUp = false ∧ p.keyDown = false

/-- A world in the setting of the example scenario: the freshly initialised world under
`refExtern` with enemies 1 and 2 dead. -/
def soloWorld : World :=
  { isPlayerDead := false
    isGameWon := false
    cameraTarget := ⟨0, 0⟩
    player := ⟨⟨0, 0⟩, true⟩
    bullets := List.replicate 30 ⟨⟨0, 0⟩, ⟨0, 0⟩, 0, false⟩
    nextBulletIndex := 0
    enemies :=
      [⟨⟨Flt.fin 300, 0⟩, true, 100⟩,
       ⟨⟨Flt.fin (-1500003 / 10000), Flt.fin (103923 / 400)⟩, false, 0⟩,
       ⟨⟨Flt.fin (-150), Flt.fin (-1299039 / 5000)⟩, false, 0⟩] }

/-- A pass of one second with no key and no click. -/
def secondPoll : Poll := { idlePoll with deltaTime := 1 }

/-- A pass of 1/5 s with a click to the right of (90,0). -/
def shotPoll : Poll := { clickPoll ⟨91, 0⟩ with deltaTime := Flt.fin (1 / 5) }

/-- A live bullet at (300,0) with half a second left. -/
def oldBullet : Bullet := ⟨⟨300, 0⟩, ⟨1, 0⟩, Flt.fin (1 / 2), true⟩

/-! # Properties

All definitions are above this line; below are lemmas and the theorems of the claims. -/

/-! ## The bullet pool -/

theorem InitGame_bullets (E : Extern) :
    (InitGame E).bullets =
      List.replicate NUM_BULLETS ⟨zeroVector2, zeroVector2, 0, false⟩ := by
  simp [InitGame, NUM_ENEMIES, List.range, List.range.loop, spawnEnemy, zeroWorld]

theorem InitGame_nextBulletIndex (E : Extern) : (InitGame E).nextBulletIndex = 0 := by
  simp [InitGame, NUM_ENEMIES, List.range, List.range.loop, spawnEnemy, zeroWorld]

theorem spawnNextBullet_bullets (w : World) (c : Nat) (pos dir : Vector2)
    (hc : w.nextBulletIndex = c) :
    (spawnNextBullet w pos dir).bullets = w.bullets.set c (newBullet pos dir) := by
  simp [spawnNextBullet, writeBullet, hc]

theorem spawnNextBullet_index (w : World) (c : Nat) (pos dir : Vector2)
    (hc : w.nextBulletIndex = c) :
    (spawnNextBullet w pos dir).nextBulletIndex =
      if c + 1 ≥ NUM_BULLETS then 0 else ((c + 1 : Nat) : Int) := by
  simp only [spawnNextBullet, hc, NUM_BULLETS]
  split_ifs <;> first | rfl | omega

theorem fireAll_spec (shots : List (Vector2 × Vector2)) :
    ∀ (w : World) (c : Nat), w.nextBulletIndex = c → c < NUM_BULLETS →
      c + shots.length ≤ NUM_BULLETS → w.bullets.length = NUM_BULLETS →
      (fireAll w shots).nextBulletIndex =
          (if c + shots.length = NUM_BULLETS then 0 else ((c + shots.length : Nat) : Int)) ∧
        (fireAll w shots).bullets.length = NUM_BULLETS ∧
        ∀ k : Nat, (fireAll w shots).bullets[k]? =
          if c ≤ k ∧ k < c + shots.length then
            shots[k - c]?.map (fun s => newBullet s.1 s.2)
          else w.bullets[k]? := by
  induction shots with
  | nil =>
    intro w c hc hlt hle hlen
    refine ⟨?_, hlen, ?_⟩
    · have : ¬ c = NUM_BULLETS := by omega
      simp [fireAll, hc, this]
    · intro k
      have : ¬ (c ≤ k ∧ k < c) := by omega
      simp [fireAll, this]
  | cons s rest ih =>
    intro w c hc hlt hle hlen
    have hstep : fireAll w (s :: rest) = fireAll (spawnNextBullet w s.1 s.2) rest := rfl
    have hb := spawnNextBullet_bullets w c s.1 s.2 hc
    have hi := spawnNextBullet_index w c s.1 s.2 hc
    have hlen1 : (spawnNextBullet w s.1 s.2).bullets.length = NUM_BULLETS := by
      rw [hb, List.length_set, hlen]
    rw [hstep]
    simp only [List.length_cons] at hle ⊢
    by_cases hw : c + 1 = NUM_BULLETS
    · have hrest : rest = [] := by
        apply List.eq_nil_of_length_eq_zero; omega
      subst hrest
      refine ⟨?_, hlen1, ?_⟩
      · simp [fireAll, hi, hw]
      · intro k
        simp only [fireAll, List.foldl_nil, hb, List.length_nil, Nat.zero_add]
        by_cases hk : c = k
        · subst hk
          have h1 : c < w.bullets.length := by omega
          simp [List.getElem?_set_self h1]
        · have h2 : ¬ (c ≤ k ∧ k < c + 1) := by omega
          simp [List.getElem?_set_ne hk, h2]
    · have hlt1 : c + 1 < NUM_BULLETS := by omega
      have hi1 : (spawnNextBullet w s.1 s.2).nextBulletIndex = ((c + 1 : Nat) : Int) := by
        rw [hi]; simp; omega
      obtain ⟨i1, i2, i3⟩ := ih _ (c + 1) hi1 hlt1 (by omega) hlen1
      refine ⟨?_, i2, ?_⟩
      · rw [i1]
        have : c + 1 + rest.length = c + (rest.length + 1) := by omega
        rw [this]
      · intro k
        rw [i3, hb]
        by_cases hk : c = k
        · subst hk
          have h1 : c < w.bullets.length := by omega
          have h2 : ¬ (c + 1 ≤ c ∧ c < c + 1 + rest.length) := by omega
          have h3 : (c ≤ c ∧ c < c + (rest.length + 1)) := by omega
          simp [List.getElem?_set_self h1, h2, h3]
        · by_cases hin : c + 1 ≤ k ∧ k < c + 1 + rest.length
          · have h3 : (c ≤ k ∧ k < c + (rest.length + 1)) := by omega
            have h4 : k - c = (k - (c + 1)) + 1 := by omega
            simp [hin, h3, h4]
          · have h3 : ¬ (c ≤ k ∧ k < c + (rest.length + 1)) := by omega
            simp [hin, h3, List.getElem?_set_ne hk]

/-- C1 (pool wraparound): after `NUM_BULLETS + 1 = 31` fire operations on a freshly
initialised world, slot 0 holds the 31st bullet with `timeLeft = BULLET_LIFETIME`, slots
1..29 hold the 2nd..30th bullets, exactly `NUM_BULLETS` slots are live and the cursor
is 1. -/
theorem C1_pool_wraparound (E : Extern) (shots : List (Vector2 × Vector2))
    (h : shots.length = NUM_BULLETS + 1) :
    (fireAll (InitGame E) shots).bullets[0]? =
        shots[30]?.map (fun s => (⟨s.1, s.2, BULLET_LIFETIME, true⟩ : Bullet)) ∧
      (∀ k : Nat, 1 ≤ k → k ≤ 29 →
        (fireAll (InitGame E) shots).bullets[k]? =
          shots[k]?.map (fun s => (⟨s.1, s.2, BULLET_LIFETIME, true⟩ : Bullet))) ∧
      (fireAll (InitGame E) shots).bullets.length = NUM_BULLETS ∧
      ((fireAll (InitGame E) shots).bullets.filter (fun b => b.isValid)).length =
        NUM_BULLETS ∧
      (fireAll (InitGame E) shots).nextBulletIndex = 1 := by
  have hsplit : shots = shots.take 30 ++ shots.drop 30 := (List.take_append_drop 30 shots).symm
  obtain ⟨last, hlast⟩ : ∃ last, shots.drop 30 = [last] := by
    have : (shots.drop 30).length = 1 := by simp [h, NUM_BULLETS]
    exact List.length_eq_one.mp this
  have htl : (shots.take 30).length = 30 := by simp [h, NUM_BULLETS]
  have hrun : fireAll (InitGame E) shots =
      spawnNextBullet (fireAll (InitGame E) (shots.take 30)) last.1 last.2 := by
    conv_lhs => rw [hsplit, hlast]
    simp [fireAll, List.foldl_append]
  obtain ⟨i1, i2, i3⟩ := fireAll_spec (shots.take 30) (InitGame E) 0
    (by simp [InitGame_nextBulletIndex]) (by simp [NUM_BULLETS]) (by simp [htl, NUM_BULLETS])
    (by simp [InitGame_bullets])
  have hc0 : (fireAll (InitGame E) (shots.take 30)).nextBulletIndex = ((0 : Nat) : Int) := by
    rw [i1]; simp [htl, NUM_BULLETS]
  have hb := spawnNextBullet_bullets _ 0 last.1 last.2 hc0
  have hi := spawnNextBullet_index _ 0 last.1 last.2 hc0
  have h30 : shots[30]? = some last := by
    have : (shots.drop 30)[0]? = some last := by rw [hlast]; rfl
    simpa using this
  have hget : ∀ k : Nat, 1 ≤ k → k ≤ 29 →
      (fireAll (InitGame E) shots).bullets[k]? =
        shots[k]?.map (fun s => (⟨s.1, s.2, BULLET_LIFETIME, true⟩ : Bullet)) := by
    intro k h1 h2
    have hk : (0 : Nat) ≠ k := by omega
    have hin : 0 ≤ k ∧ k < 0 + (shots.take 30).length := by omega
    rw [hrun, hb, List.getElem?_set_ne hk, i3 k, if_pos hin]
    have hk30 : k < 30 := by omega
    simp [List.getElem?_take_of_lt hk30, newBullet]
  have hget0 : (fireAll (InitGame E) shots).bullets[0]? =
      shots[30]?.map (fun s => (⟨s.1, s.2, BULLET_LIFETIME, true⟩ : Bullet)) := by
    rw [hrun, hb, h30]
    have : 0 < (fireAll (InitGame E) (shots.take 30)).bullets.length := by
      rw [i2]; simp [NUM_BULLETS]
    simp [List.getElem?_set_self this, newBullet]
  have hlen : (fireAll (InitGame E) shots).bullets.length = NUM_BULLETS := by
    rw [hrun, hb, List.length_set, i2]
  refine ⟨hget0, hget, hlen, ?_, ?_⟩
  · have hall : ∀ b ∈ (fireAll (InitGame E) shots).bullets, (fun b : Bullet => b.isValid) b = true := by
      intro b hbm
      obtain ⟨k, hk⟩ := List.mem_iff_getElem?.mp hbm
      have hklt : k < NUM_BULLETS := by
        rw [← hlen]
        by_contra hcon
        rw [List.getElem?_eq_none (by omega)] at hk
        exact Option.noConfusion hk
      by_cases hk0 : k = 0
      · subst hk0
        rw [hget0, h30] at hk
        simp at hk
        rw [← hk]
      · have hsk : ∃ s, shots[k]? = some s := by
          have : k < shots.length := by rw [h]; omega
          exact ⟨shots[k], List.getElem?_eq_getElem this⟩
        obtain ⟨s, hs⟩ := hsk
        rw [hget k (by omega) (by simp [NUM_BULLETS] at hklt; omega), hs] at hk
        simp at hk
        rw [← hk]
    rw [List.filter_eq_self.mpr hall, hlen]
  · rw [hrun, hi]; simp [NUM_BULLETS]

/-! ## The enemy loop -/

/-- The enemy loop in closed form: live enemies are moved, `numEnemyAlive` grows by the
number of live enemies, and `touchedPlayer` is raised by a live enemy that touches the
player after its move. -/
theorem enemyLoop_eq (E : Extern) (dt : Flt) (pp : Vector2) :
    ∀ (es : List Enemy) (n : Nat) (t : Bool),
      enemyLoop E dt pp es n t =
        (es.map (fun e => if e.isValid then moveEnemy E dt pp e else e),
          n + es.countP (fun e => e.isValid),
          t || es.any (fun e => e.isValid &&
            CheckCollisionCircles (moveEnemy E dt pp e).position ENEMY_RADIUS pp
              PLAYER_RADIUS)) := by
  intro es
  induction es with
  | nil => intro n t; simp [enemyLoop]
  | cons e rest ih =>
    intro n t
    by_cases hv : e.isValid = true
    · by_cases hc : CheckCollisionCircles (moveEnemy E dt pp e).position ENEMY_RADIUS pp
          PLAYER_RADIUS = true
      · simp [enemyLoop, hv, hc, ih, List.countP_cons]
        omega
      · simp [enemyLoop, hv, hc, ih, List.countP_cons]
        omega
    · simp [enemyLoop, hv, ih, List.countP_cons]

/-! ## The collision loop of one bullet -/

theorem collideEnemies_length (pos : Vector2) (es : List Enemy) :
    (collideEnemies pos es).2.length = es.length := by
  induction es with
  | nil => rfl
  | cons e rest ih =>
    by_cases hv : e.isValid = true
    · by_cases hc : CheckCollisionCircles e.position ENEMY_RADIUS pos BULLET_RADIUS = true
      · simp [collideEnemies, hv, hc]
      · simp [collideEnemies, hv, hc, ih]
    · simp [collideEnemies, hv, ih]

/-- The `break` of PART 3 is taken exactly when some live enemy is in range. -/
theorem collideEnemies_flag (pos : Vector2) (es : List Enemy) :
    (collideEnemies pos es).1 =
      es.any (fun e => e.isValid &&
        CheckCollisionCircles e.position ENEMY_RADIUS pos BULLET_RADIUS) := by
  induction es with
  | nil => rfl
  | cons e rest ih =>
    by_cases hv : e.isValid = true
    · by_cases hc : CheckCollisionCircles e.position ENEMY_RADIUS pos BULLET_RADIUS = true
      · simp [collideEnemies, hv, hc]
      · simp [collideEnemies, hv, hc, ih]
    · simp [collideEnemies, hv, ih]

/-- Without the `break` the enemies are left as they were. -/
theorem collideEnemies_miss (pos : Vector2) (es : List Enemy)
    (h : (collideEnemies pos es).1 = false) : (collideEnemies pos es).2 = es := by
  induction es with
  | nil => rfl
  | cons e rest ih =>
    by_cases hv : e.isValid = true
    · by_cases hc : CheckCollisionCircles e.position ENEMY_RADIUS pos BULLET_RADIUS = true
      · simp [collideEnemies, hv, hc] at h
      · simp [collideEnemies, hv, hc] at h ⊢
        exact ih h
    · simp [collideEnemies, hv] at h ⊢
      exact ih h

/-- A hit lowers the health of the enemy it lands on, so it changes the enemies. -/
theorem damageEnemy_ne (e : Enemy) : damageEnemy e ≠ e := by
  intro h
  have : (damageEnemy e).health = e.health := by rw [h]
  simp [damageEnemy, BULLET_DAMAGE] at this

/-- With the `break` the enemies are changed: one of them has lost health. -/
theorem collideEnemies_hit_ne (pos : Vector2) (es : List Enemy)
    (h : (collideEnemies pos es).1 = true) : (collideEnemies pos es).2 ≠ es := by
  induction es with
  | nil => simp [collideEnemies] at h
  | cons e rest ih =>
    by_cases hv : e.isValid = true
    · by_cases hc : CheckCollisionCircles e.position ENEMY_RADIUS pos BULLET_RADIUS = true
      · simp only [collideEnemies, hv, hc, Bool.not_true, Bool.false_eq_true, if_false, if_true]
        intro hcon
        exact damageEnemy_ne e (List.cons.inj hcon).1
      · simp [collideEnemies, hv, hc] at h ⊢
        exact ih h
    · simp [collideEnemies, hv] at h ⊢
      exact ih h

/-- First match wins: the first live enemy in range takes the hit, nobody else does. -/
theorem collideEnemies_first (pos : Vector2) :
    ∀ (es : List Enemy) (j : Nat) (e : Enemy), es[j]? = some e → e.isValid = true →
      CheckCollisionCircles e.position ENEMY_RADIUS pos BULLET_RADIUS = true →
      (∀ (i : Nat) (a : Enemy), i < j → es[i]? = some a → a.isValid = true →
        CheckCollisionCircles a.position ENEMY_RADIUS pos BULLET_RADIUS = false) →
      collideEnemies pos es = (true, es.set j (damageEnemy e)) := by
  intro es
  induction es with
  | nil => intro j e hj; simp at hj
  | cons a rest ih =>
    intro j e hj hv hc hfirst
    cases j with
    | zero =>
      simp at hj
      subst hj
      simp [collideEnemies, hv, hc]
    | succ j =>
      simp at hj
      have hrest := ih j e hj hv hc (fun i b hi hb => hfirst (i + 1) b (by omega) (by simpa using hb))
      by_cases hav : a.isValid = true
      · have hac := hfirst 0 a (by omega) (by simp) hav
        simp [collideEnemies, hav, hac, hrest]
      · simp [collideEnemies, hav, hrest]

theorem AfterHits.refl (e : Enemy) : AfterHits e e := Or.inl rfl

theorem AfterHits.trans {a b c : Enemy} (h1 : AfterHits a b) (h2 : AfterHits b c) :
    AfterHits a c := by
  rcases h1 with h1 | ⟨hv1, hp1, ⟨k1, hk1, hh1⟩, hd1⟩
  · subst h1; exact h2
  · rcases h2 with h2 | ⟨_, hp2, ⟨k2, hk2, hh2⟩, hd2⟩
    · subst h2; exact Or.inr ⟨hv1, hp1, ⟨k1, hk1, hh1⟩, hd1⟩
    · refine Or.inr ⟨hv1, hp2.trans hp1, ⟨k1 + k2, by omega, ?_⟩, hd2⟩
      rw [hh2, hh1]; push_cast; ring

theorem AfterHits.damage (e : Enemy) (hv : e.isValid = true) : AfterHits e (damageEnemy e) := by
  refine Or.inr ⟨hv, rfl, ⟨1, by omega, by simp [damageEnemy]⟩, ?_⟩
  by_cases h : e.health - BULLET_DAMAGE ≤ 0
  · have h' : ¬ (0 < e.health - BULLET_DAMAGE) := by omega
    simp only [damageEnemy, if_pos h, decide_eq_false h']
  · have h' : 0 < e.health - BULLET_DAMAGE := by omega
    simp only [damageEnemy, if_neg h, decide_eq_true h', hv]

/-- An invalid enemy is out of reach of the bullet loop. -/
theorem AfterHits.of_invalid {e e' : Enemy} (h : AfterHits e e') (hv : e.isValid = false) :
    e' = e := by
  rcases h with h | ⟨hv1, _⟩
  · exact h
  · rw [hv] at hv1; exact Bool.noConfusion hv1

/-- The bullet loop never revives an enemy. -/
theorem AfterHits.valid {e e' : Enemy} (h : AfterHits e e') (hv : e'.isValid = true) :
    e.isValid = true := by
  rcases h with h | ⟨hv1, _⟩
  · rw [← h]; exact hv
  · exact hv1

theorem collideEnemies_get (pos : Vector2) :
    ∀ (es : List Enemy) (j : Nat) (e : Enemy), es[j]? = some e →
      ∃ e', (collideEnemies pos es).2[j]? = some e' ∧ AfterHits e e' := by
  intro es
  induction es with
  | nil => intro j e hj; simp at hj
  | cons a rest ih =>
    intro j e hj
    by_cases hav : a.isValid = true
    · by_cases hac : CheckCollisionCircles a.position ENEMY_RADIUS pos BULLET_RADIUS = true
      · cases j with
        | zero =>
          simp at hj; subst hj
          exact ⟨damageEnemy a, by simp [collideEnemies, hav, hac], AfterHits.damage a hav⟩
        | succ j =>
          exact ⟨e, by simpa [collideEnemies, hav, hac] using hj, AfterHits.refl e⟩
      · cases j with
        | zero =>
          simp at hj; subst hj
          exact ⟨a, by simp [collideEnemies, hav, hac], AfterHits.refl a⟩
        | succ j =>
          simp at hj
          obtain ⟨e', h1, h2⟩ := ih j e hj
          exact ⟨e', by simpa [collideEnemies, hav, hac] using h1, h2⟩
    · cases j with
      | zero =>
        simp at hj; subst hj
        exact ⟨a, by simp [collideEnemies, hav], AfterHits.refl a⟩
      | succ j =>
        simp at hj
        obtain ⟨e', h1, h2⟩ := ih j e hj
        exact ⟨e', by simpa [collideEnemies, hav] using h1, h2⟩

/-! ## The bullet loop -/

/-- An invalid slot is skipped (line 187). -/
theorem updateBullet_invalid (dt : Flt) (b : Bullet) (es : List Enemy)
    (hv : b.isValid = false) : updateBullet dt b es = (b, es) := by
  simp [updateBullet, hv]

/-- A bullet whose time has run out is cleared and skips PART 2 and PART 3 (lines 190-194). -/
theorem updateBullet_expired (dt : Flt) (b : Bullet) (es : List Enemy)
    (hv : b.isValid = true) (ht : Flt.le (b.timeLeft - dt) 0 = true) :
    updateBullet dt b es =
      ({ b with timeLeft := b.timeLeft - dt, isValid := false }, es) := by
  simp [updateBullet, hv, ht]

/-- A bullet with time left moves and is tested against the enemies (lines 197-212). -/
theorem updateBullet_moved (dt : Flt) (b : Bullet) (es : List Enemy)
    (hv : b.isValid = true) (ht : Flt.le (b.timeLeft - dt) 0 = false) :
    updateBullet dt b es =
      ({ position := Vector2Add b.position (Vector2Scale b.unitDirection (dt * BULLET_SPEED))
         unitDirection := b.unitDirection
         timeLeft := b.timeLeft - dt
         isValid := !(collideEnemies (Vector2Add b.position
           (Vector2Scale b.unitDirection (dt * BULLET_SPEED))) es).1 },
        (collideEnemies (Vector2Add b.position
          (Vector2Scale b.unitDirection (dt * BULLET_SPEED))) es).2) := by
  simp [updateBullet, hv, ht]

theorem updateBullet_enemies_length (dt : Flt) (b : Bullet) (es : List Enemy) :
    (updateBullet dt b es).2.length = es.length := by
  by_cases hv : b.isValid = true
  · by_cases ht : Flt.le (b.timeLeft - dt) 0 = true
    · rw [updateBullet_expired dt b es hv ht]
    · rw [updateBullet_moved dt b es hv (by simpa using ht)]
      exact collideEnemies_length _ es
  · rw [updateBullet_invalid dt b es (by simpa using hv)]

theorem updateBullet_enemies_get (dt : Flt) (b : Bullet) (es : List Enemy) (j : Nat)
    (e : Enemy) (hj : es[j]? = some e) :
    ∃ e', (updateBullet dt b es).2[j]? = some e' ∧ AfterHits e e' := by
  by_cases hv : b.isValid = true
  · by_cases ht : Flt.le (b.timeLeft - dt) 0 = true
    · rw [updateBullet_expired dt b es hv ht]
      exact ⟨e, hj, AfterHits.refl e⟩
    · rw [updateBullet_moved dt b es hv (by simpa using ht)]
      exact collideEnemies_get _ es j e hj
  · rw [updateBullet_invalid dt b es (by simpa using hv)]
    exact ⟨e, hj, AfterHits.refl e⟩

theorem bulletLoop_bullets_length (dt : Flt) :
    ∀ (bs : List Bullet) (es : List Enemy), (bulletLoop dt bs es).1.length = bs.length := by
  intro bs
  induction bs with
  | nil => intro es; rfl
  | cons b rest ih => intro es; simp [bulletLoop, ih]

theorem bulletLoop_enemies_length (dt : Flt) :
    ∀ (bs : List Bullet) (es : List Enemy), (bulletLoop dt bs es).2.length = es.length := by
  intro bs
  induction bs with
  | nil => intro es; rfl
  | cons b rest ih => intro es; simp [bulletLoop, ih, updateBullet_enemies_length]

theorem bulletLoop_enemies_get (dt : Flt) :
    ∀ (bs : List Bullet) (es : List Enemy) (j : Nat) (e : Enemy), es[j]? = some e →
      ∃ e', (bulletLoop dt bs es).2[j]? = some e' ∧ AfterHits e e' := by
  intro bs
  induction bs with
  | nil => intro es j e hj; exact ⟨e, hj, AfterHits.refl e⟩
  | cons b rest ih =>
    intro es j e hj
    obtain ⟨e1, h1, r1⟩ := updateBullet_enemies_get dt b es j e hj
    obtain ⟨e2, h2, r2⟩ := ih (updateBullet dt b es).2 j e1 h1
    exact ⟨e2, by simpa [bulletLoop] using h2, r1.trans r2⟩

/-- Slot `k` of the bullet loop is the loop body on slot `k`, run against the enemies
as the slots before `k` left them. -/
theorem bulletLoop_slot (dt : Flt) :
    ∀ (bs : List Bullet) (es : List Enemy) (k : Nat) (b : Bullet), bs[k]? = some b →
      (bulletLoop dt bs es).1[k]? =
        some (updateBullet dt b (bulletLoop dt (bs.take k) es).2).1 := by
  intro bs
  induction bs with
  | nil => intro es k b hk; simp at hk
  | cons a rest ih =>
    intro es k b hk
    cases k with
    | zero => simp at hk; subst hk; simp [bulletLoop]
    | succ k =>
      simp at hk
      simpa [bulletLoop] using ih (updateBullet dt a es).2 k b hk

/-! ## The phases of one pass, field by field -/

theorem fire_player (E : Extern) (w : World) (p : Poll) : (fire E w p).player = w.player := by
  unfold fire; split_ifs <;> rfl

theorem fire_enemies (E : Extern) (w : World) (p : Poll) :
    (fire E w p).enemies = w.enemies := by
  unfold fire; split_ifs <;> rfl

theorem fire_isPlayerDead (E : Extern) (w : World) (p : Poll) :
    (fire E w p).isPlayerDead = w.isPlayerDead := by
  unfold fire; split_ifs <;> rfl

theorem fire_isGameWon (E : Extern) (w : World) (p : Poll) :
    (fire E w p).isGameWon = w.isGameWon := by
  unfold fire; split_ifs <;> rfl

theorem bulletUpdate_player (E : Extern) (w : World) (p : Poll) :
    (bulletUpdate E w p).player = w.player := by
  simp [bulletUpdate, fire_player]

theorem bulletUpdate_isPlayerDead (E : Extern) (w : World) (p : Poll) :
    (bulletUpdate E w p).isPlayerDead = w.isPlayerDead := by
  simp [bulletUpdate, fire_isPlayerDead]

theorem bulletUpdate_isGameWon (E : Extern) (w : World) (p : Poll) :
    (bulletUpdate E w p).isGameWon = w.isGameWon := by
  simp [bulletUpdate, fire_isGameWon]

theorem bulletUpdate_nextBulletIndex (E : Extern) (w : World) (p : Poll) :
    (bulletUpdate E w p).nextBulletIndex = (fire E w p).nextBulletIndex := by
  simp [bulletUpdate]

theorem bulletUpdate_bullets (E : Extern) (w : World) (p : Poll) :
    (bulletUpdate E w p).bullets =
      (bulletLoop p.deltaTime (fire E w p).bullets w.enemies).1 := by
  simp [bulletUpdate, fire_enemies]

theorem bulletUpdate_enemies (E : Extern) (w : World) (p : Poll) :
    (bulletUpdate E w p).enemies =
      (bulletLoop p.deltaTime (fire E w p).bullets w.enemies).2 := by
  simp [bulletUpdate, fire_enemies]

theorem enemyUpdate_numEnemyAlive (E : Extern) (w : World) (dt : Flt) :
    (enemyUpdate E w dt).numEnemyAlive = w.enemies.countP (fun e => e.isValid) := by
  simp [enemyUpdate, enemyLoop_eq]

theorem enemyUpdate_touchedPlayer (E : Extern) (w : World) (dt : Flt) :
    (enemyUpdate E w dt).touchedPlayer =
      w.enemies.any (fun e => e.isValid &&
        CheckCollisionCircles (moveEnemy E dt w.player.position e).position ENEMY_RADIUS
          w.player.position PLAYER_RADIUS) := by
  simp [enemyUpdate, enemyLoop_eq]

theorem enemyUpdate_enemies (E : Extern) (w : World) (dt : Flt) :
    (enemyUpdate E w dt).world.enemies =
      w.enemies.map (fun e => if e.isValid then moveEnemy E dt w.player.position e else e) := by
  unfold enemyUpdate
  simp only [enemyLoop_eq]
  split_ifs <;> rfl

theorem enemyUpdate_bullets (E : Extern) (w : World) (dt : Flt) :
    (enemyUpdate E w dt).world.bullets = w.bullets := by
  unfold enemyUpdate
  simp only []
  split_ifs <;> rfl

theorem enemyUpdate_nextBulletIndex (E : Extern) (w : World) (dt : Flt) :
    (enemyUpdate E w dt).world.nextBulletIndex = w.nextBulletIndex := by
  unfold enemyUpdate
  simp only []
  split_ifs <;> rfl

theorem enemyUpdate_isPlayerDead (E : Extern) (w : World) (dt : Flt) :
    (enemyUpdate E w dt).world.isPlayerDead = w.isPlayerDead := by
  unfold enemyUpdate
  simp only []
  split_ifs <;> rfl

theorem enemyUpdate_isGameWon (E : Extern) (w : World) (dt : Flt) :
    (enemyUpdate E w dt).world.isGameWon = w.isGameWon := by
  unfold enemyUpdate
  simp only []
  split_ifs <;> rfl

theorem enemyUpdate_player_position (E : Extern) (w : World) (dt : Flt) :
    (enemyUpdate E w dt).world.player.position = w.player.position := by
  unfold enemyUpdate
  simp only []
  split_ifs <;> rfl

theorem enemyUpdate_player_isValid (E : Extern) (w : World) (dt : Flt) :
    (enemyUpdate E w dt).world.player.isValid =
      (w.player.isValid && !(enemyUpdate E w dt).touchedPlayer) := by
  unfold enemyUpdate
  simp only []
  split_ifs with h <;> simp [h]

theorem stateTransitions_isPlayerDead (t : EnemyTick) :
    (stateTransitions t).isPlayerDead = (t.world.isPlayerDead || t.touchedPlayer) := by
  rcases t with ⟨⟨d, g, cam, pl, bs, idx, es⟩, n, tp⟩
  by_cases hn : n = 0 <;> cases d <;> cases g <;> cases tp <;>
    simp [stateTransitions, deathTransitionTaken, winTransitionTaken, hn]

theorem stateTransitions_isGameWon (t : EnemyTick) :
    (stateTransitions t).isGameWon = (t.world.isGameWon || t.numEnemyAlive == 0) := by
  rcases t with ⟨⟨d, g, cam, pl, bs, idx, es⟩, n, tp⟩
  by_cases hn : n = 0 <;> cases d <;> cases g <;> cases tp <;>
    simp [stateTransitions, deathTransitionTaken, winTransitionTaken, hn]

theorem stateTransitions_enemies (t : EnemyTick) :
    (stateTransitions t).enemies = t.world.enemies := by
  unfold stateTransitions
  simp only []
  split_ifs <;> rfl

theorem stateTransitions_bullets (t : EnemyTick) :
    (stateTransitions t).bullets = t.world.bullets := by
  unfold stateTransitions
  simp only []
  split_ifs <;> rfl

theorem stateTransitions_nextBulletIndex (t : EnemyTick) :
    (stateTransitions t).nextBulletIndex = t.world.nextBulletIndex := by
  unfold stateTransitions
  simp only []
  split_ifs <;> rfl

theorem stateTransitions_player_position (t : EnemyTick) :
    (stateTransitions t).player.position = t.world.player.position := by
  unfold stateTransitions
  simp only []
  split_ifs <;> rfl

theorem stateTransitions_player_isValid (t : EnemyTick) :
    (stateTransitions t).player.isValid =
      (t.world.player.isValid && !deathTransitionTaken t.world t.touchedPlayer) := by
  rcases t with ⟨⟨d, g, cam, pl, bs, idx, es⟩, n, tp⟩
  by_cases hn : n = 0 <;> cases d <;> cases g <;> cases tp <;>
    simp [stateTransitions, deathTransitionTaken, winTransitionTaken, hn]

theorem frame_isPlayerDead (E : Extern) (w : World) (p : Poll) :
    (frame E w p).isPlayerDead =
      ((loopInput E w p).isPlayerDead ||
        (enemyUpdate E (bulletUpdate E (loopInput E w p) p) p.deltaTime).touchedPlayer) := by
  simp [frame, stateTransitions_isPlayerDead, enemyUpdate_isPlayerDead,
    bulletUpdate_isPlayerDead]

theorem frame_isGameWon (E : Extern) (w : World) (p : Poll) :
    (frame E w p).isGameWon =
      ((loopInput E w p).isGameWon ||
        (bulletUpdate E (loopInput E w p) p).enemies.countP (fun e => e.isValid) == 0) := by
  simp [frame, stateTransitions_isGameWon, enemyUpdate_isGameWon, bulletUpdate_isGameWon,
    enemyUpdate_numEnemyAlive]

theorem frame_player_position (E : Extern) (w : World) (p : Poll) :
    (frame E w p).player.position = (loopInput E w p).player.position := by
  simp [frame, stateTransitions_player_position, enemyUpdate_player_position,
    bulletUpdate_player]

theorem frame_enemies (E : Extern) (w : World) (p : Poll) :
    (frame E w p).enemies =
      (bulletUpdate E (loopInput E w p) p).enemies.map
        (fun e => if e.isValid then
          moveEnemy E p.deltaTime (loopInput E w p).player.position e else e) := by
  simp [frame, stateTransitions_enemies, enemyUpdate_enemies, bulletUpdate_player]

theorem frame_bullets (E : Extern) (w : World) (p : Poll) :
    (frame E w p).bullets = (bulletUpdate E (loopInput E w p) p).bullets := by
  simp [frame, stateTransitions_bullets, enemyUpdate_bullets]

theorem frame_nextBulletIndex (E : Extern) (w : World) (p : Poll) :
    (frame E w p).nextBulletIndex = (fire E (loopInput E w p) p).nextBulletIndex := by
  simp [frame, stateTransitions_nextBulletIndex, enemyUpdate_nextBulletIndex,
    bulletUpdate_nextBulletIndex]

/-! ## The input phase -/

theorem InitGame_isGameWon (E : Extern) : (InitGame E).isGameWon = false := by
  simp [InitGame, NUM_ENEMIES, List.range, List.range.loop, spawnEnemy, zeroWorld]

theorem InitGame_isPlayerDead (E : Extern) : (InitGame E).isPlayerDead = false := by
  simp [InitGame, NUM_ENEMIES, List.range, List.range.loop, spawnEnemy, zeroWorld]

/-- In a terminal state the pass reads no key but the reset key. -/
theorem loopInput_terminal (E : Extern) (w : World) (p : Poll)
    (hterm : w.isPlayerDead = true ∨ w.isGameWon = true) (hno : p.keyYes = false) :
    loopInput E w p = w := by
  rcases hterm with h | h <;> simp [loopInput, h, hno]

theorem loopInput_reset (E : Extern) (w : World) (p : Poll)
    (hterm : w.isPlayerDead = true ∨ w.isGameWon = true) (hyes : p.keyYes = true) :
    loopInput E w p = InitGame E := by
  rcases hterm with h | h <;> simp [loopInput, h, hyes, resetGame]

theorem loopInput_playing (E : Extern) (w : World) (p : Poll)
    (hd : w.isPlayerDead = false) (hw : w.isGameWon = false) :
    loopInput E w p = movePlayer w p := by
  simp [loopInput, hd, hw]

/-- The input phase raises neither flag. -/
theorem loopInput_isPlayerDead_false (E : Extern) (w : World) (p : Poll)
    (hd : w.isPlayerDead = false) : (loopInput E w p).isPlayerDead = false := by
  by_cases hw : w.isGameWon = true
  · by_cases hy : p.keyYes = true
    · rw [loopInput_reset E w p (Or.inr hw) hy]; exact InitGame_isPlayerDead E
    · rw [loopInput_terminal E w p (Or.inr hw) (by simpa using hy)]; exact hd
  · rw [loopInput_playing E w p hd (by simpa using hw)]; exact hd

theorem loopInput_wonMeansNoEnemy (E : Extern) (w : World) (p : Poll)
    (h : WonMeansNoEnemy w) : WonMeansNoEnemy (loopInput E w p) := by
  by_cases hterm : w.isPlayerDead = true ∨ w.isGameWon = true
  · by_cases hy : p.keyYes = true
    · rw [loopInput_reset E w p hterm hy]
      intro hw; rw [InitGame_isGameWon] at hw; exact Bool.noConfusion hw
    · rw [loopInput_terminal E w p hterm (by simpa using hy)]; exact h
  · have hd : w.isPlayerDead = false := by
      cases hx : w.isPlayerDead
      · rfl
      · exact absurd (Or.inl hx) hterm
    have hw : w.isGameWon = false := by
      cases hx : w.isGameWon
      · rfl
      · exact absurd (Or.inr hx) hterm
    rw [loopInput_playing E w p hd hw]
    intro hw'
    rw [show (movePlayer w p).isGameWon = w.isGameWon from rfl, hw] at hw'
    exact Bool.noConfusion hw'

/-! ## Live enemies through one pass -/

/-- Every enemy the bullet loop leaves comes from the enemy of the same index. -/
theorem bulletLoop_enemies_origin (dt : Flt) (bs : List Bullet) (es : List Enemy) (j : Nat)
    (e' : Enemy) (h : (bulletLoop dt bs es).2[j]? = some e') :
    ∃ e, es[j]? = some e ∧ AfterHits e e' := by
  have hj : j < es.length := by
    rw [← bulletLoop_enemies_length dt bs es]
    by_contra hcon
    rw [List.getElem?_eq_none (by omega)] at h
    exact Option.noConfusion h
  obtain ⟨e2, h1, h2⟩ := bulletLoop_enemies_get dt bs es j es[j] (List.getElem?_eq_getElem hj)
  rw [h] at h1
  cases h1
  exact ⟨es[j], List.getElem?_eq_getElem hj, h2⟩

/-- A live enemy after `BULLET UPDATE` was live before it. -/
theorem bulletUpdate_valid_origin (E : Extern) (w : World) (p : Poll) (e' : Enemy)
    (hm : e' ∈ (bulletUpdate E w p).enemies) (hv : e'.isValid = true) :
    ∃ e ∈ w.enemies, e.isValid = true := by
  rw [bulletUpdate_enemies] at hm
  obtain ⟨j, hj⟩ := List.mem_iff_getElem?.mp hm
  obtain ⟨e, he, hr⟩ := bulletLoop_enemies_origin _ _ _ j e' hj
  exact ⟨e, List.mem_iff_getElem?.mpr ⟨j, he⟩, hr.valid hv⟩

theorem frame_wonMeansNoEnemy (E : Extern) (w : World) (p : Poll)
    (h : WonMeansNoEnemy w) : WonMeansNoEnemy (frame E w p) := by
  have h1 := loopInput_wonMeansNoEnemy E w p h
  intro hw e he
  rw [frame_enemies] at he
  obtain ⟨a, ha, rfl⟩ := List.mem_map.mp he
  have hval : (if a.isValid = true then
      moveEnemy E p.deltaTime (loopInput E w p).player.position a else a).isValid
        = a.isValid := by
    split_ifs <;> rfl
  rw [hval]
  rw [frame_isGameWon] at hw
  cases hav : a.isValid
  · rfl
  · exfalso
    rcases Bool.or_eq_true _ _ ▸ hw with hw1 | hw2
    · obtain ⟨e0, he0, hv0⟩ := bulletUpdate_valid_origin E _ p a ha hav
      have := h1 hw1 e0 he0
      rw [this] at hv0; exact Bool.noConfusion hv0
    · have hz : (bulletUpdate E (loopInput E w p) p).enemies.countP (fun e => e.isValid) = 0 := by
        simpa using hw2
      have := List.countP_eq_zero.mp hz a ha
      exact this hav

theorem InitGame_wonMeansNoEnemy (E : Extern) : WonMeansNoEnemy (InitGame E) := by
  intro hw; rw [InitGame_isGameWon] at hw; exact Bool.noConfusion hw

theorem run_wonMeansNoEnemy (E : Extern) (polls : List Poll) :
    ∀ w, WonMeansNoEnemy w → WonMeansNoEnemy (run E w polls) := by
  induction polls with
  | nil => intro w h; exact h
  | cons p rest ih => intro w h; exact ih _ (frame_wonMeansNoEnemy E w p h)

/-! ## C2: the two terminal flags -/

/-- C2 (amended): in every run from a freshly initialised world, a pass can end with
`isPlayerDead` and `isGameWon` both true only if `isPlayerDead` was already true before
the pass.  So the two flags never rise in the same pass, and `isPlayerDead` never rises
once `isGameWon` is up. -/
theorem C2_player_dies_first (E : Extern) (polls : List Poll) (p : Poll)
    (hdead : (frame E (run E (InitGame E) polls) p).isPlayerDead = true)
    (hwon : (frame E (run E (InitGame E) polls) p).isGameWon = true) :
    (run E (InitGame E) polls).isPlayerDead = true := by
  have hinv := run_wonMeansNoEnemy E polls _ (InitGame_wonMeansNoEnemy E)
  generalize run E (InitGame E) polls = w at hdead hwon hinv ⊢
  by_contra hcon
  have hd : w.isPlayerDead = false := by simpa using hcon
  have hd1 := loopInput_isPlayerDead_false E w p hd
  have hinv1 := loopInput_wonMeansNoEnemy E w p hinv
  rw [frame_isPlayerDead, hd1, Bool.false_or, enemyUpdate_touchedPlayer] at hdead
  obtain ⟨a, ha, hav⟩ := List.any_eq_true.mp hdead
  have hav1 : a.isValid = true := by
    simp only [Bool.and_eq_true] at hav; exact hav.1
  have hcount : ¬ (bulletUpdate E (loopInput E w p) p).enemies.countP
      (fun e => e.isValid) = 0 := by
    intro hz
    exact List.countP_eq_zero.mp hz a ha hav1
  rw [frame_isGameWon] at hwon
  rcases Bool.or_eq_true _ _ ▸ hwon with hw1 | hw2
  · obtain ⟨e0, he0, hv0⟩ := bulletUpdate_valid_origin E _ p a ha hav1
    have := hinv1 hw1 e0 he0
    rw [this] at hv0; exact Bool.noConfusion hv0
  · exact hcount (by simpa using hw2)

/-! ## C3: a pass in a terminal state -/

/-- C3 (amended): in a terminal state a pass without the reset key ignores the movement
keys, so the player's position is unchanged, and keeps the terminal flags that are up.
The world is not frozen: when no fire is requested the cursor is unchanged, and the
bullet loop and the enemy loop run on the bullets and enemies as in the Playing state
(bullets age, move and hit, live enemies walk towards the player). -/
theorem C3_terminal_pass (E : Extern) (w : World) (p : Poll)
    (hterm : w.isPlayerDead = true ∨ w.isGameWon = true) (hno : p.keyYes = false) :
    (frame E w p).player.position = w.player.position ∧
      (w.isPlayerDead = true → (frame E w p).isPlayerDead = true) ∧
      (w.isGameWon = true → (frame E w p).isGameWon = true) ∧
      (p.mousePressed = false →
        (frame E w p).nextBulletIndex = w.nextBulletIndex ∧
        (frame E w p).bullets = (bulletLoop p.deltaTime w.bullets w.enemies).1 ∧
        (frame E w p).enemies =
          (bulletLoop p.deltaTime w.bullets w.enemies).2.map
            (fun e => if e.isValid then moveEnemy E p.deltaTime w.player.position e
              else e)) := by
  have h1 := loopInput_terminal E w p hterm hno
  refine ⟨?_, ?_, ?_, ?_⟩
  · rw [frame_player_position, h1]
  · intro hd; rw [frame_isPlayerDead, h1, hd]; rfl
  · intro hw; rw [frame_isGameWon, h1, hw]; rfl
  · intro hclick
    have hfire : fire E w p = w := by simp [fire, hclick]
    refine ⟨?_, ?_, ?_⟩
    · rw [frame_nextBulletIndex, h1, hfire]
    · rw [frame_bullets, h1, bulletUpdate_bullets, hfire]
    · rw [frame_enemies, h1, bulletUpdate_enemies, hfire]

/-! ## C4: a click on the player's own position -/

/-- C4 (amended): a click on the player's own position still goes through
`spawnNextBullet`: the slot at the cursor becomes a valid bullet at the player's
position with `timeLeft = BULLET_LIFETIME` and with the direction that
`Vector2Normalize` gives for the zero-length difference, and the cursor advances by one
modulo `NUM_BULLETS`. -/
theorem C4_fire_at_own_position (E : Extern) (w : World) (p : Poll)
    (hclick : p.mousePressed = true) (htarget : p.WORLD_MOUSE_POS = w.player.position)
    (h0 : 0 ≤ w.nextBulletIndex) (h1 : w.nextBulletIndex < NUM_BULLETS)
    (hlen : w.bullets.length = NUM_BULLETS) :
    (fire E w p).bullets[w.nextBulletIndex.toNat]? =
        some ⟨w.player.position,
          E.Vector2Normalize (Vector2Subtract w.player.position w.player.position),
          BULLET_LIFETIME, true⟩ ∧
      (fire E w p).nextBulletIndex = (w.nextBulletIndex + 1) % NUM_BULLETS ∧
      (fire E w p).nextBulletIndex ≠ w.nextBulletIndex := by
  have hidx : w.nextBulletIndex.toNat < w.bullets.length := by
    rw [hlen]; omega
  have hnext : (fire E w p).nextBulletIndex =
      if w.nextBulletIndex + 1 ≥ (NUM_BULLETS : Int) then 0 else w.nextBulletIndex + 1 := by
    simp [fire, hclick, spawnNextBullet]
  refine ⟨?_, ?_, ?_⟩
  · simp [fire, hclick, htarget, spawnNextBullet, writeBullet, h0, newBullet,
      List.getElem?_set_self hidx]
  · rw [hnext]
    simp only [NUM_BULLETS] at h1 ⊢
    split_ifs <;> omega
  · rw [hnext]
    simp only [NUM_BULLETS] at h1 ⊢
    split_ifs <;> omega


/-! ## The loop bodies with rounding -/

/-- Without rounding PART 3 with rounding is `collideEnemies`. -/
theorem collideEnemiesRounded_id (pos : Vector2) (es : List Enemy) :
    collideEnemiesRounded id pos es = collideEnemies pos es := by
  induction es with
  | nil => rfl
  | cons e rest ih =>
    simp only [collideEnemiesRounded, collideEnemies, ih]
    rfl

/-- Without rounding the bullet loop body with rounding is `updateBullet`. -/
theorem updateBulletRounded_id (dt : Flt) (b : Bullet) (es : List Enemy) :
    updateBulletRounded id dt b es = updateBullet dt b es := by
  simp only [updateBulletRounded, updateBullet, collideEnemiesRounded_id]
  rfl

/-- Without rounding the enemy move with rounding is `moveEnemy`. -/
theorem moveEnemyRounded_id (E : Extern) (dt : Flt) (pp : Vector2) (e : Enemy) :
    moveEnemyRounded id E dt pp e = moveEnemy E dt pp e := rfl

/-- A hit changes the enemies, with rounding as without. -/
theorem collideEnemiesRounded_hit_ne (rnd : Flt → Flt) (pos : Vector2) (es : List Enemy)
    (h : (collideEnemiesRounded rnd pos es).1 = true) :
    (collideEnemiesRounded rnd pos es).2 ≠ es := by
  induction es with
  | nil => simp [collideEnemiesRounded] at h
  | cons e rest ih =>
    by_cases hv : e.isValid = true
    · by_cases hc : CheckCollisionCirclesRounded rnd e.position ENEMY_RADIUS pos
          BULLET_RADIUS = true
      · simp only [collideEnemiesRounded, hv, hc, Bool.not_true, Bool.false_eq_true, if_false,
          if_true]
        intro hcon
        exact damageEnemy_ne e (List.cons.inj hcon).1
      · simp [collideEnemiesRounded, hv, hc] at h ⊢
        exact ih h
    · simp [collideEnemiesRounded, hv] at h ⊢
      exact ih h

/-- An invalid slot is skipped (line 187). -/
theorem updateBulletRounded_invalid (rnd : Flt → Flt) (dt : Flt) (b : Bullet)
    (es : List Enemy) (hv : b.isValid = false) : updateBulletRounded rnd dt b es = (b, es) := by
  simp [updateBulletRounded, hv]

/-- A bullet whose time has run out is cleared (lines 190-194). -/
theorem updateBulletRounded_expired (rnd : Flt → Flt) (dt : Flt) (b : Bullet)
    (es : List Enemy) (hv : b.isValid = true) (ht : Flt.le (rnd (b.timeLeft - dt)) 0 = true) :
    updateBulletRounded rnd dt b es =
      ({ b with timeLeft := rnd (b.timeLeft - dt), isValid := false }, es) := by
  simp [updateBulletRounded, hv, ht]

/-- A bullet with time left moves and is tested against the enemies (lines 197-212). -/
theorem updateBulletRounded_moved (rnd : Flt → Flt) (dt : Flt) (b : Bullet)
    (es : List Enemy) (hv : b.isValid = true) (ht : Flt.le (rnd (b.timeLeft - dt)) 0 = false) :
    updateBulletRounded rnd dt b es =
      ({ position := Vector2AddRounded rnd b.position
           (Vector2ScaleRounded rnd b.unitDirection (rnd (dt * BULLET_SPEED)))
         unitDirection := b.unitDirection
         timeLeft := rnd (b.timeLeft - dt)
         isValid := !(collideEnemiesRounded rnd (Vector2AddRounded rnd b.position
           (Vector2ScaleRounded rnd b.unitDirection (rnd (dt * BULLET_SPEED)))) es).1 },
        (collideEnemiesRounded rnd (Vector2AddRounded rnd b.position
          (Vector2ScaleRounded rnd b.unitDirection (rnd (dt * BULLET_SPEED)))) es).2) := by
  simp [updateBulletRounded, hv, ht]

/-! ## Rounding to single precision -/

/-- The search for the binade stops at the first binade that holds the number. -/
theorem binadeSingle_le (num den K : Nat) (hK : num * 2 ^ 126 < 2 ^ (K + 1) * den) :
    ∀ (fuel k : Nat), k ≤ K → binadeSingle num den fuel k ≤ K := by
  intro fuel
  induction fuel with
  | zero => intro k hk; exact hk
  | succ fuel ih =>
    intro k hk
    unfold binadeSingle
    split_ifs with h
    · exact hk
    · have hne : k ≠ K := by
        intro heq
        rw [heq] at h
        exact h hK
      exact ih (k + 1) (by omega)

/-- The nearest quotient `m` of `N` by `D > 0` has `m * D` within half of `D` from `N`. -/
theorem nearestQuotient_spec (N D : Nat) (hD : 0 < D) :
    2 * N ≤ 2 * (nearestQuotient N D * D) + D ∧ 2 * (nearestQuotient N D * D) ≤ 2 * N + D := by
  have hdm : D * (N / D) + N % D = N := Nat.div_add_mod N D
  have hlt : N % D < D := Nat.mod_lt N hD
  unfold nearestQuotient
  simp only
  generalize N / D = f at hdm ⊢
  generalize N % D = r at hdm hlt ⊢
  split_ifs with h1 h2 h3
  · constructor <;> nlinarith
  · constructor <;> nlinarith
  · constructor <;> nlinarith
  · constructor <;> nlinarith

/-- The distance of the nearest multiple in rationals: with `m * (d * P)` within half
of `d * P` from `n * B`, the quotient `m * P / B` is within `Q / (2 * B)` of `n / d`. -/
theorem nearest_error (n d m B P Q : ℚ) (hd : 0 < d) (hB : 0 < B) (hPQ : P ≤ Q)
    (h1 : 2 * (n * B) ≤ 2 * (m * (d * P)) + d * P)
    (h2 : 2 * (m * (d * P)) ≤ 2 * (n * B) + d * P) :
    |m * P / B - n / d| ≤ Q / (2 * B) := by
  have hBd : 0 < B * d := mul_pos hB hd
  have e : m * P / B - n / d = (m * P * d - n * B) / (B * d) := by
    field_simp
    ring
  have e2 : Q / (2 * B) = (Q * d / 2) / (B * d) := by
    field_simp
    ring
  have hdPQ : d * P ≤ d * Q := mul_le_mul_of_nonneg_left hPQ (le_of_lt hd)
  rw [e, e2, abs_le, ← neg_div, div_le_div_iff_of_pos_right hBd,
    div_le_div_iff_of_pos_right hBd]
  constructor <;> linarith

/-- No overflow below binade 251: the nearest multiple stays below `2 ^ 277`. -/
theorem nearest_no_overflow (n d m k K : Nat) (hK : K ≤ 250) (hk : k ≤ K)
    (hcond : n * 2 ^ 126 < 2 ^ (K + 1) * d)
    (h2 : 2 * (m * (d * 2 ^ k)) ≤ 2 * (n * 2 ^ 149) + d * 2 ^ k) :
    m * 2 ^ k < 2 ^ 277 := by
  have hpk : (2 : Nat) ^ k ≤ 2 ^ K := Nat.pow_le_pow_right (by norm_num) hk
  have h149 : (2 : Nat) ^ 149 = 2 ^ 126 * 8388608 := by
    rw [show (149 : Nat) = 126 + 23 from rfl, pow_add]
    rfl
  have hK1 : (2 : Nat) ^ (K + 1) = 2 * 2 ^ K := by rw [pow_succ]; ring
  rw [h149] at h2
  rw [hK1] at hcond
  generalize (2 : Nat) ^ 126 = B at hcond h2
  generalize hP : (2 : Nat) ^ k = P at hpk h2 ⊢
  generalize hQ : (2 : Nat) ^ K = Q at hpk hcond
  have e1 : 2 * (m * P) * d < 33554434 * Q * d := by
    have hdPQ : d * P ≤ d * Q := Nat.mul_le_mul_left d hpk
    nlinarith
  have e2 : 2 * (m * P) < 33554434 * Q := Nat.lt_of_mul_lt_mul_right e1
  have e3 : m * P < 2 ^ 25 * Q := by
    have : (2 : Nat) ^ 25 = 33554432 := by norm_num
    omega
  have e4 : 2 ^ 25 * Q ≤ 2 ^ 25 * Q * 2 ^ (252 - K) :=
    Nat.le_mul_of_pos_right _ (by positivity)
  have e5 : 2 ^ 25 * Q * 2 ^ (252 - K) = 2 ^ 277 := by
    rw [← hQ, ← pow_add, ← pow_add]
    congr 1
    omega
  rw [← e5]
  exact lt_of_lt_of_le e3 e4

/-- The error of rounding to single precision: a number below `2 ^ (K + 1) / 2 ^ 126` in
absolute value, which lies in binade `K` or below, is rounded to a finite single within
`2 ^ K / 2 ^ 150`, half the spacing of the singles of binade `K`. -/
theorem roundSingle_within (q : ℚ) (K : Nat) (hK : K ≤ 250)
    (hq : |q| < 2 ^ (K + 1) / 2 ^ 126) :
    ∃ r, roundSingle q = Flt.fin r ∧ |r - q| ≤ 2 ^ K / 2 ^ 150 := by
  have hd : 0 < q.den := q.den_pos
  have hdq : (0 : ℚ) < q.den := by exact_mod_cast hd
  have hqn : q = (q.num : ℚ) / q.den := (Rat.num_div_den q).symm
  have habs : |q| = (q.num.natAbs : ℚ) / q.den := by
    conv_lhs => rw [hqn]
    rw [abs_div, abs_of_pos hdq, Nat.cast_natAbs, Int.cast_abs]
  have hcond : q.num.natAbs * 2 ^ 126 < 2 ^ (K + 1) * q.den := by
    rw [habs, div_lt_div_iff₀ hdq (by positivity)] at hq
    exact_mod_cast hq
  have hk := binadeSingle_le q.num.natAbs q.den K hcond 253 0 (Nat.zero_le _)
  have hspec := nearestQuotient_spec (q.num.natAbs * 2 ^ 149)
    (q.den * 2 ^ binadeSingle q.num.natAbs q.den 253 0) (by positivity)
  unfold roundSingle
  simp only
  generalize binadeSingle q.num.natAbs q.den 253 0 = k at hk hspec ⊢
  generalize nearestQuotient (q.num.natAbs * 2 ^ 149) (q.den * 2 ^ k) = m at hspec ⊢
  generalize hn : q.num.natAbs = n at hcond hspec habs
  have hov := nearest_no_overflow n q.den m k K hK hk hcond hspec.2
  rw [if_neg (not_le.mpr hov)]
  have hv : |((m * 2 ^ k : Nat) : ℚ) / ((2 ^ 149 : Nat) : ℚ) - (n : ℚ) / q.den|
      ≤ 2 ^ K / 2 ^ 150 := by
    have h150 : (2 : ℚ) ^ 150 = 2 * ((2 ^ 149 : Nat) : ℚ) := by
      push_cast
      rw [show (150 : Nat) = 149 + 1 from rfl, pow_succ]
      ring
    have hpk : ((2 ^ k : Nat) : ℚ) ≤ ((2 ^ K : Nat) : ℚ) := by
      exact_mod_cast Nat.pow_le_pow_right (by norm_num) hk
    have h1q : (2 : ℚ) * (n * ((2 ^ 149 : Nat) : ℚ)) ≤
        2 * (m * (q.den * ((2 ^ k : Nat) : ℚ))) + q.den * ((2 ^ k : Nat) : ℚ) := by
      exact_mod_cast hspec.1
    have h2q : (2 : ℚ) * (m * (q.den * ((2 ^ k : Nat) : ℚ))) ≤
        2 * (n * ((2 ^ 149 : Nat) : ℚ)) + q.den * ((2 ^ k : Nat) : ℚ) := by
      exact_mod_cast hspec.2
    have := nearest_error n q.den m ((2 ^ 149 : Nat) : ℚ) ((2 ^ k : Nat) : ℚ)
      ((2 ^ K : Nat) : ℚ) hdq (by positivity) hpk h1q h2q
    have hQ : ((2 ^ K : Nat) : ℚ) = (2 : ℚ) ^ K := by push_cast; rfl
    rw [hQ] at this
    rw [h150, Nat.cast_mul]
    exact this
  split_ifs with hneg
  · refine ⟨_, rfl, ?_⟩
    have hq' : q = -((n : ℚ) / q.den) := by
      have hnum : (q.num : ℚ) = -(n : ℚ) := by
        rw [← hn, Nat.cast_natAbs, Int.cast_abs, abs_of_neg (by exact_mod_cast hneg)]
        simp
      conv_lhs => rw [hqn, hnum]
      ring
    have e : -((m * 2 ^ k : Nat) : ℚ) / ((2 ^ 149 : Nat) : ℚ) - q =
        -(((m * 2 ^ k : Nat) : ℚ) / ((2 ^ 149 : Nat) : ℚ) - (n : ℚ) / q.den) := by
      conv_lhs => rw [hq']
      ring
    rw [e, abs_neg]
    exact hv
  · refine ⟨_, rfl, ?_⟩
    have hq' : q = (n : ℚ) / q.den := by
      have hnum : (q.num : ℚ) = (n : ℚ) := by
        rw [← hn, Nat.cast_natAbs, Int.cast_abs, abs_of_nonneg (by exact_mod_cast not_lt.mp hneg)]
      conv_lhs => rw [hqn, hnum]
    have e : ((m * 2 ^ k : Nat) : ℚ) / ((2 ^ 149 : Nat) : ℚ) - q =
        ((m * 2 ^ k : Nat) : ℚ) / ((2 ^ 149 : Nat) : ℚ) - (n : ℚ) / q.den := by
      conv_lhs => rw [hq']
    rw [e]
    exact hv

/-- The search for the binade, started at `k0` with enough fuel to reach a binade `K`
that holds the number, ends on a binade that holds it, and on the least such from `k0`. -/
theorem binadeSingle_spec (num den K : Nat) (hK : num * 2 ^ 126 < 2 ^ (K + 1) * den) :
    ∀ (fuel k0 : Nat), k0 ≤ K → K ≤ k0 + fuel →
      num * 2 ^ 126 < 2 ^ (binadeSingle num den fuel k0 + 1) * den ∧
        (binadeSingle num den fuel k0 = k0 ∨
          2 ^ binadeSingle num den fuel k0 * den ≤ num * 2 ^ 126) := by
  intro fuel
  induction fuel with
  | zero =>
    intro k0 h1 h2
    have : k0 = K := by omega
    subst this
    exact ⟨hK, Or.inl rfl⟩
  | succ fuel ih =>
    intro k0 h1 h2
    unfold binadeSingle
    split_ifs with h
    · exact ⟨h, Or.inl rfl⟩
    · have hne : k0 ≠ K := by
        intro heq
        rw [heq] at h
        exact h hK
      have := ih (k0 + 1) (by omega) (by omega)
      refine ⟨this.1, Or.inr ?_⟩
      rcases this.2 with h3 | h3
      · rw [h3]
        exact not_lt.mp h
      · exact h3

/-- The relative error of rounding to single precision: a number of the normal range,
from `1 / 2 ^ 126` up to below `2 ^ 125`, is rounded to a finite single within the
relative error `1 / 2 ^ 24`. -/
theorem roundSingle_relative (q : ℚ) (hlo : 1 / 2 ^ 126 ≤ |q|) (hhi : |q| < 2 ^ 125) :
    ∃ r, roundSingle q = Flt.fin r ∧ |r - q| ≤ 1 / 2 ^ 24 * |q| := by
  have hd : 0 < q.den := q.den_pos
  have hdq : (0 : ℚ) < q.den := by exact_mod_cast hd
  have hqn : q = (q.num : ℚ) / q.den := (Rat.num_div_den q).symm
  have habs : |q| = (q.num.natAbs : ℚ) / q.den := by
    conv_lhs => rw [hqn]
    rw [abs_div, abs_of_pos hdq, Nat.cast_natAbs, Int.cast_abs]
  have hcond : q.num.natAbs * 2 ^ 126 < 2 ^ (250 + 1) * q.den := by
    have h : |q| < 2 ^ (250 + 1) / 2 ^ 126 := by
      have e : (2 : ℚ) ^ (250 + 1) / 2 ^ 126 = 2 ^ 125 := by
        rw [show (250 + 1 : Nat) = 125 + 126 from rfl, pow_add]
        field_simp
      rw [e]
      exact hhi
    rw [habs, div_lt_div_iff₀ hdq (by positivity)] at h
    exact_mod_cast h
  have hspec := binadeSingle_spec q.num.natAbs q.den 250 hcond 253 0 (Nat.zero_le _) (by omega)
  have hle := binadeSingle_le q.num.natAbs q.den 250 hcond 253 0 (Nat.zero_le _)
  generalize hkk : binadeSingle q.num.natAbs q.den 253 0 = k at hspec hle
  have hq : |q| < 2 ^ (k + 1) / 2 ^ 126 := by
    rw [habs, div_lt_div_iff₀ hdq (by positivity)]
    exact_mod_cast hspec.1
  obtain ⟨r, hr, herr⟩ := roundSingle_within q k hle hq
  refine ⟨r, hr, le_trans herr ?_⟩
  have hbin : (2 : ℚ) ^ k / 2 ^ 126 ≤ |q| := by
    rcases hspec.2 with h0 | h1
    · rw [h0]
      simpa using hlo
    · rw [habs, div_le_div_iff₀ (by positivity) hdq]
      exact_mod_cast h1
  have e : (2 : ℚ) ^ k / 2 ^ 150 = 1 / 2 ^ 24 * (2 ^ k / 2 ^ 126) := by
    rw [show (150 : Nat) = 24 + 126 from rfl, pow_add]
    field_simp
  rw [e]
  exact mul_le_mul_of_nonneg_left hbin (by positivity)

/-! ## C5: the lifetime of a bullet -/

theorem Flt.fin_sub_fin (a b : ℚ) : Flt.fin a - Flt.fin b = Flt.fin (a - b) := rfl

theorem Flt.le_fin_zero (a : ℚ) : Flt.le (Flt.fin a) 0 = decide (a ≤ 0) := by
  show decide (a ≤ ((0 : Nat) : ℚ)) = decide (a ≤ 0)
  simp

theorem Flt.gt_lifetime (a : ℚ) : Flt.gt BULLET_LIFETIME (Flt.fin a) = decide (a < 3) := by
  show decide (a < ((3 : Nat) : ℚ)) = decide (a < 3)
  simp

/-- An invalid bullet stays invalid as long as its slot is not written. -/
theorem bulletRun_invalid (rnd : Flt → Flt) (steps : List (Flt × List Enemy)) :
    ∀ b : Bullet, b.isValid = false → (bulletRun rnd b steps).isValid = false := by
  induction steps with
  | nil => intro b hb; exact hb
  | cons s rest ih =>
    intro b hb
    have : bulletRun rnd b (s :: rest) =
        bulletRun rnd (updateBulletRounded rnd s.1 b s.2).1 rest := rfl
    rw [this, updateBulletRounded_invalid rnd s.1 b s.2 hb]
    exact ih b hb

/-- The countdown over one more pass: the subtraction is within `eps`, and the countdown
goes on if its result is positive. -/
theorem countdownWithin_cons (rnd : Flt → Flt) (eps t d : ℚ) (rest : List Flt) :
    countdownWithin rnd eps (Flt.fin t) (Flt.fin d :: rest) = true ↔
      ∃ r, rnd (Flt.fin (t - d)) = Flt.fin r ∧ t - d - eps ≤ r ∧ r ≤ t - d + eps ∧
        (r ≤ 0 ∨ countdownWithin rnd eps (Flt.fin r) rest = true) := by
  simp only [countdownWithin, Flt.fin_sub_fin]
  cases h : rnd (Flt.fin (t - d)) with
  | fin r =>
    simp only [Bool.and_eq_true, Bool.or_eq_true, decide_eq_true_eq, Flt.fin.injEq,
      exists_eq_left']
    constructor
    · rintro ⟨⟨h1, h2⟩, h3⟩; exact ⟨h1, h2, h3⟩
    · rintro ⟨h1, h2, h3⟩; exact ⟨⟨h1, h2⟩, h3⟩
  | undef => simp

/-- Dropping the last passes keeps the subtractions within `eps`. -/
theorem countdownWithin_take (rnd : Flt → Flt) (eps : ℚ) (dts : List Flt) :
    ∀ (t : Flt) (k : Nat), countdownWithin rnd eps t dts = true →
      countdownWithin rnd eps t (dts.take k) = true := by
  induction dts with
  | nil => intro t k h; simpa using h
  | cons d rest ih =>
    intro t k h
    cases k with
    | zero => simp [countdownWithin]
    | succ k =>
      rw [List.take_succ_cons]
      simp only [countdownWithin] at h ⊢
      generalize t - d = x at h ⊢
      generalize rnd x = y at h ⊢
      cases x with
      | undef => simp at h
      | fin x =>
        cases y with
        | undef => simp at h
        | fin r =>
          simp only [Bool.and_eq_true, Bool.or_eq_true, decide_eq_true_eq] at h ⊢
          refine ⟨h.1, ?_⟩
          rcases h.2 with h2 | h2
          · exact Or.inl h2
          · exact Or.inr (ih _ k h2)

/-- Dropping the last passes keeps the bullet clear of the enemies. -/
theorem hitsNoEnemy_take (rnd : Flt → Flt) (steps : List (Flt × List Enemy)) :
    ∀ (b : Bullet) (k : Nat), hitsNoEnemy rnd b steps = true →
      hitsNoEnemy rnd b (steps.take k) = true := by
  induction steps with
  | nil => intro b k h; simpa using h
  | cons s rest ih =>
    intro b k h
    cases k with
    | zero => rfl
    | succ k =>
      simp only [hitsNoEnemy, Bool.and_eq_true, List.take_succ_cons] at h ⊢
      exact ⟨h.1, ih _ k h.2⟩

/-- A live bullet whose `timeLeft` `t > 0` is within `err` of `tau`, that hits nothing,
over passes whose subtractions are each within `eps`: it is live after the passes when
their frame times add up to less than `tau` by more than the accumulated error, and
only when they add up to less than `tau` plus the accumulated error. -/
theorem bulletRun_within (rnd : Flt → Flt) (eps : ℚ) (heps : 0 ≤ eps)
    (steps : List (ℚ × List Enemy)) :
    ∀ (b : Bullet) (t tau err : ℚ), b.isValid = true → b.timeLeft = Flt.fin t → 0 < t →
      tau - err ≤ t → t ≤ tau + err →
      (∀ s ∈ steps, 0 < s.1) → hitsNoEnemy rnd b (finiteSteps steps) = true →
      countdownWithin rnd eps (Flt.fin t) (steps.map (fun s => Flt.fin s.1)) = true →
      ((steps.map Prod.fst).sum + (err + steps.length * eps) < tau →
          (bulletRun rnd b (finiteSteps steps)).isValid = true) ∧
        ((bulletRun rnd b (finiteSteps steps)).isValid = true →
          (steps.map Prod.fst).sum - (err + steps.length * eps) < tau) := by
  induction steps with
  | nil =>
    intro b t tau err hv _ ht0 hlo _ _ _ _
    simp only [List.map_nil, List.sum_nil, List.length_nil, Nat.cast_zero, zero_mul, add_zero]
    refine ⟨fun _ => hv, fun _ => ?_⟩
    linarith
  | cons s rest ih =>
    intro b t tau err hv ht ht0 hlo hhi hpos hno hcd
    have hstep : bulletRun rnd b (finiteSteps (s :: rest)) =
        bulletRun rnd (updateBulletRounded rnd (Flt.fin s.1) b s.2).1 (finiteSteps rest) := rfl
    have hno' : (updateBulletRounded rnd (Flt.fin s.1) b s.2).2 = s.2 ∧
        hitsNoEnemy rnd (updateBulletRounded rnd (Flt.fin s.1) b s.2).1 (finiteSteps rest)
          = true := by
      simpa [hitsNoEnemy, finiteSteps] using hno
    have hrest : ∀ r ∈ rest, 0 < r.1 := fun r hr => hpos r (List.mem_cons_of_mem _ hr)
    have hsum_nonneg : 0 ≤ (rest.map Prod.fst).sum := by
      apply List.sum_nonneg
      intro x hx
      obtain ⟨r, hr, rfl⟩ := List.mem_map.mp hx
      exact le_of_lt (hrest r hr)
    have hs : 0 < s.1 := hpos s (List.mem_cons_self _ _)
    have hn : (0 : ℚ) ≤ (rest.length : ℚ) * eps :=
      mul_nonneg (Nat.cast_nonneg _) heps
    rw [List.map_cons, countdownWithin_cons] at hcd
    obtain ⟨r, hr, hrlo, hrhi, hgo⟩ := hcd
    rw [hstep]
    simp only [List.map_cons, List.sum_cons, List.length_cons, Nat.cast_add, Nat.cast_one]
    by_cases hexp : r ≤ 0
    · have hle : Flt.le (rnd (b.timeLeft - Flt.fin s.1)) 0 = true := by
        rw [ht, Flt.fin_sub_fin, hr, Flt.le_fin_zero]; simpa using hexp
      rw [updateBulletRounded_expired rnd _ b s.2 hv hle]
      rw [bulletRun_invalid rnd _ _ rfl]
      constructor
      · intro h; exfalso; nlinarith
      · intro h; exact Bool.noConfusion h
    · have hle : Flt.le (rnd (b.timeLeft - Flt.fin s.1)) 0 = false := by
        rw [ht, Flt.fin_sub_fin, hr, Flt.le_fin_zero]; simpa using hexp
      have hmiss : (collideEnemiesRounded rnd (Vector2AddRounded rnd b.position
          (Vector2ScaleRounded rnd b.unitDirection (rnd (Flt.fin s.1 * BULLET_SPEED)))) s.2).1
            = false := by
        by_contra hcon
        have hhit : (collideEnemiesRounded rnd (Vector2AddRounded rnd b.position
            (Vector2ScaleRounded rnd b.unitDirection (rnd (Flt.fin s.1 * BULLET_SPEED)))) s.2).1
              = true := by
          simpa using hcon
        have hne := collideEnemiesRounded_hit_ne rnd _ s.2 hhit
        rw [updateBulletRounded_moved rnd _ b s.2 hv hle] at hno'
        exact hne hno'.1
      have hgo' : countdownWithin rnd eps (Flt.fin r) (rest.map (fun s => Flt.fin s.1)) = true := by
        rcases hgo with h | h
        · exact absurd h hexp
        · exact h
      rw [updateBulletRounded_moved rnd _ b s.2 hv hle] at hno' ⊢
      have := ih _ r (tau - s.1) (err + eps) (by simp [hmiss])
        (by simp [ht, Flt.fin_sub_fin, hr]) (by linarith) (by linarith) (by linarith)
        hrest hno'.2 hgo'
      constructor
      · intro h; apply this.1; linarith
      · intro h; have := this.2 h; linarith

/-- Without error in the subtractions, `eps = 0`, the bullet is live after the passes
exactly when their frame times add up to less than its `timeLeft`. -/
theorem bulletRun_exact (rnd : Flt → Flt) (steps : List (ℚ × List Enemy)) (b : Bullet)
    (t : ℚ) (hv : b.isValid = true) (ht : b.timeLeft = Flt.fin t) (ht0 : 0 < t)
    (hpos : ∀ s ∈ steps, 0 < s.1) (hno : hitsNoEnemy rnd b (finiteSteps steps) = true)
    (hcd : countdownWithin rnd 0 (Flt.fin t) (steps.map (fun s => Flt.fin s.1)) = true) :
    (bulletRun rnd b (finiteSteps steps)).isValid = true ↔ (steps.map Prod.fst).sum < t := by
  have h := bulletRun_within rnd 0 le_rfl steps b t t 0 hv ht ht0 (by simp) (by simp) hpos
    hno hcd
  simp only [mul_zero, add_zero, sub_zero] at h
  exact ⟨h.2, h.1⟩

/-- In single precision every subtraction of the countdown is within `1 / 2 ^ 23` of the
exact difference: a countdown from `t > 0` over passes with frame times between 0 and
4, as long as `t` with `1 / 2 ^ 23` for each pass stays within 4. -/
theorem countdownWithin_single (dts : List ℚ) :
    ∀ t : ℚ, 0 < t → t + dts.length / 2 ^ 23 ≤ 4 → (∀ d ∈ dts, 0 < d ∧ d < 4) →
      countdownWithin Flt.single (1 / 2 ^ 23) (Flt.fin t) (dts.map Flt.fin) = true := by
  induction dts with
  | nil => intro t _ _ _; simp [countdownWithin]
  | cons d rest ih =>
    intro t ht hsum hd
    have hd0 := hd d (List.mem_cons_self _ _)
    have hlen : (0 : ℚ) ≤ (rest.length : ℚ) / 2 ^ 23 := by positivity
    have hsum' : t + (rest.length / 2 ^ 23 + 1 / 2 ^ 23) ≤ 4 := by
      have e : (((d :: rest).length : Nat) : ℚ) / 2 ^ 23 = rest.length / 2 ^ 23 + 1 / 2 ^ 23 := by
        rw [List.length_cons]
        push_cast
        ring
      rw [e] at hsum
      exact hsum
    have hx : |t - d| < 2 ^ (127 + 1) / 2 ^ 126 := by
      have e : (2 : ℚ) ^ (127 + 1) / 2 ^ 126 = 4 := by
        rw [show (127 + 1 : Nat) = 126 + 2 from rfl, pow_add]
        field_simp
        norm_num
      rw [e, abs_lt]
      constructor
      · linarith [hd0.2]
      · have : (0 : ℚ) < 1 / 2 ^ 23 := by positivity
        linarith [hd0.1]
    obtain ⟨r, hr, herr⟩ := roundSingle_within (t - d) 127 (by norm_num) hx
    have e23 : (2 : ℚ) ^ 127 / 2 ^ 150 = 1 / 2 ^ 23 := by
      rw [show (150 : Nat) = 127 + 23 from rfl, pow_add]
      field_simp
    rw [e23, abs_le] at herr
    rw [List.map_cons, countdownWithin_cons]
    refine ⟨r, hr, by linarith [herr.1], by linarith [herr.2], ?_⟩
    by_cases hr0 : r ≤ 0
    · exact Or.inl hr0
    · refine Or.inr (ih r (not_le.mp hr0) ?_ (fun x hx => hd x (List.mem_cons_of_mem _ hx)))
      linarith [herr.2, hd0.1]

/-- The lifetime of a bullet in single precision: a bullet written by `spawnNextBullet`
goes through at most `2 ^ 23` passes with frame times between 0 and 4 and hits no
enemy.  It is live after the passes when their frame times add up to less than
`BULLET_LIFETIME` by more than `1 / 2 ^ 23` for each pass, and only when they add up to
less than `BULLET_LIFETIME` plus `1 / 2 ^ 23` for each pass. -/
theorem bulletRun_single (position unitDirection : Vector2) (steps : List (ℚ × List Enemy))
    (hlen : steps.length ≤ 2 ^ 23) (hpos : ∀ s ∈ steps, 0 < s.1 ∧ s.1 < 4)
    (hno : hitsNoEnemy Flt.single (newBullet position unitDirection) (finiteSteps steps)
      = true) :
    ((steps.map Prod.fst).sum + steps.length / 2 ^ 23 < 3 →
        (bulletRun Flt.single (newBullet position unitDirection)
          (finiteSteps steps)).isValid = true) ∧
      ((bulletRun Flt.single (newBullet position unitDirection)
          (finiteSteps steps)).isValid = true →
        (steps.map Prod.fst).sum - steps.length / 2 ^ 23 < 3) := by
  have ht : (newBullet position unitDirection).timeLeft = Flt.fin 3 := by
    show Flt.fin ((3 : Nat) : ℚ) = Flt.fin 3
    simp
  have hlenq : ((steps.map Prod.fst).length : ℚ) / 2 ^ 23 ≤ 1 := by
    rw [List.length_map, div_le_one (by positivity)]
    exact_mod_cast hlen
  have hcd := countdownWithin_single (steps.map Prod.fst) 3 (by norm_num) (by linarith)
    (by
      intro d hd
      obtain ⟨s, hs, rfl⟩ := List.mem_map.mp hd
      exact hpos s hs)
  rw [List.map_map] at hcd
  have h := bulletRun_within Flt.single (1 / 2 ^ 23) (by positivity) steps _ 3 3 0 rfl ht
    (by norm_num) (by norm_num) (by norm_num) (fun s hs => (hpos s hs).1) hno hcd
  constructor
  · intro hlt
    apply h.1
    have e : (0 : ℚ) + (steps.length : ℚ) * (1 / 2 ^ 23) = steps.length / 2 ^ 23 := by ring
    rw [e]
    exact hlt
  · intro hv
    have := h.2 hv
    have e : (0 : ℚ) + (steps.length : ℚ) * (1 / 2 ^ 23) = steps.length / 2 ^ 23 := by ring
    rw [e] at this
    exact this

/-- C5 (bullet lifetime, amended): a bullet written by `spawnNextBullet`, that is with
`timeLeft = BULLET_LIFETIME`, goes through passes with positive frame times, the first
being the pass in which it was fired; it hits no enemy and its slot is not written
again.  Each subtraction of line 190 that the loop performs gives a result within `eps`
of the exact difference.  Then the bullet is live after pass `k` when the first `k`
frame times add up to less than `BULLET_LIFETIME` minus `k * eps`, and it is invalid
after pass `k` when they add up to `BULLET_LIFETIME` plus `k * eps` or more.  With
`eps = 0`, no rounding, it is live exactly when they add up to less than
`BULLET_LIFETIME`. -/
theorem C5_bullet_lifetime (rnd : Flt → Flt) (eps : ℚ) (position unitDirection : Vector2)
    (steps : List (ℚ × List Enemy)) (k : Nat)
    (heps : 0 ≤ eps)
    (hpos : ∀ s ∈ steps, 0 < s.1)
    (hno : hitsNoEnemy rnd (newBullet position unitDirection) (finiteSteps steps) = true)
    (hrnd : countdownWithin rnd eps BULLET_LIFETIME (steps.map (fun s => Flt.fin s.1)) = true) :
    (Flt.gt BULLET_LIFETIME
          (Flt.fin (((steps.take k).map Prod.fst).sum + (steps.take k).length * eps)) = true →
        (bulletRun rnd (newBullet position unitDirection)
          (finiteSteps (steps.take k))).isValid = true) ∧
      ((bulletRun rnd (newBullet position unitDirection)
          (finiteSteps (steps.take k))).isValid = true →
        Flt.gt BULLET_LIFETIME
          (Flt.fin (((steps.take k).map Prod.fst).sum - (steps.take k).length * eps)) = true) := by
  have hno' : hitsNoEnemy rnd (newBullet position unitDirection)
      (finiteSteps (steps.take k)) = true := by
    have := hitsNoEnemy_take rnd (finiteSteps steps) (newBullet position unitDirection) k hno
    simpa [finiteSteps, List.map_take] using this
  have hpos' : ∀ s ∈ steps.take k, 0 < s.1 := fun s hs => hpos s (List.mem_of_mem_take hs)
  have ht : (newBullet position unitDirection).timeLeft = Flt.fin 3 := by
    show Flt.fin ((3 : Nat) : ℚ) = Flt.fin 3
    simp
  have h3 : BULLET_LIFETIME = Flt.fin 3 := ht
  have hrnd' : countdownWithin rnd eps (Flt.fin 3)
      ((steps.take k).map (fun s => Flt.fin s.1)) = true := by
    have := countdownWithin_take rnd eps _ BULLET_LIFETIME k hrnd
    rw [h3] at this
    simpa [List.map_take] using this
  have h := bulletRun_within rnd eps heps (steps.take k) _ 3 3 0 rfl ht (by norm_num)
    (by norm_num) (by norm_num) hpos' hno' hrnd'
  simp only [Flt.gt_lifetime, decide_eq_true_eq]
  constructor
  · intro hlt; apply h.1; linarith
  · intro hv; have := h.2 hv; linarith

/-! ## C6: which enemy takes the hit -/

/-- C6 (first match wins): a live bullet with time left, whose position after its move
is in range of at least one live enemy, is deactivated; the live enemy in range with
the lowest index `j` loses exactly `BULLET_DAMAGE` health (and is valid afterwards
exactly when health is left); every other enemy is left as it was. -/
theorem C6_first_match_wins (dt : Flt) (b : Bullet) (es : List Enemy) (j : Nat) (e : Enemy)
    (hv : b.isValid = true) (hlive : Flt.le (b.timeLeft - dt) 0 = false)
    (hj : es[j]? = some e) (hev : e.isValid = true)
    (hin : CheckCollisionCircles e.position ENEMY_RADIUS
      (Vector2Add b.position (Vector2Scale b.unitDirection (dt * BULLET_SPEED)))
      BULLET_RADIUS = true)
    (hfirst : ∀ (i : Nat) (a : Enemy), i < j → es[i]? = some a → a.isValid = true →
      CheckCollisionCircles a.position ENEMY_RADIUS
        (Vector2Add b.position (Vector2Scale b.unitDirection (dt * BULLET_SPEED)))
        BULLET_RADIUS = false) :
    (updateBullet dt b es).1.isValid = false ∧
      (updateBullet dt b es).2[j]? =
        some { position := e.position
               isValid := decide (0 < e.health - BULLET_DAMAGE)
               health := e.health - BULLET_DAMAGE } ∧
      ∀ i : Nat, i ≠ j → (updateBullet dt b es).2[i]? = es[i]? := by
  have hjlt : j < es.length := by
    by_contra hcon
    rw [List.getElem?_eq_none (by omega)] at hj
    exact Option.noConfusion hj
  have hdmg : damageEnemy e =
      { position := e.position
        isValid := decide (0 < e.health - BULLET_DAMAGE)
        health := e.health - BULLET_DAMAGE } := by
    by_cases h : e.health - BULLET_DAMAGE ≤ 0
    · have h' : ¬ (0 < e.health - BULLET_DAMAGE) := by omega
      simp only [damageEnemy, if_pos h, decide_eq_false h']
    · have h' : 0 < e.health - BULLET_DAMAGE := by omega
      simp only [damageEnemy, if_neg h, decide_eq_true h', hev]
  rw [updateBullet_moved dt b es hv hlive, collideEnemies_first _ es j e hj hev hin hfirst]
  refine ⟨rfl, ?_, ?_⟩
  · simp only [List.getElem?_set_self hjlt, hdmg]
  · intro i hi
    simp only [List.getElem?_set_ne (Ne.symm hi)]

/-! ## C7: dead enemies -/

theorem movePlayer_enemies (w : World) (p : Poll) : (movePlayer w p).enemies = w.enemies := rfl

/-- Without the reset key the input phase leaves the enemies alone. -/
theorem loopInput_enemies (E : Extern) (w : World) (p : Poll) (hno : p.keyYes = false) :
    (loopInput E w p).enemies = w.enemies := by
  by_cases hterm : w.isPlayerDead = true ∨ w.isGameWon = true
  · rw [loopInput_terminal E w p hterm hno]
  · have hd : w.isPlayerDead = false := by
      cases hx : w.isPlayerDead
      · rfl
      · exact absurd (Or.inl hx) hterm
    have hw : w.isGameWon = false := by
      cases hx : w.isGameWon
      · rfl
      · exact absurd (Or.inr hx) hterm
    rw [loopInput_playing E w p hd hw, movePlayer_enemies]

/-- An invalid enemy goes through a pass without the reset key unchanged. -/
theorem frame_invalid_enemy (E : Extern) (w : World) (p : Poll) (j : Nat) (e : Enemy)
    (hno : p.keyYes = false) (hj : w.enemies[j]? = some e) (hinv : e.isValid = false) :
    (frame E w p).enemies[j]? = some e := by
  rw [← loopInput_enemies E w p hno] at hj
  obtain ⟨e', h1, h2⟩ := bulletLoop_enemies_get p.deltaTime
    (fire E (loopInput E w p) p).bullets _ j e hj
  have he' : e' = e := h2.of_invalid hinv
  subst he'
  rw [frame_enemies, bulletUpdate_enemies, List.getElem?_map, h1]
  simp [hinv]

theorem run_invalid_enemy (E : Extern) (polls : List Poll) :
    ∀ (w : World) (j : Nat) (e : Enemy), (∀ q ∈ polls, q.keyYes = false) →
      w.enemies[j]? = some e → e.isValid = false → (run E w polls).enemies[j]? = some e := by
  induction polls with
  | nil => intro w j e _ hj _; exact hj
  | cons p rest ih =>
    intro w j e hno hj hinv
    exact ih (frame E w p) j e (fun q hq => hno q (List.mem_cons_of_mem _ hq))
      (frame_invalid_enemy E w p j e (hno p (List.mem_cons_self _ _)) hj hinv) hinv

/-- C7 (lethal damage), for the enemy `e` in slot `j` of a world `w`.
(1) If the bullet phase of a pass changes the enemy and leaves it with health `≤ 0`,
it leaves it invalid.  (2) If the enemy is invalid, its position, health and validity
are the same after any number of passes without the reset key.  (3) A bullet is only
stopped by a valid enemy in range, (4) `touchedPlayer` is only raised by a valid enemy
and (5) `numEnemyAlive` counts the valid enemies only. -/
theorem C7_lethal_damage (E : Extern) (w : World) (p : Poll) (polls : List Poll) (j : Nat)
    (e e' : Enemy) (pos : Vector2) (hj : w.enemies[j]? = some e) :
    ((bulletUpdate E w p).enemies[j]? = some e' → e' ≠ e → e'.health ≤ 0 →
        e'.isValid = false) ∧
      (e.isValid = false → (∀ q ∈ polls, q.keyYes = false) →
        (run E w polls).enemies[j]? = some e) ∧
      (collideEnemies pos w.enemies).1 =
        w.enemies.any (fun a => a.isValid &&
          CheckCollisionCircles a.position ENEMY_RADIUS pos BULLET_RADIUS) ∧
      (enemyUpdate E w p.deltaTime).touchedPlayer =
        w.enemies.any (fun a => a.isValid &&
          CheckCollisionCircles (moveEnemy E p.deltaTime w.player.position a).position
            ENEMY_RADIUS w.player.position PLAYER_RADIUS) ∧
      (enemyUpdate E w p.deltaTime).numEnemyAlive = w.enemies.countP (fun a => a.isValid) := by
  refine ⟨?_, ?_, collideEnemies_flag pos w.enemies, enemyUpdate_touchedPlayer E w _,
    enemyUpdate_numEnemyAlive E w _⟩
  · intro h1 hne hle
    rw [bulletUpdate_enemies] at h1
    obtain ⟨e2, h2, h3⟩ := bulletLoop_enemies_get p.deltaTime (fire E w p).bullets
      w.enemies j e hj
    rw [h1] at h2
    cases h2
    rcases h3 with h3 | ⟨_, _, _, hd⟩
    · exact absurd h3 hne
    · rw [hd]
      simp only [decide_eq_false_iff_not, not_lt]
      exact hle
  · intro hinv hno
    exact run_invalid_enemy E polls w j e hno hj hinv

/-! ## C8: the win -/

/-- Without the reset key a pass keeps `isGameWon` up. -/
theorem frame_isGameWon_stays (E : Extern) (w : World) (p : Poll)
    (hw : w.isGameWon = true) (hno : p.keyYes = false) : (frame E w p).isGameWon = true := by
  rw [frame_isGameWon, loopInput_terminal E w p (Or.inr hw) hno, hw]; rfl

theorem run_isGameWon_stays (E : Extern) (polls : List Poll) :
    ∀ w : World, w.isGameWon = true → (∀ q ∈ polls, q.keyYes = false) →
      (run E w polls).isGameWon = true := by
  induction polls with
  | nil => intro w hw _; exact hw
  | cons p rest ih =>
    intro w hw hno
    exact ih (frame E w p) (frame_isGameWon_stays E w p hw (hno p (List.mem_cons_self _ _)))
      (fun q hq => hno q (List.mem_cons_of_mem _ hq))

/-- C8 (win condition): if in a pass of a world `w` (a Playing world in particular) no
enemy is valid after the bullet phase, `isGameWon` is true at the end of that pass; and
from any world `w0` with `isGameWon` true, it is still true after any number of passes
without the reset key. -/
theorem C8_win_condition (E : Extern) (w : World) (p : Poll) (w0 : World)
    (polls : List Poll)
    (hall : ∀ e ∈ (bulletUpdate E (loopInput E w p) p).enemies, e.isValid = false)
    (hw0 : w0.isGameWon = true) (hno : ∀ q ∈ polls, q.keyYes = false) :
    (frame E w p).isGameWon = true ∧ (run E w0 polls).isGameWon = true := by
  refine ⟨?_, run_isGameWon_stays E polls w0 hw0 hno⟩
  have hz : (bulletUpdate E (loopInput E w p) p).enemies.countP (fun e => e.isValid) = 0 := by
    apply List.countP_eq_zero.mpr
    intro e he
    simp [hall e he]
  rw [frame_isGameWon, hz]
  simp

/-! ## C9: the death of the player -/

theorem frame_player_isValid_of_touched (E : Extern) (w : World) (p : Poll)
    (ht : (enemyUpdate E (bulletUpdate E (loopInput E w p) p) p.deltaTime).touchedPlayer
      = true) :
    (frame E w p).player.isValid = false := by
  simp [frame, stateTransitions_player_isValid, enemyUpdate_player_isValid, ht]

/-- Without the reset key a pass keeps a dead player dead and where it is. -/
theorem frame_dead_stays (E : Extern) (w : World) (p : Poll)
    (hd : w.isPlayerDead = true) (hno : p.keyYes = false) :
    (frame E w p).isPlayerDead = true ∧
      (frame E w p).player.position = w.player.position := by
  constructor
  · rw [frame_isPlayerDead, loopInput_terminal E w p (Or.inl hd) hno, hd]; rfl
  · rw [frame_player_position, loopInput_terminal E w p (Or.inl hd) hno]

theorem run_dead_stays (E : Extern) (polls : List Poll) :
    ∀ w : World, w.isPlayerDead = true → (∀ q ∈ polls, q.keyYes = false) →
      (run E w polls).isPlayerDead = true ∧
        (run E w polls).player.position = w.player.position := by
  induction polls with
  | nil => intro w hd _; exact ⟨hd, rfl⟩
  | cons p rest ih =>
    intro w hd hno
    have h1 := frame_dead_stays E w p hd (hno p (List.mem_cons_self _ _))
    have h2 := ih (frame E w p) h1.1 (fun q hq => hno q (List.mem_cons_of_mem _ hq))
    exact ⟨h2.1, h2.2.trans h1.2⟩

/-- C9 (death condition): if `touchedPlayer` is raised in a pass `p` of a world `w` (a
Playing world in particular), then at the end of that pass `isPlayerDead` is true and
the player is invalid.  After any further passes `polls` without the reset key
`isPlayerDead` is still true and the player's position is the same, whatever keys are
held; and in the next pass `q` the guard of the `PlayerDead` transition is false, so
its body is not entered again. -/
theorem C9_death_condition (E : Extern) (w : World) (p : Poll) (polls : List Poll) (q : Poll)
    (ht : (enemyUpdate E (bulletUpdate E (loopInput E w p) p) p.deltaTime).touchedPlayer
      = true)
    (hno : ∀ r ∈ polls, r.keyYes = false) (hq : q.keyYes = false) :
    (frame E w p).isPlayerDead = true ∧ (frame E w p).player.isValid = false ∧
      (run E (frame E w p) polls).isPlayerDead = true ∧
      (run E (frame E w p) polls).player.position = (frame E w p).player.position ∧
      deathTransitionTaken
        (enemyUpdate E (bulletUpdate E (loopInput E (run E (frame E w p) polls) q) q)
          q.deltaTime).world
        (enemyUpdate E (bulletUpdate E (loopInput E (run E (frame E w p) polls) q) q)
          q.deltaTime).touchedPlayer = false := by
  have h1 : (frame E w p).isPlayerDead = true := by
    rw [frame_isPlayerDead, ht]; simp
  have h2 := run_dead_stays E polls (frame E w p) h1 hno
  refine ⟨h1, frame_player_isValid_of_touched E w p ht, h2.1, h2.2, ?_⟩
  simp [deathTransitionTaken, enemyUpdate_isPlayerDead, bulletUpdate_isPlayerDead,
    loopInput_terminal E _ q (Or.inl h2.1) hq, h2.1]

/-! ## C10: the reset -/

/-- C10 (reset equals fresh construction): in a terminal state the reset key replaces
the world by the one `InitGame` builds on a zeroed block, whatever the world was: the
player valid at (0,0), `NUM_ENEMIES` valid enemies with `ENEMY_INIT_HEALTH` on the ring,
every bullet slot invalid, the cursor 0 and both flags false.  Resetting twice gives the
same world as resetting once. -/
theorem C10_reset_is_fresh (E : Extern) (w : World) (p : Poll)
    (hterm : w.isPlayerDead = true ∨ w.isGameWon = true) (hyes : p.keyYes = true) :
    loopInput E w p = resetGame E w ∧ resetGame E w = InitGame E ∧
      (InitGame E).player = ⟨⟨0, 0⟩, true⟩ ∧
      (InitGame E).enemies = (List.range NUM_ENEMIES).map (fun i =>
        { position :=
            ⟨(0 : Flt) + 300 * E.cos (Flt.fin i * ((2 * E.PI) / Flt.fin NUM_ENEMIES)),
             (0 : Flt) + 300 * E.sin (Flt.fin i * ((2 * E.PI) / Flt.fin NUM_ENEMIES))⟩
          isValid := true
          health := ENEMY_INIT_HEALTH }) ∧
      (InitGame E).bullets.length = NUM_BULLETS ∧
      (∀ b ∈ (InitGame E).bullets, b.isValid = false) ∧
      (InitGame E).nextBulletIndex = 0 ∧
      (InitGame E).isPlayerDead = false ∧ (InitGame E).isGameWon = false ∧
      resetGame E (resetGame E w) = resetGame E w := by
  refine ⟨?_, rfl, ?_, ?_, ?_, ?_, InitGame_nextBulletIndex E, InitGame_isPlayerDead E,
    InitGame_isGameWon E, rfl⟩
  · rw [loopInput_reset E w p hterm hyes]; rfl
  · simp [InitGame, NUM_ENEMIES, List.range, List.range.loop, spawnEnemy, zeroWorld]
  · simp [InitGame, NUM_ENEMIES, List.range, List.range.loop, spawnEnemy, zeroWorld]
  · simp [InitGame_bullets]
  · intro b hb
    rw [InitGame_bullets] at hb
    rw [List.eq_of_mem_replicate hb]

/-! ## C14: what a fire operation writes -/

/-- C14 (fire writes exactly the cursor slot): with the cursor inside the pool,
`spawnNextBullet` makes the slot at the old cursor a valid bullet with the given position
and direction and `timeLeft = BULLET_LIFETIME`, whatever the slot held; the cursor becomes
(old cursor + 1) mod `NUM_BULLETS`; every other slot, the player, the enemies and the two
flags are unchanged. -/
theorem C14_fire_writes_cursor_slot (w : World) (position unitDirection : Vector2)
    (h0 : 0 ≤ w.nextBulletIndex) (h1 : w.nextBulletIndex < NUM_BULLETS)
    (hlen : w.bullets.length = NUM_BULLETS) :
    (spawnNextBullet w position unitDirection).bullets[w.nextBulletIndex.toNat]? =
        some ⟨position, unitDirection, BULLET_LIFETIME, true⟩ ∧
      (spawnNextBullet w position unitDirection).nextBulletIndex =
        (w.nextBulletIndex + 1) % NUM_BULLETS ∧
      (∀ k : Nat, k ≠ w.nextBulletIndex.toNat →
        (spawnNextBullet w position unitDirection).bullets[k]? = w.bullets[k]?) ∧
      (spawnNextBullet w position unitDirection).bullets.length = NUM_BULLETS ∧
      (spawnNextBullet w position unitDirection).player = w.player ∧
      (spawnNextBullet w position unitDirection).enemies = w.enemies ∧
      (spawnNextBullet w position unitDirection).isPlayerDead = w.isPlayerDead ∧
      (spawnNextBullet w position unitDirection).isGameWon = w.isGameWon := by
  have hidx : w.nextBulletIndex.toNat < w.bullets.length := by
    rw [hlen]; omega
  refine ⟨?_, ?_, ?_, ?_, rfl, rfl, rfl, rfl⟩
  · simp [spawnNextBullet, writeBullet, h0, newBullet, List.getElem?_set_self hidx]
  · simp only [spawnNextBullet, NUM_BULLETS] at h1 ⊢
    split_ifs <;> omega
  · intro k hk
    simp [spawnNextBullet, writeBullet, h0, List.getElem?_set_ne (Ne.symm hk)]
  · simp [spawnNextBullet, writeBullet, h0, hlen]

/-! ## C15: the cursor stays in the pool -/

theorem InitGame_cursorInPool (E : Extern) : CursorInPool (InitGame E) := by
  refine ⟨?_, ?_, ?_⟩
  · rw [InitGame_nextBulletIndex]
  · rw [InitGame_nextBulletIndex]; decide
  · rw [InitGame_bullets]; simp

theorem spawnNextBullet_cursorInPool (w : World) (pos dir : Vector2) (h : CursorInPool w) :
    CursorInPool (spawnNextBullet w pos dir) := by
  obtain ⟨h0, h1, hlen⟩ := h
  refine ⟨?_, ?_, ?_⟩
  · simp only [spawnNextBullet, NUM_BULLETS] at h1 ⊢
    split_ifs <;> omega
  · simp only [spawnNextBullet, NUM_BULLETS] at h1 ⊢
    split_ifs <;> omega
  · simp [spawnNextBullet, writeBullet, h0, hlen]

theorem fire_cursorInPool (E : Extern) (w : World) (p : Poll) (h : CursorInPool w) :
    CursorInPool (fire E w p) := by
  unfold fire
  split_ifs
  · exact spawnNextBullet_cursorInPool w _ _ h
  · exact h

theorem loopInput_cursorInPool (E : Extern) (w : World) (p : Poll) (h : CursorInPool w) :
    CursorInPool (loopInput E w p) := by
  unfold loopInput
  split_ifs
  · exact InitGame_cursorInPool E
  · exact h
  · exact h

theorem frame_cursorInPool (E : Extern) (w : World) (p : Poll) (h : CursorInPool w) :
    CursorInPool (frame E w p) := by
  have h1 := fire_cursorInPool E _ p (loopInput_cursorInPool E w p h)
  refine ⟨?_, ?_, ?_⟩
  · rw [frame_nextBulletIndex]; exact h1.1
  · rw [frame_nextBulletIndex]; exact h1.2.1
  · rw [frame_bullets, bulletUpdate_bullets, bulletLoop_bullets_length]; exact h1.2.2

/-- C15 (bullet cursor stays in bounds): in every world reachable from `InitGame` by
passes of the game loop, fire operations and resets, `0 ≤ nextBulletIndex < NUM_BULLETS`
and the pool has `NUM_BULLETS` slots, so the slot that `spawnNextBullet` writes,
`bullets[nextBulletIndex]`, is inside the pool. -/
theorem C15_cursor_in_bounds (E : Extern) (w : World) (h : Reachable E w) :
    0 ≤ w.nextBulletIndex ∧ w.nextBulletIndex < NUM_BULLETS ∧
      w.nextBulletIndex.toNat < w.bullets.length := by
  have hc : CursorInPool w := by
    induction h with
    | init => exact InitGame_cursorInPool E
    | pass w p _ ih => exact frame_cursorInPool E w p ih
    | shot w pos dir _ ih => exact spawnNextBullet_cursorInPool w pos dir ih
    | reset w _ _ => exact InitGame_cursorInPool E
  obtain ⟨h0, h1, hlen⟩ := hc
  refine ⟨h0, h1, ?_⟩
  rw [hlen]; omega

/-! ## C17: the last pass of a bullet -/

/-- C17 (expired bullets do nothing on their last tick): a live bullet with
`timeLeft ≤ dt` is marked invalid by the loop body; its position and direction are
unchanged and the enemies are left exactly as they were, wherever they stand. -/
theorem C17_expired_bullet_does_nothing (b : Bullet) (es : List Enemy) (t d : ℚ)
    (hv : b.isValid = true) (ht : b.timeLeft = Flt.fin t) (hle : t ≤ d) :
    (updateBullet (Flt.fin d) b es).1.isValid = false ∧
      (updateBullet (Flt.fin d) b es).1.position = b.position ∧
      (updateBullet (Flt.fin d) b es).1.unitDirection = b.unitDirection ∧
      (updateBullet (Flt.fin d) b es).2 = es := by
  have hexp : Flt.le (b.timeLeft - Flt.fin d) 0 = true := by
    rw [ht, Flt.fin_sub_fin, Flt.le_fin_zero]
    simp only [decide_eq_true_eq]
    linarith
  rw [updateBullet_expired _ b es hv hexp]
  exact ⟨rfl, rfl, rfl, rfl⟩

/-! ## C20: the pass in which a bullet is fired -/

theorem AfterHits.position {e e' : Enemy} (h : AfterHits e e') : e'.position = e.position := by
  rcases h with h | ⟨_, hp, _⟩
  · rw [h]
  · exact hp

/-- A position out of range of every live enemy before the bullet loop is out of range
of every live enemy all through the bullet loop. -/
theorem bulletLoop_no_hit (dt : Flt) (bs : List Bullet) (es : List Enemy) (pos : Vector2)
    (hmiss : ∀ e ∈ es, e.isValid = true →
      CheckCollisionCircles e.position ENEMY_RADIUS pos BULLET_RADIUS = false) :
    (collideEnemies pos (bulletLoop dt bs es).2).1 = false := by
  rw [collideEnemies_flag]
  apply Bool.eq_false_iff.mpr
  intro hany
  obtain ⟨a, ha, hav⟩ := List.any_eq_true.mp hany
  simp only [Bool.and_eq_true] at hav
  obtain ⟨j, hj⟩ := List.mem_iff_getElem?.mp ha
  obtain ⟨e, he, hr⟩ := bulletLoop_enemies_origin dt bs es j a hj
  have := hmiss e (List.mem_iff_getElem?.mpr ⟨j, he⟩) (hr.valid hav.1)
  rw [← hr.position, hav.2] at this
  exact Bool.noConfusion this

/-- C20 (a bullet is already advanced in the pass in which it is fired): in a Playing
world with the cursor inside the pool, a click in a pass of `0 < dt < BULLET_LIFETIME`
whose bullet lands out of range of every live enemy leaves, at the end of that pass, a
valid bullet in the slot at the old cursor with `timeLeft = BULLET_LIFETIME - dt` and
with position = player position + direction * (dt * `BULLET_SPEED`), the player position
being the one after the movement keys of the pass. -/
theorem C20_fired_bullet_advanced (E : Extern) (w : World) (p : Poll) (q : ℚ)
    (hd : w.isPlayerDead = false) (hw : w.isGameWon = false)
    (hclick : p.mousePressed = true) (hdt : p.deltaTime = Flt.fin q)
    (hq0 : 0 < q) (hq3 : q < 3)
    (h0 : 0 ≤ w.nextBulletIndex) (h1 : w.nextBulletIndex < NUM_BULLETS)
    (hlen : w.bullets.length = NUM_BULLETS)
    (hmiss : ∀ e ∈ w.enemies, e.isValid = true →
      CheckCollisionCircles e.position ENEMY_RADIUS
        (Vector2Add (movePlayer w p).player.position
          (Vector2Scale
            (E.Vector2Normalize
              (Vector2Subtract p.WORLD_MOUSE_POS (movePlayer w p).player.position))
            (Flt.fin q * BULLET_SPEED)))
        BULLET_RADIUS = false) :
    (frame E w p).bullets[w.nextBulletIndex.toNat]? =
      some { position :=
               Vector2Add (movePlayer w p).player.position
                 (Vector2Scale
                   (E.Vector2Normalize
                     (Vector2Subtract p.WORLD_MOUSE_POS (movePlayer w p).player.position))
                   (Flt.fin q * BULLET_SPEED))
             unitDirection :=
               E.Vector2Normalize
                 (Vector2Subtract p.WORLD_MOUSE_POS (movePlayer w p).player.position)
             timeLeft := BULLET_LIFETIME - Flt.fin q
             isValid := true } := by
  have _hq0 := hq0
  have hidx : w.nextBulletIndex.toNat < w.bullets.length := by
    rw [hlen]; omega
  have hfire : (fire E (movePlayer w p) p).bullets[w.nextBulletIndex.toNat]? =
      some (newBullet (movePlayer w p).player.position
        (E.Vector2Normalize
          (Vector2Subtract p.WORLD_MOUSE_POS (movePlayer w p).player.position))) := by
    have hidx' : w.nextBulletIndex.toNat < (movePlayer w p).bullets.length := hidx
    have h0' : 0 ≤ (movePlayer w p).nextBulletIndex := h0
    simp only [fire, hclick, if_true, spawnNextBullet, writeBullet, h0', if_true]
    exact List.getElem?_set_self hidx'
  have hlive : Flt.le ((newBullet (movePlayer w p).player.position
      (E.Vector2Normalize
        (Vector2Subtract p.WORLD_MOUSE_POS (movePlayer w p).player.position))).timeLeft
        - Flt.fin q) 0 = false := by
    show Flt.le (Flt.fin ((3 : Nat) : ℚ) - Flt.fin q) 0 = false
    rw [Flt.fin_sub_fin, Flt.le_fin_zero]
    simp only [decide_eq_false_iff_not, not_le, Nat.cast_ofNat]
    linarith
  have hno := bulletLoop_no_hit (Flt.fin q)
    (List.take w.nextBulletIndex.toNat (fire E (movePlayer w p) p).bullets)
    (movePlayer w p).enemies _ hmiss
  rw [frame_bullets, loopInput_playing E w p hd hw, bulletUpdate_bullets, hdt,
    bulletLoop_slot _ _ _ _ _ hfire, updateBullet_moved _ _ _ rfl hlive]
  simp only [newBullet] at hno ⊢
  rw [hno]
  rfl

/-! ## C16: the order of the phases -/

theorem collideEnemies_positions (pos : Vector2) (es : List Enemy) :
    (collideEnemies pos es).2.map (fun a => a.position) = es.map (fun a => a.position) := by
  induction es with
  | nil => rfl
  | cons e rest ih =>
    by_cases hv : e.isValid = true
    · by_cases hc : CheckCollisionCircles e.position ENEMY_RADIUS pos BULLET_RADIUS = true
      · simp [collideEnemies, hv, hc, damageEnemy]
      · simp [collideEnemies, hv, hc, ih]
    · simp [collideEnemies, hv, ih]

theorem updateBullet_positions (dt : Flt) (b : Bullet) (es : List Enemy) :
    (updateBullet dt b es).2.map (fun a => a.position) = es.map (fun a => a.position) := by
  by_cases hv : b.isValid = true
  · by_cases ht : Flt.le (b.timeLeft - dt) 0 = true
    · rw [updateBullet_expired dt b es hv ht]
    · rw [updateBullet_moved dt b es hv (by simpa using ht)]
      exact collideEnemies_positions _ es
  · rw [updateBullet_invalid dt b es (by simpa using hv)]

/-- The bullet loop moves no enemy. -/
theorem bulletLoop_positions (dt : Flt) :
    ∀ (bs : List Bullet) (es : List Enemy),
      (bulletLoop dt bs es).2.map (fun a => a.position) = es.map (fun a => a.position) := by
  intro bs
  induction bs with
  | nil => intro es; rfl
  | cons b rest ih =>
    intro es
    simp only [bulletLoop]
    rw [ih, updateBullet_positions]

/-- C16 (phase ordering within a pass).  (1) A pass is the input phase, then the bullet
tick, then the enemy tick, then the state transitions.  (2) The enemies that the bullet
loop holds when it reaches any slot `k`, and those it leaves, stand where they stood
after the input phase: bullets are tested against positions from before the enemy
movement of the pass.  (3) `touchedPlayer` is raised exactly by an enemy that is valid
after the bullet tick and touches the player from its position after its move.  (4) An
enemy that was valid and is invalid after the bullet tick is at the end of the pass as
the bullet tick left it, at the position it had before the pass: it has not moved. -/
theorem C16_phase_ordering (E : Extern) (w : World) (p : Poll) (k j : Nat) (e e' : Enemy) :
    frame E w p =
        stateTransitions
          (enemyUpdate E (bulletUpdate E (loopInput E w p) p) p.deltaTime) ∧
      (bulletLoop p.deltaTime ((fire E (loopInput E w p) p).bullets.take k)
          (loopInput E w p).enemies).2.map (fun a => a.position) =
        (loopInput E w p).enemies.map (fun a => a.position) ∧
      (bulletUpdate E (loopInput E w p) p).enemies.map (fun a => a.position) =
        (loopInput E w p).enemies.map (fun a => a.position) ∧
      (enemyUpdate E (bulletUpdate E (loopInput E w p) p) p.deltaTime).touchedPlayer =
        (bulletUpdate E (loopInput E w p) p).enemies.any (fun a => a.isValid &&
          CheckCollisionCircles
            (moveEnemy E p.deltaTime (loopInput E w p).player.position a).position
            ENEMY_RADIUS (loopInput E w p).player.position PLAYER_RADIUS) ∧
      ((loopInput E w p).enemies[j]? = some e → e.isValid = true →
        (bulletUpdate E (loopInput E w p) p).enemies[j]? = some e' → e'.isValid = false →
        (frame E w p).enemies[j]? = some e' ∧ e'.position = e.position) := by
  refine ⟨rfl, bulletLoop_positions _ _ _, ?_, ?_, ?_⟩
  · rw [bulletUpdate_enemies]; exact bulletLoop_positions _ _ _
  · rw [enemyUpdate_touchedPlayer, bulletUpdate_player]
  · intro hj _ hj' hinv
    constructor
    · rw [frame_enemies, List.getElem?_map, hj']
      simp [hinv]
    · rw [bulletUpdate_enemies] at hj'
      obtain ⟨e0, he0, hr⟩ := bulletLoop_enemies_origin _ _ _ j e' hj'
      rw [hj] at he0
      cases he0
      exact hr.position

/-! ## C18: the health of the enemies -/

theorem damageEnemy_ok (e : Enemy) (hv : e.isValid = true) (h : EnemyOk e) :
    EnemyOk (damageEnemy e) := by
  obtain ⟨⟨m, hm⟩, h0, h1, hiff⟩ := h
  have hpos : 0 < e.health := hiff.mp hv
  simp only [BULLET_DAMAGE, ENEMY_INIT_HEALTH] at hm h1
  have hm1 : 1 ≤ m := by omega
  refine ⟨⟨m - 1, ?_⟩, ?_, ?_, ?_⟩
  · simp only [damageEnemy, BULLET_DAMAGE]; omega
  · simp only [damageEnemy, BULLET_DAMAGE]; omega
  · simp only [damageEnemy, BULLET_DAMAGE, ENEMY_INIT_HEALTH]; omega
  · by_cases hle : e.health - BULLET_DAMAGE ≤ 0
    · simp only [damageEnemy, if_pos hle]
      constructor
      · intro hf; exact Bool.noConfusion hf
      · intro hf; omega
    · simp only [damageEnemy, if_neg hle, hv]
      constructor
      · intro _; omega
      · intro _; trivial

/-- A property of enemies that a hit on a valid enemy keeps is kept by the collision
loop of a bullet. -/
theorem collideEnemies_forall (P : Enemy → Prop)
    (hP : ∀ e : Enemy, e.isValid = true → P e → P (damageEnemy e)) (pos : Vector2) :
    ∀ es : List Enemy, (∀ e ∈ es, P e) → ∀ e ∈ (collideEnemies pos es).2, P e := by
  intro es
  induction es with
  | nil => intro _ e he; simp [collideEnemies] at he
  | cons a rest ih =>
    intro hall e he
    have ha : P a := hall a (List.mem_cons_self _ _)
    have hrest : ∀ x ∈ rest, P x := fun x hx => hall x (List.mem_cons_of_mem _ hx)
    by_cases hav : a.isValid = true
    · by_cases hac : CheckCollisionCircles a.position ENEMY_RADIUS pos BULLET_RADIUS = true
      · simp only [collideEnemies, hav, hac, Bool.not_true, Bool.false_eq_true, if_false,
          if_true, List.mem_cons] at he
        rcases he with he | he
        · rw [he]; exact hP a hav ha
        · exact hrest e he
      · simp only [collideEnemies, hav, hac, Bool.not_true, Bool.false_eq_true, if_false,
          List.mem_cons] at he
        rcases he with he | he
        · rw [he]; exact ha
        · exact ih hrest e he
    · have hav' : a.isValid = false := by simpa using hav
      simp only [collideEnemies, hav', Bool.not_false, if_true, List.mem_cons] at he
      rcases he with he | he
      · rw [he]; exact ha
      · exact ih hrest e he

theorem updateBullet_forall (P : Enemy → Prop)
    (hP : ∀ e : Enemy, e.isValid = true → P e → P (damageEnemy e)) (dt : Flt) (b : Bullet)
    (es : List Enemy) (hall : ∀ e ∈ es, P e) : ∀ e ∈ (updateBullet dt b es).2, P e := by
  by_cases hv : b.isValid = true
  · by_cases ht : Flt.le (b.timeLeft - dt) 0 = true
    · rw [updateBullet_expired dt b es hv ht]; exact hall
    · rw [updateBullet_moved dt b es hv (by simpa using ht)]
      exact collideEnemies_forall P hP _ es hall
  · rw [updateBullet_invalid dt b es (by simpa using hv)]; exact hall

theorem bulletLoop_forall (P : Enemy → Prop)
    (hP : ∀ e : Enemy, e.isValid = true → P e → P (damageEnemy e)) (dt : Flt) :
    ∀ (bs : List Bullet) (es : List Enemy), (∀ e ∈ es, P e) →
      ∀ e ∈ (bulletLoop dt bs es).2, P e := by
  intro bs
  induction bs with
  | nil => intro es hall; exact hall
  | cons b rest ih =>
    intro es hall
    exact ih _ (updateBullet_forall P hP dt b es hall)

theorem InitGame_enemies_ok (E : Extern) : ∀ e ∈ (InitGame E).enemies, EnemyOk e := by
  intro e he
  simp [InitGame, NUM_ENEMIES, List.range, List.range.loop, spawnEnemy, zeroWorld] at he
  rcases he with he | he | he <;> subst he <;>
    exact ⟨⟨10, by simp [ENEMY_INIT_HEALTH, BULLET_DAMAGE]⟩, by simp [ENEMY_INIT_HEALTH],
      le_refl _, by simp [ENEMY_INIT_HEALTH]⟩

theorem loopInput_enemies_ok (E : Extern) (w : World) (p : Poll)
    (h : ∀ e ∈ w.enemies, EnemyOk e) : ∀ e ∈ (loopInput E w p).enemies, EnemyOk e := by
  unfold loopInput
  split_ifs
  · exact InitGame_enemies_ok E
  · exact h
  · exact h

theorem frame_enemies_ok (E : Extern) (w : World) (p : Poll)
    (h : ∀ e ∈ w.enemies, EnemyOk e) : ∀ e ∈ (frame E w p).enemies, EnemyOk e := by
  intro e he
  rw [frame_enemies, bulletUpdate_enemies] at he
  obtain ⟨a, ha, rfl⟩ := List.mem_map.mp he
  have hok : EnemyOk a :=
    bulletLoop_forall EnemyOk damageEnemy_ok _ _ _ (loopInput_enemies_ok E w p h) a ha
  split_ifs
  · exact hok
  · exact hok

theorem reachable_enemies_ok (E : Extern) (w : World) (h : Reachable E w) :
    ∀ e ∈ w.enemies, EnemyOk e := by
  induction h with
  | init => exact InitGame_enemies_ok E
  | pass w p _ ih => exact frame_enemies_ok E w p ih
  | shot w pos dir _ ih => exact ih
  | reset w _ _ => exact InitGame_enemies_ok E

/-- C18 (enemy health): in every world reachable from `InitGame`, the health of every
enemy is a multiple of `BULLET_DAMAGE` between 0 and `ENEMY_INIT_HEALTH`, and the enemy
is valid if and only if its health is positive.  Hence health never goes negative; and a
fresh enemy is still valid after `k < 10` hits and invalid, with health 0, after ten. -/
theorem C18_enemy_health_invariant (E : Extern) (w : World) (h : Reachable E w) :
    (∀ e ∈ w.enemies, BULLET_DAMAGE ∣ e.health ∧ 0 ≤ e.health ∧
        e.health ≤ ENEMY_INIT_HEALTH ∧ (e.isValid = true ↔ 0 < e.health)) ∧
      (∀ (position : Vector2) (k : Nat), k ≤ 10 →
        damageEnemy^[k] ⟨position, true, ENEMY_INIT_HEALTH⟩ =
          ⟨position, decide (k < 10), ENEMY_INIT_HEALTH - k * BULLET_DAMAGE⟩) := by
  refine ⟨reachable_enemies_ok E w h, ?_⟩
  intro position k hk
  interval_cases k <;> simp [damageEnemy, ENEMY_INIT_HEALTH, BULLET_DAMAGE]

/-! ## C19: the flags and what they stand for -/

theorem InitGame_player (E : Extern) : (InitGame E).player = ⟨⟨0, 0⟩, true⟩ := by
  simp [InitGame, NUM_ENEMIES, List.range, List.range.loop, spawnEnemy, zeroWorld]

theorem InitGame_deadMeansInvalid (E : Extern) : DeadMeansInvalid (InitGame E) := by
  unfold DeadMeansInvalid
  rw [InitGame_isPlayerDead, InitGame_player]
  simp

theorem loopInput_deadMeansInvalid (E : Extern) (w : World) (p : Poll)
    (h : DeadMeansInvalid w) : DeadMeansInvalid (loopInput E w p) := by
  unfold loopInput
  split_ifs
  · exact InitGame_deadMeansInvalid E
  · exact h
  · exact h

theorem frame_player_isValid (E : Extern) (w : World) (p : Poll) :
    (frame E w p).player.isValid =
      ((loopInput E w p).player.isValid &&
        !(enemyUpdate E (bulletUpdate E (loopInput E w p) p) p.deltaTime).touchedPlayer) := by
  simp only [frame, stateTransitions_player_isValid, enemyUpdate_player_isValid,
    bulletUpdate_player, deathTransitionTaken]
  cases (loopInput E w p).player.isValid <;>
    cases (enemyUpdate E (bulletUpdate E (loopInput E w p) p) p.deltaTime).touchedPlayer <;>
    simp

theorem frame_deadMeansInvalid (E : Extern) (w : World) (p : Poll)
    (h : DeadMeansInvalid w) : DeadMeansInvalid (frame E w p) := by
  have h1 := loopInput_deadMeansInvalid E w p h
  unfold DeadMeansInvalid at h1 ⊢
  rw [frame_isPlayerDead, frame_player_isValid]
  cases hd : (loopInput E w p).isPlayerDead <;>
    cases hv : (loopInput E w p).player.isValid <;>
    cases (enemyUpdate E (bulletUpdate E (loopInput E w p) p) p.deltaTime).touchedPlayer <;>
    simp_all

theorem run_deadMeansInvalid (E : Extern) (polls : List Poll) :
    ∀ w, DeadMeansInvalid w → DeadMeansInvalid (run E w polls) := by
  induction polls with
  | nil => intro w h; exact h
  | cons p rest ih => intro w h; exact ih _ (frame_deadMeansInvalid E w p h)

/-- C19 (flag consistency): at the end of every pass of every run from `InitGame`,
`isPlayerDead` is true if and only if `player.isValid` is false, and if `isGameWon` is
true then no enemy is valid. -/
theorem C19_flag_consistency (E : Extern) (polls : List Poll) :
    ((run E (InitGame E) polls).isPlayerDead = true ↔
        (run E (InitGame E) polls).player.isValid = false) ∧
      ((run E (InitGame E) polls).isGameWon = true →
        ∀ e ∈ (run E (InitGame E) polls).enemies, e.isValid = false) :=
  ⟨run_deadMeansInvalid E polls _ (InitGame_deadMeansInvalid E),
    run_wonMeansNoEnemy E polls _ (InitGame_wonMeansNoEnemy E)⟩

/-! ## C11: the example scenario -/

theorem Flt.fin_add_fin (a b : ℚ) : Flt.fin a + Flt.fin b = Flt.fin (a + b) := rfl

theorem Flt.fin_mul_fin (a b : ℚ) : Flt.fin a * Flt.fin b = Flt.fin (a * b) := rfl

theorem Flt.fin_div_fin (a b : ℚ) (hb : b ≠ 0) : Flt.fin a / Flt.fin b = Flt.fin (a / b) := by
  show Flt.div (Flt.fin a) (Flt.fin b) = Flt.fin (a / b)
  simp [Flt.div, hb]

theorem Flt.le_fin_fin (a b : ℚ) : Flt.le (Flt.fin a) (Flt.fin b) = decide (a ≤ b) := rfl

theorem Flt.zero_eq : (0 : Flt) = Flt.fin 0 := by
  show Flt.fin ((0 : Nat) : ℚ) = Flt.fin 0
  simp

theorem Flt.one_eq : (1 : Flt) = Flt.fin 1 := by
  show Flt.fin ((1 : Nat) : ℚ) = Flt.fin 1
  simp

theorem ENEMY_SPEED_eq : ENEMY_SPEED = Flt.fin 50 := by
  show Flt.fin ((50 : Nat) : ℚ) = Flt.fin 50
  simp

theorem ENEMY_RADIUS_eq : ENEMY_RADIUS = Flt.fin 30 := by
  show Flt.fin ((30 : Nat) : ℚ) = Flt.fin 30
  simp

theorem PLAYER_RADIUS_eq : PLAYER_RADIUS = Flt.fin 16 := by
  show Flt.fin ((16 : Nat) : ℚ) = Flt.fin 16
  simp

/-- An enemy on the x axis at distance `x` from a player at (0,0) walks 50 towards the
player in one second, when the square root of `x * x` is `x`. -/
theorem moveEnemy_on_axis (E : Extern) (x : ℚ) (v : Bool) (h : Int) (hx : x ≠ 0)
    (hsqrt : E.sqrtf (Flt.fin (x * x)) = Flt.fin x) :
    moveEnemy E 1 ⟨0, 0⟩ ⟨⟨Flt.fin x, 0⟩, v, h⟩ = ⟨⟨Flt.fin (x - 50), 0⟩, v, h⟩ := by
  have hlen : Vector2Length E (Vector2Subtract ⟨0, 0⟩ ⟨Flt.fin x, 0⟩) = Flt.fin x := by
    simp only [Vector2Length, Vector2Subtract, Flt.zero_eq, Flt.fin_sub_fin, Flt.fin_mul_fin,
      Flt.fin_add_fin]
    rw [← hsqrt]
    congr 2
    ring
  simp only [moveEnemy, hlen]
  simp only [Vector2Subtract, Vector2Scale, Vector2Add, Flt.zero_eq, Flt.one_eq,
    ENEMY_SPEED_eq, Flt.fin_sub_fin, Flt.fin_mul_fin, Flt.fin_add_fin,
    Flt.fin_div_fin _ _ hx]
  congr 3
  · field_simp
    ring
  · ring

/-- The contact test between the player at (0,0) and an enemy on the x axis. -/
theorem contact_on_axis (y : ℚ) :
    CheckCollisionCircles ⟨Flt.fin y, 0⟩ ENEMY_RADIUS ⟨0, 0⟩ PLAYER_RADIUS =
      decide (y * y ≤ 46 * 46) := by
  simp only [CheckCollisionCircles, Flt.zero_eq, ENEMY_RADIUS_eq, PLAYER_RADIUS_eq,
    Flt.fin_sub_fin, Flt.fin_mul_fin, Flt.fin_add_fin, Flt.le_fin_fin]
  congr 1
  apply propext
  constructor <;> intro h <;> nlinarith

theorem movePlayer_quiet (w : World) (p : Poll) (hr : p.keyRight = false)
    (hl : p.keyLeft = false) (hu : p.keyUp = false) (hd : p.keyDown = false) :
    movePlayer w p = w := by
  simp [movePlayer, hr, hl, hu, hd]

theorem bulletLoop_all_invalid (dt : Flt) :
    ∀ (bs : List Bullet) (es : List Enemy), (∀ b ∈ bs, b.isValid = false) →
      bulletLoop dt bs es = (bs, es) := by
  intro bs
  induction bs with
  | nil => intro es _; rfl
  | cons b rest ih =>
    intro es hall
    simp only [bulletLoop]
    rw [updateBullet_invalid dt b es (hall b (List.mem_cons_self _ _)),
      ih es (fun x hx => hall x (List.mem_cons_of_mem _ hx))]

/-- With no click and no bullet in flight, `BULLET UPDATE` changes nothing. -/
theorem bulletUpdate_idle (E : Extern) (w : World) (p : Poll) (hclick : p.mousePressed = false)
    (hall : ∀ b ∈ w.bullets, b.isValid = false) : bulletUpdate E w p = w := by
  have hfire : fire E w p = w := by simp [fire, hclick]
  simp only [bulletUpdate, hfire, bulletLoop_all_invalid p.deltaTime w.bullets w.enemies hall]

/-- One quiet second of the example scenario: the enemy walks from `x` to `x - 50`, and
the player is dead at the end exactly when the enemy is then within 46 of it. -/
theorem solo_step (E : Extern) (w : World) (p : Poll) (j : Nat) (x : ℚ) (h : Int)
    (hs : SoloShape w j x h) (hp : QuietSecond p) (hx : x ≠ 0)
    (hsqrt : E.sqrtf (Flt.fin (x * x)) = Flt.fin x) :
    (frame E w p).player.position = ⟨0, 0⟩ ∧ (frame E w p).isGameWon = false ∧
      (∀ b ∈ (frame E w p).bullets, b.isValid = false) ∧
      (frame E w p).enemies[j]? = some ⟨⟨Flt.fin (x - 50), 0⟩, true, h⟩ ∧
      (∀ (i : Nat) (a : Enemy), i ≠ j → (frame E w p).enemies[i]? = some a →
        a.isValid = false) ∧
      (frame E w p).isPlayerDead = decide ((x - 50) * (x - 50) ≤ 46 * 46) := by
  obtain ⟨hpos, hdead, hwon, hbul, hj, hothers⟩ := hs
  obtain ⟨hdt, hclick, hr, hl, hu, hd⟩ := hp
  have h1 : loopInput E w p = w := by
    rw [loopInput_playing E w p hdead hwon, movePlayer_quiet w p hr hl hu hd]
  have h2 : bulletUpdate E w p = w := bulletUpdate_idle E w p hclick hbul
  have hmem : (⟨⟨Flt.fin x, 0⟩, true, h⟩ : Enemy) ∈ w.enemies :=
    List.mem_iff_getElem?.mpr ⟨j, hj⟩
  refine ⟨?_, ?_, ?_, ?_, ?_, ?_⟩
  · rw [frame_player_position, h1, hpos]
  · rw [frame_isGameWon, h1, h2, hwon]
    have hc : 0 < w.enemies.countP (fun e => e.isValid) :=
      List.countP_pos_iff.mpr ⟨_, hmem, rfl⟩
    simp only [Bool.false_or, beq_eq_false_iff_ne, ne_eq]
    omega
  · rw [frame_bullets, h1, h2]; exact hbul
  · rw [frame_enemies, h1, h2, List.getElem?_map, hj, hdt, hpos]
    simp only [Option.map_some', if_true]
    rw [moveEnemy_on_axis E x true h hx hsqrt]
  · intro i a hi ha
    rw [frame_enemies, h1, h2, List.getElem?_map] at ha
    cases h0 : w.enemies[i]? with
    | none => rw [h0] at ha; exact Option.noConfusion ha
    | some a0 =>
      rw [h0] at ha
      have hinv : a0.isValid = false := hothers i a0 hi h0
      simp only [Option.map_some', hinv, Bool.false_eq_true, if_false, Option.some.injEq] at ha
      rw [← ha]; exact hinv
  · rw [frame_isPlayerDead, h1, h2, hdead, Bool.false_or, enemyUpdate_touchedPlayer, hdt, hpos,
      ← contact_on_axis (x - 50)]
    apply Bool.eq_iff_iff.mpr
    constructor
    · intro hany
      obtain ⟨a, ha, hav⟩ := List.any_eq_true.mp hany
      simp only [Bool.and_eq_true] at hav
      obtain ⟨i, hi⟩ := List.mem_iff_getElem?.mp ha
      have hij : i = j := by
        by_contra hne
        have := hothers i a hne hi
        rw [this] at hav
        exact Bool.noConfusion hav.1
      rw [hij, hj] at hi
      cases hi
      rw [moveEnemy_on_axis E x true h hx hsqrt] at hav
      exact hav.2
    · intro hc
      apply List.any_eq_true.mpr
      refine ⟨_, hmem, ?_⟩
      simp only [Bool.true_and]
      rw [moveEnemy_on_axis E x true h hx hsqrt]
      exact hc

/-- The example scenario as long as the enemy is more than one step away: starting
`50 * n` from the player, after fewer than `n` quiet seconds the enemy has walked 50 for
each of them and the player is alive. -/
theorem solo_run (E : Extern) (j : Nat) (h : Int)
    (hsqrt : ∀ d ∈ ([300, 250, 200, 150, 100, 50] : List ℚ),
      E.sqrtf (Flt.fin (d * d)) = Flt.fin d) :
    ∀ (polls : List Poll) (w : World) (n : Nat), 1 ≤ n → n ≤ 6 →
      SoloShape w j (50 * (n : ℚ)) h → (∀ p ∈ polls, QuietSecond p) → polls.length < n →
      SoloShape (run E w polls) j (50 * ((n - polls.length : Nat) : ℚ)) h := by
  intro polls
  induction polls with
  | nil => intro w n _ _ hs _ _; simpa [run] using hs
  | cons p rest ih =>
    intro w n hn1 hn6 hs hq hlen
    simp only [List.length_cons] at hlen
    have hn2 : 2 ≤ n := by omega
    have hx : (50 * (n : ℚ)) ≠ 0 := by
      have : (0 : ℚ) < n := by exact_mod_cast (by omega : 0 < n)
      positivity
    have hmemd : (50 * (n : ℚ)) ∈ ([300, 250, 200, 150, 100, 50] : List ℚ) := by
      interval_cases n <;> norm_num
    have hstep := solo_step E w p j (50 * (n : ℚ)) h hs (hq p (List.mem_cons_self _ _)) hx
      (hsqrt _ hmemd)
    obtain ⟨s1, s2, s3, s4, s5, s6⟩ := hstep
    have hcast : (50 * (n : ℚ)) - 50 = 50 * ((n - 1 : Nat) : ℚ) := by
      rw [Nat.cast_sub (by omega : 1 ≤ n)]; push_cast; ring
    have hdead : (frame E w p).isPlayerDead = false := by
      rw [s6, hcast]
      simp only [decide_eq_false_iff_not, not_le]
      have : (1 : ℚ) ≤ ((n - 1 : Nat) : ℚ) := by exact_mod_cast (by omega : 1 ≤ n - 1)
      nlinarith
    have hs' : SoloShape (frame E w p) j (50 * ((n - 1 : Nat) : ℚ)) h := by
      refine ⟨s1, hdead, s2, s3, ?_, s5⟩
      rw [s4, hcast]
    have := ih (frame E w p) (n - 1) (by omega) (by omega) hs'
      (fun q hq' => hq q (List.mem_cons_of_mem _ hq')) (by omega)
    have hidx : n - 1 - rest.length = n - (rest.length + 1) := by omega
    simpa [run, hidx] using this

/-- C11 (example scenario): the player at (0,0), one live enemy at (300,0), no bullet in
flight, and `k` passes of one second with no movement key and no click, `1 ≤ k ≤ 6`; the
square root being exact on the squares of the distances 300, 250, ..., 50.  After the
`k` passes the enemy is at (300 - 50 k, 0); it is within
`ENEMY_RADIUS + PLAYER_RADIUS` = 46 of the player, and `isPlayerDead` is true, exactly
when `k = 6`. -/
theorem C11_example_scenario (E : Extern) (w : World) (j : Nat) (h : Int) (polls : List Poll)
    (k : Nat) (hk1 : 1 ≤ k) (hk6 : k ≤ 6) (hlen : polls.length = k)
    (hsqrt : ∀ d ∈ ([300, 250, 200, 150, 100, 50] : List ℚ),
      E.sqrtf (Flt.fin (d * d)) = Flt.fin d)
    (hs : SoloShape w j 300 h) (hq : ∀ p ∈ polls, QuietSecond p) :
    (run E w polls).enemies[j]? = some ⟨⟨Flt.fin (300 - 50 * (k : ℚ)), 0⟩, true, h⟩ ∧
      CheckCollisionCircles ⟨Flt.fin (300 - 50 * (k : ℚ)), 0⟩ ENEMY_RADIUS
        (run E w polls).player.position PLAYER_RADIUS = decide (k = 6) ∧
      (run E w polls).isPlayerDead = decide (k = 6) := by
  have hne : polls ≠ [] := by
    intro hnil; rw [hnil] at hlen; simp at hlen; omega
  obtain ⟨init, last, rfl⟩ : ∃ init last, polls = init ++ [last] :=
    ⟨polls.dropLast, polls.getLast hne, (List.dropLast_append_getLast hne).symm⟩
  simp only [List.length_append, List.length_singleton] at hlen
  have hs6 : SoloShape w j (50 * ((6 : Nat) : ℚ)) h := by
    have : (50 * ((6 : Nat) : ℚ)) = 300 := by norm_num
    rw [this]; exact hs
  have hinit := solo_run E j h hsqrt init w 6 (by omega) (by omega) hs6
    (fun p hp => hq p (List.mem_append_left _ hp)) (by omega)
  have hlast : QuietSecond last := hq last (List.mem_append_right _ (List.mem_singleton_self _))
  have hrun : run E w (init ++ [last]) = frame E (run E w init) last := by
    simp [run, List.foldl_append]
  have hn : 1 ≤ 6 - init.length := by omega
  have hx : (50 * ((6 - init.length : Nat) : ℚ)) ≠ 0 := by
    have : (0 : ℚ) < ((6 - init.length : Nat) : ℚ) := by
      exact_mod_cast (by omega : 0 < 6 - init.length)
    positivity
  have hmemd : (50 * ((6 - init.length : Nat) : ℚ)) ∈
      ([300, 250, 200, 150, 100, 50] : List ℚ) := by
    have h5 : init.length ≤ 5 := by omega
    interval_cases init.length <;> norm_num
  obtain ⟨s1, _, _, s4, _, s6⟩ := solo_step E (run E w init) last j _ h hinit hlast hx
    (hsqrt _ hmemd)
  have hpos : (50 * ((6 - init.length : Nat) : ℚ)) - 50 = 300 - 50 * (k : ℚ) := by
    rw [← hlen, Nat.cast_sub (by omega : init.length ≤ 6)]; push_cast; ring
  have hdec : decide ((300 - 50 * (k : ℚ)) * (300 - 50 * (k : ℚ)) ≤ 46 * 46) =
      decide (k = 6) := by
    interval_cases k <;> norm_num
  rw [hrun]
  refine ⟨?_, ?_, ?_⟩
  · rw [s4, hpos]
  · rw [s1, contact_on_axis, hdec]
  · rw [s6, hpos, hdec]

/-! ## C12: the speed of an enemy -/

/-- The enemy tick on the slot of a valid enemy. -/
theorem enemyUpdate_valid_slot (E : Extern) (w : World) (dt : Flt) (j : Nat) (e : Enemy)
    (hj : w.enemies[j]? = some e) (hv : e.isValid = true) :
    (enemyUpdate E w dt).world.enemies[j]? = some (moveEnemy E dt w.player.position e) := by
  rw [enemyUpdate_enemies, List.getElem?_map, hj]
  simp [hv]

/-- The enemies after the enemy loop with rounding: the live ones are moved. -/
theorem enemyLoopRounded_enemies (rnd : Flt → Flt) (E : Extern) (dt : Flt) (pp : Vector2) :
    ∀ (es : List Enemy) (n : Nat) (t : Bool),
      (enemyLoopRounded rnd E dt pp es n t).1 =
        es.map (fun e => if e.isValid then moveEnemyRounded rnd E dt pp e else e) := by
  intro es
  induction es with
  | nil => intro n t; simp [enemyLoopRounded]
  | cons e rest ih =>
    intro n t
    by_cases hv : e.isValid = true
    · simp [enemyLoopRounded, hv, ih]
    · simp [enemyLoopRounded, hv, ih]

/-- The enemy tick with rounding on the slot of a valid enemy. -/
theorem enemyUpdateRounded_valid_slot (rnd : Flt → Flt) (E : Extern) (w : World) (dt : Flt)
    (j : Nat) (e : Enemy) (hj : w.enemies[j]? = some e) (hv : e.isValid = true) :
    (enemyUpdateRounded rnd E w dt).world.enemies[j]? =
      some (moveEnemyRounded rnd E dt w.player.position e) := by
  have henemies : (enemyUpdateRounded rnd E w dt).world.enemies =
      w.enemies.map (fun e => if e.isValid then moveEnemyRounded rnd E dt w.player.position e
        else e) := by
    unfold enemyUpdateRounded
    simp only [enemyLoopRounded_enemies]
    split_ifs <;> rfl
  rw [henemies, List.getElem?_map, hj]
  simp [hv]

/-- Without rounding the enemy tick with rounding is `enemyUpdate`, slot by slot. -/
theorem enemyUpdateRounded_id (E : Extern) (w : World) (dt : Flt) (j : Nat) (e : Enemy)
    (hj : w.enemies[j]? = some e) (hv : e.isValid = true) :
    (enemyUpdateRounded id E w dt).world.enemies[j]? = (enemyUpdate E w dt).world.enemies[j]? := by
  rw [enemyUpdateRounded_valid_slot id E w dt j e hj hv, enemyUpdate_valid_slot E w dt j e hj hv,
    moveEnemyRounded_id]

/-- A result within the relative error `u` of a non-negative number lies between
`(1 - u)` and `(1 + u)` times that number. -/
theorem within_of_nonneg (u q r : ℚ) (hq : 0 ≤ q) (h : |r - q| ≤ u * |q|) :
    (1 - u) * q ≤ r ∧ r ≤ (1 + u) * q := by
  rw [abs_of_nonneg hq, abs_le] at h
  constructor <;> linarith [h.1, h.2]

/-- The square of a result within the relative error `u ≤ 1` lies between `(1 - u) ^ 2`
and `(1 + u) ^ 2` times the exact square. -/
theorem within_sq (u q r : ℚ) (hu1 : u ≤ 1) (h : |r - q| ≤ u * |q|) :
    (1 - u) ^ 2 * (q * q) ≤ r * r ∧ r * r ≤ (1 + u) ^ 2 * (q * q) := by
  have hq : q * q = |q| * |q| := (abs_mul_abs_self q).symm
  have hr : r * r = |r| * |r| := (abs_mul_abs_self r).symm
  have h1 : |r| ≤ (1 + u) * |q| := by
    have := abs_sub_abs_le_abs_sub r q
    linarith
  have h2 : (1 - u) * |q| ≤ |r| := by
    have := abs_sub_abs_le_abs_sub q r
    rw [abs_sub_comm q r] at this
    linarith
  have hq0 : 0 ≤ |q| := abs_nonneg q
  have hr0 : 0 ≤ |r| := abs_nonneg r
  have h3 : 0 ≤ (1 - u) * |q| := mul_nonneg (by linarith) hq0
  rw [hq, hr]
  constructor
  · have := mul_le_mul h2 h2 h3 hr0
    calc (1 - u) ^ 2 * (|q| * |q|) = (1 - u) * |q| * ((1 - u) * |q|) := by ring
      _ ≤ |r| * |r| := this
  · have := mul_le_mul h1 h1 hr0 (le_trans hr0 h1)
    calc |r| * |r| ≤ (1 + u) * |q| * ((1 + u) * |q|) := this
      _ = (1 + u) ^ 2 * (|q| * |q|) := by ring

/-- A result within the relative error `u ≤ 1` has the sign of the exact result. -/
theorem within_sign (u q r : ℚ) (hu1 : u ≤ 1) (h : |r - q| ≤ u * |q|) : 0 ≤ q * r := by
  have hq0 : 0 ≤ |q| := abs_nonneg q
  have h1 : |r - q| ≤ |q| := le_trans h (by nlinarith)
  have h2 : |q * (r - q)| ≤ |q| * |q| := by
    rw [abs_mul]
    exact mul_le_mul_of_nonneg_left h1 hq0
  rw [abs_mul_abs_self] at h2
  have h3 := neg_le_of_abs_le h2
  nlinarith

/-- In single precision an operation whose exact result is in the normal range, from
`1 / 2 ^ 126` up to below `2 ^ 125`, gives its result within the relative error
`1 / 2 ^ 24`. -/
theorem roundsTo_single (q : ℚ) (hlo : 1 / 2 ^ 126 ≤ |q|) (hhi : |q| < 2 ^ 125) :
    ∃ r, RoundsTo Flt.single (1 / 2 ^ 24) q r :=
  roundSingle_relative q hlo hhi

/-- The error of the enemy step: with every operation of lines 230-231 within the
relative error `u`, the square of the length of the displacement `(X, Y)` is within the
factors `(1 - u) ^ 6 / (1 + u) ^ 4` and `(1 + u) ^ 6 / (1 - u) ^ 4` of the square of
`V`, the exact product of the speed and the frame time. -/
theorem step_length_bounds (u A B a b s L V f l X Y : ℚ) (hu : 0 ≤ u) (hu1 : u < 1)
    (hl : 0 < l) (hL : L = l * l)
    (ha : (1 - u) * A ≤ a ∧ a ≤ (1 + u) * A) (hb : (1 - u) * B ≤ b ∧ b ≤ (1 + u) * B)
    (hs : (1 - u) * (a + b) ≤ s ∧ s ≤ (1 + u) * (a + b))
    (hroot : (1 - u) ^ 2 * s ≤ L ∧ L ≤ (1 + u) ^ 2 * s)
    (hfl : (1 - u) ^ 4 * (V * V) ≤ (f * l) * (f * l) ∧
      (f * l) * (f * l) ≤ (1 + u) ^ 4 * (V * V))
    (hX : (1 - u) ^ 2 * (A * (f * f)) ≤ X * X ∧ X * X ≤ (1 + u) ^ 2 * (A * (f * f)))
    (hY : (1 - u) ^ 2 * (B * (f * f)) ≤ Y * Y ∧ Y * Y ≤ (1 + u) ^ 2 * (B * (f * f))) :
    (1 - u) ^ 6 * (V * V) ≤ (1 + u) ^ 4 * (X * X + Y * Y) ∧
      (1 - u) ^ 4 * (X * X + Y * Y) ≤ (1 + u) ^ 6 * (V * V) := by
  have h1 : 0 ≤ 1 - u := by linarith
  have h2 : 0 ≤ 1 + u := by linarith
  have hab : (1 - u) * (A + B) ≤ a + b ∧ a + b ≤ (1 + u) * (A + B) := by
    constructor <;> nlinarith [ha.1, ha.2, hb.1, hb.2]
  have hs1 : (1 - u) ^ 2 * (A + B) ≤ s := by
    have := mul_le_mul_of_nonneg_left hab.1 h1
    calc (1 - u) ^ 2 * (A + B) = (1 - u) * ((1 - u) * (A + B)) := by ring
      _ ≤ (1 - u) * (a + b) := this
      _ ≤ s := hs.1
  have hs2 : s ≤ (1 + u) ^ 2 * (A + B) := by
    have := mul_le_mul_of_nonneg_left hab.2 h2
    calc s ≤ (1 + u) * (a + b) := hs.2
      _ ≤ (1 + u) * ((1 + u) * (A + B)) := this
      _ = (1 + u) ^ 2 * (A + B) := by ring
  have hL1 : (1 - u) ^ 4 * (A + B) ≤ L := by
    have := mul_le_mul_of_nonneg_left hs1 (pow_nonneg h1 2)
    calc (1 - u) ^ 4 * (A + B) = (1 - u) ^ 2 * ((1 - u) ^ 2 * (A + B)) := by ring
      _ ≤ (1 - u) ^ 2 * s := this
      _ ≤ L := hroot.1
  have hL2 : L ≤ (1 + u) ^ 4 * (A + B) := by
    have := mul_le_mul_of_nonneg_left hs2 (pow_nonneg h2 2)
    calc L ≤ (1 + u) ^ 2 * s := hroot.2
      _ ≤ (1 + u) ^ 2 * ((1 + u) ^ 2 * (A + B)) := this
      _ = (1 + u) ^ 4 * (A + B) := by ring
  have hLpos : 0 < L := by rw [hL]; exact mul_pos hl hl
  have hP : 0 < A + B := by
    by_contra hcon
    have hP0 : A + B ≤ 0 := not_lt.mp hcon
    have : (1 + u) ^ 4 * (A + B) ≤ 0 := mul_nonpos_of_nonneg_of_nonpos (pow_nonneg h2 4) hP0
    linarith
  have hT0 : 0 ≤ X * X + Y * Y := add_nonneg (mul_self_nonneg X) (mul_self_nonneg Y)
  have hT1 : (1 - u) ^ 2 * ((A + B) * (f * f)) ≤ X * X + Y * Y := by
    have := add_le_add hX.1 hY.1
    calc (1 - u) ^ 2 * ((A + B) * (f * f))
        = (1 - u) ^ 2 * (A * (f * f)) + (1 - u) ^ 2 * (B * (f * f)) := by ring
      _ ≤ X * X + Y * Y := this
  have hT2 : X * X + Y * Y ≤ (1 + u) ^ 2 * ((A + B) * (f * f)) := by
    have := add_le_add hX.2 hY.2
    calc X * X + Y * Y ≤ (1 + u) ^ 2 * (A * (f * f)) + (1 + u) ^ 2 * (B * (f * f)) := this
      _ = (1 + u) ^ 2 * ((A + B) * (f * f)) := by ring
  have hTL1 : (1 - u) ^ 6 * (V * V) * (A + B) ≤ (X * X + Y * Y) * L := by
    have e1 := mul_le_mul_of_nonneg_left hfl.1
      (mul_nonneg (pow_nonneg h1 2) (le_of_lt hP))
    have e2 := mul_le_mul_of_nonneg_right hT1 (le_of_lt hLpos)
    calc (1 - u) ^ 6 * (V * V) * (A + B)
        = (1 - u) ^ 2 * (A + B) * ((1 - u) ^ 4 * (V * V)) := by ring
      _ ≤ (1 - u) ^ 2 * (A + B) * ((f * l) * (f * l)) := e1
      _ = (1 - u) ^ 2 * ((A + B) * (f * f)) * L := by rw [hL]; ring
      _ ≤ (X * X + Y * Y) * L := e2
  have hTL2 : (X * X + Y * Y) * L ≤ (1 + u) ^ 6 * (V * V) * (A + B) := by
    have e1 := mul_le_mul_of_nonneg_left hfl.2
      (mul_nonneg (pow_nonneg h2 2) (le_of_lt hP))
    have e2 := mul_le_mul_of_nonneg_right hT2 (le_of_lt hLpos)
    calc (X * X + Y * Y) * L ≤ (1 + u) ^ 2 * ((A + B) * (f * f)) * L := e2
      _ = (1 + u) ^ 2 * (A + B) * ((f * l) * (f * l)) := by rw [hL]; ring
      _ ≤ (1 + u) ^ 2 * (A + B) * ((1 + u) ^ 4 * (V * V)) := e1
      _ = (1 + u) ^ 6 * (V * V) * (A + B) := by ring
  constructor
  · have e3 := mul_le_mul_of_nonneg_left hL2 hT0
    have : (1 - u) ^ 6 * (V * V) * (A + B) ≤ (1 + u) ^ 4 * (X * X + Y * Y) * (A + B) := by
      calc (1 - u) ^ 6 * (V * V) * (A + B) ≤ (X * X + Y * Y) * L := hTL1
        _ ≤ (X * X + Y * Y) * ((1 + u) ^ 4 * (A + B)) := e3
        _ = (1 + u) ^ 4 * (X * X + Y * Y) * (A + B) := by ring
    exact le_of_mul_le_mul_right this hP
  · have e3 := mul_le_mul_of_nonneg_left hL1 hT0
    have : (1 - u) ^ 4 * (X * X + Y * Y) * (A + B) ≤ (1 + u) ^ 6 * (V * V) * (A + B) := by
      calc (1 - u) ^ 4 * (X * X + Y * Y) * (A + B)
          = (X * X + Y * Y) * ((1 - u) ^ 4 * (A + B)) := by ring
        _ ≤ (X * X + Y * Y) * L := e3
        _ ≤ (1 + u) ^ 6 * (V * V) * (A + B) := hTL2
    exact le_of_mul_le_mul_right this hP

/-- C12 (enemy speed, amended): a live enemy in slot `j`, a frame time `d ≥ 0`, and a
positive computed length `l` of the difference `(dx, dy)` from the enemy to the player.
Every operation of lines 230-231 gives its result within the relative error `u < 1`:
the two squares `a`, `b` and their sum `s`, the square root `l`, the product `v` of
`ENEMY_SPEED` and `d`, the quotient `f` and the two components `X`, `Y` of the
displacement.  Then the enemy tick sets new position = old + `(X, Y)`; the factor `f`
is not negative and `X`, `Y` have the signs of `dx`, `dy`, so the displacement points
from the old position toward the player; and the square of its length is the square of
`ENEMY_SPEED * d` up to the factors `(1 - u) ^ 6 / (1 + u) ^ 4` and
`(1 + u) ^ 6 / (1 - u) ^ 4`, whatever the distance. -/
theorem C12_constant_enemy_speed (rnd : Flt → Flt) (E : Extern) (w : World) (j : Nat)
    (e : Enemy) (u d dx dy a b s l v f X Y : ℚ)
    (hj : w.enemies[j]? = some e) (hv : e.isValid = true)
    (hu : 0 ≤ u) (hu1 : u < 1) (hd : 0 ≤ d)
    (hD : Vector2SubtractRounded rnd w.player.position e.position = ⟨Flt.fin dx, Flt.fin dy⟩)
    (ha : RoundsTo rnd u (dx * dx) a) (hb : RoundsTo rnd u (dy * dy) b)
    (hs : RoundsTo rnd u (a + b) s)
    (hl : E.sqrtf (Flt.fin s) = Flt.fin l) (hl0 : 0 < l)
    (hroot : (1 - u) ^ 2 * s ≤ l * l ∧ l * l ≤ (1 + u) ^ 2 * s)
    (hV : RoundsTo rnd u (50 * d) v) (hf : RoundsTo rnd u (v / l) f)
    (hX : RoundsTo rnd u (dx * f) X) (hY : RoundsTo rnd u (dy * f) Y) :
    (enemyUpdateRounded rnd E w (Flt.fin d)).world.enemies[j]? =
        some { e with position := Vector2AddRounded rnd e.position ⟨Flt.fin X, Flt.fin Y⟩ } ∧
      0 ≤ f ∧ 0 ≤ dx * X ∧ 0 ≤ dy * Y ∧
      (1 - u) ^ 6 * ((50 * d) * (50 * d)) ≤ (1 + u) ^ 4 * (X * X + Y * Y) ∧
      (1 - u) ^ 4 * (X * X + Y * Y) ≤ (1 + u) ^ 6 * ((50 * d) * (50 * d)) := by
  have hl1 : l ≠ 0 := ne_of_gt hl0
  have hu2 : u ≤ 1 := le_of_lt hu1
  have h1 : 0 ≤ 1 - u := by linarith
  have h2 : 0 ≤ 1 + u := by linarith
  have hV0 : (0 : ℚ) ≤ 50 * d := by linarith
  have hvV := within_of_nonneg u (50 * d) v hV0 hV.2
  have hv0 : 0 ≤ v := le_trans (mul_nonneg h1 hV0) hvV.1
  have hg0 : 0 ≤ v / l := div_nonneg hv0 (le_of_lt hl0)
  have hfg := within_of_nonneg u (v / l) f hg0 hf.2
  have hf0 : 0 ≤ f := le_trans (mul_nonneg h1 hg0) hfg.1
  have hXs := within_sign u (dx * f) X hu2 hX.2
  have hYs := within_sign u (dy * f) Y hu2 hY.2
  -- the factor times the computed length, against the exact product
  have hfl1 : (1 - u) * v ≤ f * l := by
    have := mul_le_mul_of_nonneg_right hfg.1 (le_of_lt hl0)
    calc (1 - u) * v = (1 - u) * (v / l) * l := by field_simp
      _ ≤ f * l := this
  have hfl2 : f * l ≤ (1 + u) * v := by
    have := mul_le_mul_of_nonneg_right hfg.2 (le_of_lt hl0)
    calc f * l ≤ (1 + u) * (v / l) * l := this
      _ = (1 + u) * v := by field_simp
  have hlo : (1 - u) ^ 2 * (50 * d) ≤ f * l := by
    have := mul_le_mul_of_nonneg_left hvV.1 h1
    calc (1 - u) ^ 2 * (50 * d) = (1 - u) * ((1 - u) * (50 * d)) := by ring
      _ ≤ (1 - u) * v := this
      _ ≤ f * l := hfl1
  have hhi : f * l ≤ (1 + u) ^ 2 * (50 * d) := by
    have := mul_le_mul_of_nonneg_left hvV.2 h2
    calc f * l ≤ (1 + u) * v := hfl2
      _ ≤ (1 + u) * ((1 + u) * (50 * d)) := this
      _ = (1 + u) ^ 2 * (50 * d) := by ring
  have hlo0 : 0 ≤ (1 - u) ^ 2 * (50 * d) := mul_nonneg (pow_nonneg h1 2) hV0
  have hfl0 : 0 ≤ f * l := mul_nonneg hf0 (le_of_lt hl0)
  have hfl : (1 - u) ^ 4 * ((50 * d) * (50 * d)) ≤ (f * l) * (f * l) ∧
      (f * l) * (f * l) ≤ (1 + u) ^ 4 * ((50 * d) * (50 * d)) := by
    constructor
    · have := mul_le_mul hlo hlo hlo0 hfl0
      calc (1 - u) ^ 4 * ((50 * d) * (50 * d))
          = (1 - u) ^ 2 * (50 * d) * ((1 - u) ^ 2 * (50 * d)) := by ring
        _ ≤ (f * l) * (f * l) := this
    · have := mul_le_mul hhi hhi hfl0 (le_trans hfl0 hhi)
      calc (f * l) * (f * l) ≤ (1 + u) ^ 2 * (50 * d) * ((1 + u) ^ 2 * (50 * d)) := this
        _ = (1 + u) ^ 4 * ((50 * d) * (50 * d)) := by ring
  have hXq := within_sq u (dx * f) X hu2 hX.2
  have hYq := within_sq u (dy * f) Y hu2 hY.2
  have hbounds := step_length_bounds u (dx * dx) (dy * dy) a b s (l * l) (50 * d) f l X Y
    hu hu1 hl0 rfl
    (within_of_nonneg u _ a (mul_self_nonneg dx) ha.2)
    (within_of_nonneg u _ b (mul_self_nonneg dy) hb.2)
    (within_of_nonneg u _ s (by
      have ha1 := (within_of_nonneg u _ a (mul_self_nonneg dx) ha.2).1
      have hb1 := (within_of_nonneg u _ b (mul_self_nonneg dy) hb.2).1
      have := mul_nonneg h1 (mul_self_nonneg dx)
      have := mul_nonneg h1 (mul_self_nonneg dy)
      linarith) hs.2)
    hroot hfl
    (by
      have e : dx * f * (dx * f) = dx * dx * (f * f) := by ring
      rw [e] at hXq
      exact hXq)
    (by
      have e : dy * f * (dy * f) = dy * dy * (f * f) := by ring
      rw [e] at hYq
      exact hYq)
  refine ⟨?_, hf0, ?_, ?_, hbounds⟩
  · rw [enemyUpdateRounded_valid_slot rnd E w _ j e hj hv]
    simp only [moveEnemyRounded, hD, Vector2LengthRounded, Vector2ScaleRounded,
      Flt.fin_mul_fin, ha.1, hb.1, Flt.fin_add_fin, hs.1, hl, ENEMY_SPEED_eq, hV.1,
      Flt.fin_div_fin _ _ hl1, hf.1, hX.1, hY.1]
  · have : dx * X * f = dx * f * X := by ring
    by_cases hf00 : f = 0
    · have hX0 : X = 0 := by
        have h := hX.2
        rw [hf00, mul_zero, abs_zero, mul_zero, sub_zero] at h
        exact abs_eq_zero.mp (le_antisymm h (abs_nonneg X))
      rw [hX0, mul_zero]
    · have hfpos : 0 < f := lt_of_le_of_ne hf0 (Ne.symm hf00)
      have : 0 ≤ dx * X * f := by rw [this]; exact hXs
      exact le_of_mul_le_mul_right (by simpa using this) hfpos
  · have : dy * Y * f = dy * f * Y := by ring
    by_cases hf00 : f = 0
    · have hY0 : Y = 0 := by
        have h := hY.2
        rw [hf00, mul_zero, abs_zero, mul_zero, sub_zero] at h
        exact abs_eq_zero.mp (le_antisymm h (abs_nonneg Y))
      rw [hY0, mul_zero]
    · have hfpos : 0 < f := lt_of_le_of_ne hf0 (Ne.symm hf00)
      have : 0 ≤ dy * Y * f := by rw [this]; exact hYs
      exact le_of_mul_le_mul_right (by simpa using this) hfpos

/-! ## C13: an enemy on the player -/

theorem Flt.undef_sub (a : Flt) : Flt.undef - a = Flt.undef := rfl

theorem Flt.sub_undef (a : Flt) : a - Flt.undef = Flt.undef := by
  cases a <;> rfl

theorem Flt.mul_undef (a : Flt) : a * Flt.undef = Flt.undef := by
  cases a <;> rfl

theorem Flt.add_undef (a : Flt) : a + Flt.undef = Flt.undef := by
  cases a <;> rfl

theorem Flt.undef_mul (a : Flt) : Flt.undef * a = Flt.undef := rfl

theorem Flt.undef_add (a : Flt) : Flt.undef + a = Flt.undef := rfl

/-- C13 (amended): the enemy tick has no guard for an enemy on the player.  For a live
enemy whose position is exactly the player's position, with the square root of 0 being
0, the divisor `Vector2Length` of line 231 is 0 and the division leaves the finite
numbers: after the tick neither coordinate of the enemy is a finite number.  The enemy
keeps its validity and health, and at that position it passes no collision test: it
touches neither the player nor a bullet. -/
theorem C13_enemy_on_player (E : Extern) (w : World) (j : Nat) (e : Enemy) (x y d : ℚ)
    (c : Vector2) (r1 r2 : Flt)
    (hj : w.enemies[j]? = some e) (hv : e.isValid = true)
    (he : e.position = ⟨Flt.fin x, Flt.fin y⟩) (hp : w.player.position = e.position)
    (hsqrt : E.sqrtf (Flt.fin 0) = Flt.fin 0) :
    Vector2Length E (Vector2Subtract w.player.position e.position) = Flt.fin 0 ∧
      (ENEMY_SPEED * Flt.fin d) / Vector2Length E (Vector2Subtract w.player.position e.position)
        = Flt.undef ∧
      (enemyUpdate E w (Flt.fin d)).world.enemies[j]? =
        some { e with position := ⟨Flt.undef, Flt.undef⟩ } ∧
      CheckCollisionCircles ⟨Flt.undef, Flt.undef⟩ r1 c r2 = false := by
  have hlen : Vector2Length E (Vector2Subtract w.player.position e.position) = Flt.fin 0 := by
    rw [hp, he]
    simp only [Vector2Length, Vector2Subtract, Flt.fin_sub_fin, Flt.fin_mul_fin,
      Flt.fin_add_fin]
    rw [← hsqrt]
    congr 2
    ring
  have hdiv : (ENEMY_SPEED * Flt.fin d) /
      Vector2Length E (Vector2Subtract w.player.position e.position) = Flt.undef := by
    rw [hlen, ENEMY_SPEED_eq, Flt.fin_mul_fin]
    show Flt.div (Flt.fin (50 * d)) (Flt.fin 0) = Flt.undef
    simp [Flt.div]
  refine ⟨hlen, hdiv, ?_, ?_⟩
  · rw [enemyUpdate_valid_slot E w _ j e hj hv]
    simp only [moveEnemy, hdiv, Vector2Scale, Vector2Add, Flt.mul_undef, Flt.add_undef]
  · simp only [CheckCollisionCircles, Flt.sub_undef, Flt.undef_mul, Flt.undef_add]
    rfl

/-! ## The sample worlds are reachable -/

theorem run_append (E : Extern) (w : World) (a b : List Poll) :
    run E w (a ++ b) = run E (run E w a) b := by
  simp [run, List.foldl_append]

theorem duelWorld_reached : run refExtern (InitGame refExtern) openingPolls = duelWorld := by
  decide!

theorem deadWorld_reached : run refExtern duelWorld closingPolls = deadWorld := by
  decide!

theorem wonWorld_reached : frame refExtern deadWorld (waitPoll (1 / 50)) = wonWorld := by
  decide!

theorem aimedWorld_reached : run refExtern duelWorld aimPolls = aimedWorld := by
  decide!

/-- The run `lateWinPolls` passes through `deadWorld` after 33 passes. -/
theorem lateWin_deadWorld :
    run refExtern (InitGame refExtern) (openingPolls ++ closingPolls) = deadWorld := by
  rw [run_append, duelWorld_reached, deadWorld_reached]

/-- The run `lateWinPolls` ends in `wonWorld`. -/
theorem lateWin_wonWorld : run refExtern (InitGame refExtern) lateWinPolls = wonWorld := by
  have h : run refExtern deadWorld [waitPoll (1 / 50)] =
      frame refExtern deadWorld (waitPoll (1 / 50)) := rfl
  rw [lateWinPolls, run_append, lateWin_deadWorld, h, wonWorld_reached]

/-! ## Evaluations on concrete runs -/

/-- C1 (witness): thirty-one shots into the pool of a freshly initialised world. -/
theorem C1_pool_wraparound_witness :
    sampleShots.length = NUM_BULLETS + 1 ∧
      (fireAll (InitGame refExtern) sampleShots).bullets[0]? =
        sampleShots[30]?.map (fun s => (⟨s.1, s.2, BULLET_LIFETIME, true⟩ : Bullet)) ∧
      (fireAll (InitGame refExtern) sampleShots).nextBulletIndex = 1 := by
  have h : sampleShots.length = NUM_BULLETS + 1 := by decide
  have hc := C1_pool_wraparound refExtern sampleShots h
  exact ⟨h, hc.1, hc.2.2.2.2⟩

/-- C2 (counterexample): the flags are not mutually exclusive.  In the run
`lateWinPolls` from a freshly initialised world, which has no reset, the player dies in
pass 33 and the last enemy is killed in pass 34 by bullets that were fired before the
death; after it `isPlayerDead` and `isGameWon` are both true. -/
theorem C2_both_flags_reachable :
    (∀ p ∈ lateWinPolls, p.keyYes = false) ∧
      (run refExtern (InitGame refExtern) lateWinPolls).isPlayerDead = true ∧
      (run refExtern (InitGame refExtern) lateWinPolls).isGameWon = true := by
  rw [lateWin_wonWorld]
  decide!

/-- C2 (witness): in `lateWinPolls` pass 34 ends with both flags true, and the player
was dead before it. -/
theorem C2_player_dies_first_witness :
    (frame refExtern (run refExtern (InitGame refExtern) (openingPolls ++ closingPolls))
        (waitPoll (1 / 50))).isGameWon = true ∧
      (run refExtern (InitGame refExtern) (openingPolls ++ closingPolls)).isPlayerDead
        = true := by
  have hdead : (frame refExtern (run refExtern (InitGame refExtern)
      (openingPolls ++ closingPolls)) (waitPoll (1 / 50))).isPlayerDead = true := by
    rw [lateWin_deadWorld, wonWorld_reached]; rfl
  have hwon : (frame refExtern (run refExtern (InitGame refExtern)
      (openingPolls ++ closingPolls)) (waitPoll (1 / 50))).isGameWon = true := by
    rw [lateWin_deadWorld, wonWorld_reached]; rfl
  exact ⟨hwon, C2_player_dies_first refExtern (openingPolls ++ closingPolls)
    (waitPoll (1 / 50)) hdead hwon⟩

/-- C3 (counterexample): a terminal state is not frozen.  In `deadWorld` the player is
dead; in a pass of 1/5 s with no key and no click, enemy 0 walks from (235.75,0) to
(225.75,0) and the bullets in flight move on. -/
theorem C3_terminal_not_frozen :
    deadWorld.isPlayerDead = true ∧ driftPoll.keyYes = false ∧
      driftPoll.mousePressed = false ∧
      deadWorld.enemies[0]? = some ⟨⟨Flt.fin (943 / 4), 0⟩, true, 100⟩ ∧
      (frame refExtern deadWorld driftPoll).enemies[0]? =
        some ⟨⟨Flt.fin (903 / 4), 0⟩, true, 100⟩ ∧
      (frame refExtern deadWorld driftPoll).bullets ≠ deadWorld.bullets := by
  decide!

/-- C3 (witness): the pass of the counterexample, in `deadWorld`. -/
theorem C3_terminal_pass_witness :
    deadWorld.isPlayerDead = true ∧
      (frame refExtern deadWorld driftPoll).player.position = deadWorld.player.position ∧
      (frame refExtern deadWorld driftPoll).nextBulletIndex = deadWorld.nextBulletIndex := by
  have hd : deadWorld.isPlayerDead = true := by decide!
  have h := C3_terminal_pass refExtern deadWorld driftPoll (Or.inl hd) rfl
  exact ⟨hd, h.1, (h.2.2.2 rfl).1⟩

/-- C4 (counterexample): a click on the player's own position is not a no-op.  In the
freshly initialised world the player is at (0,0); a click at (0,0) moves the cursor
from 0 to 1 and makes slot 0 a valid bullet. -/
theorem C4_fire_at_own_position_spawns :
    (InitGame refExtern).isPlayerDead = false ∧ (InitGame refExtern).isGameWon = false ∧
      (clickPoll ⟨0, 0⟩).WORLD_MOUSE_POS = (InitGame refExtern).player.position ∧
      (InitGame refExtern).nextBulletIndex = 0 ∧
      (fire refExtern (InitGame refExtern) (clickPoll ⟨0, 0⟩)).nextBulletIndex = 1 ∧
      (fire refExtern (InitGame refExtern) (clickPoll ⟨0, 0⟩)).bullets ≠
        (InitGame refExtern).bullets := by
  decide!

/-- C4 (witness): the click of the counterexample, in the freshly initialised world. -/
theorem C4_fire_at_own_position_witness :
    (fire refExtern (InitGame refExtern) (clickPoll ⟨0, 0⟩)).nextBulletIndex =
        ((InitGame refExtern).nextBulletIndex + 1) % NUM_BULLETS ∧
      (fire refExtern (InitGame refExtern) (clickPoll ⟨0, 0⟩)).nextBulletIndex ≠
        (InitGame refExtern).nextBulletIndex :=
  (C4_fire_at_own_position refExtern (InitGame refExtern) (clickPoll ⟨0, 0⟩) rfl
    (by decide!) (by decide!) (by decide!) (by decide!)).2

/-- C5 (counterexample): in single precision the countdown of line 190 does not follow
the sum of the frame times.  A bullet fired to the left from (0,0), clear of the
enemies: with frames of 0.3 s it is still live after frame 10, when the frame times add
up to more than `BULLET_LIFETIME`; with frames of about 0.43 s it is invalid after frame
7, when they add up to less than `BULLET_LIFETIME`; and with frames of 0.015 s it is
invalid after frame 200, when they add up to less than `BULLET_LIFETIME`. -/
theorem C5_lifetime_not_the_sum :
    (slowSteps.all (fun s => decide (0 < s.1)) = true ∧
      hitsNoEnemy Flt.single (newBullet ⟨0, 0⟩ ⟨Flt.fin (-1), 0⟩) (finiteSteps slowSteps) = true ∧
      (bulletRun Flt.single (newBullet ⟨0, 0⟩ ⟨Flt.fin (-1), 0⟩)
        (finiteSteps (slowSteps.take 10))).isValid = true ∧
      Flt.gt BULLET_LIFETIME (Flt.fin ((slowSteps.take 10).map Prod.fst).sum) = false) ∧
    (longSteps.all (fun s => decide (0 < s.1)) = true ∧
      hitsNoEnemy Flt.single (newBullet ⟨0, 0⟩ ⟨Flt.fin (-1), 0⟩) (finiteSteps longSteps) = true ∧
      (bulletRun Flt.single (newBullet ⟨0, 0⟩ ⟨Flt.fin (-1), 0⟩)
        (finiteSteps (longSteps.take 7))).isValid = false ∧
      Flt.gt BULLET_LIFETIME (Flt.fin ((longSteps.take 7).map Prod.fst).sum) = true) ∧
    (shortSteps.all (fun s => decide (0 < s.1)) = true ∧
      hitsNoEnemy Flt.single (newBullet ⟨0, 0⟩ ⟨Flt.fin (-1), 0⟩) (finiteSteps shortSteps) = true ∧
      (bulletRun Flt.single (newBullet ⟨0, 0⟩ ⟨Flt.fin (-1), 0⟩)
        (finiteSteps (shortSteps.take 200))).isValid = false ∧
      Flt.gt BULLET_LIFETIME (Flt.fin ((shortSteps.take 200).map Prod.fst).sum) = true) := by
  refine ⟨⟨?_, ?_, ?_, ?_⟩, ⟨?_, ?_, ?_, ?_⟩, ⟨?_, ?_, ?_, ?_⟩⟩ <;> decide!

/-- C5 (witness): the bullet of the counterexample in single precision, with frames of
0.3 s.  Every subtraction is within 2^-23 of the exact difference; the bullet is live
after frame 9 and invalid after frame 11. -/
theorem C5_bullet_lifetime_witness :
    (bulletRun Flt.single (newBullet ⟨0, 0⟩ ⟨Flt.fin (-1), 0⟩)
        (finiteSteps (slowSteps.take 9))).isValid = true ∧
      ¬ (bulletRun Flt.single (newBullet ⟨0, 0⟩ ⟨Flt.fin (-1), 0⟩)
        (finiteSteps (slowSteps.take 11))).isValid = true := by
  have hpos : ∀ s ∈ slowSteps, 0 < s.1 := by
    have h : slowSteps.all (fun s => decide (0 < s.1)) = true := by decide!
    intro s hs
    simpa using List.all_eq_true.mp h s hs
  have hno : hitsNoEnemy Flt.single (newBullet ⟨0, 0⟩ ⟨Flt.fin (-1), 0⟩)
      (finiteSteps slowSteps) = true := by decide!
  have hrnd : countdownWithin Flt.single (1 / 8388608) BULLET_LIFETIME
      (slowSteps.map (fun s => Flt.fin s.1)) = true := by decide!
  refine ⟨(C5_bullet_lifetime Flt.single (1 / 8388608) ⟨0, 0⟩ ⟨Flt.fin (-1), 0⟩ slowSteps 9
    (by norm_num) hpos hno hrnd).1 (by decide!), ?_⟩
  intro h
  have := (C5_bullet_lifetime Flt.single (1 / 8388608) ⟨0, 0⟩ ⟨Flt.fin (-1), 0⟩ slowSteps 11
    (by norm_num) hpos hno hrnd).2 h
  revert this
  decide!

/-- The passes of `slowSteps`, whose frame time 5033165 / 2^24 is what 3/10 rounds to in
single precision, and the frame times of `longSteps` and `shortSteps`, which are
singles as well. -/
theorem sample_frame_times_single :
    roundSingle (3 / 10) = Flt.fin (5033165 / 16777216) ∧
      roundSingle (7190235 / 16777216) = Flt.fin (7190235 / 16777216) ∧
      roundSingle (3 / 200) = Flt.fin (16106127 / 1073741824) := by
  refine ⟨?_, ?_, ?_⟩ <;> decide!

/-- Without rounding the countdown over the passes of `slowSteps` is exact, and the
bullet is invalid after frame 10, the first at which the frame times add up to
`BULLET_LIFETIME` or more. -/
theorem exact_countdown_sample :
    countdownWithin id 0 BULLET_LIFETIME (slowSteps.map (fun s => Flt.fin s.1)) = true ∧
      (bulletRun id (newBullet ⟨0, 0⟩ ⟨Flt.fin (-1), 0⟩)
        (finiteSteps (slowSteps.take 9))).isValid = true ∧
      (bulletRun id (newBullet ⟨0, 0⟩ ⟨Flt.fin (-1), 0⟩)
        (finiteSteps (slowSteps.take 10))).isValid = false := by
  refine ⟨?_, ?_, ?_⟩ <;> decide!

/-- C6 (witness): a bullet from (0,0) heading right lands on (300,0) after 3/5 of a
second; enemies 1 and 2 of `sampleEnemies` are both in range, enemy 1 takes the hit. -/
theorem C6_first_match_wins_witness :
    (updateBullet (Flt.fin (3 / 5)) (newBullet ⟨0, 0⟩ ⟨1, 0⟩) sampleEnemies).1.isValid = false ∧
      (updateBullet (Flt.fin (3 / 5)) (newBullet ⟨0, 0⟩ ⟨1, 0⟩) sampleEnemies).2[1]? =
        some { position := ⟨300, 0⟩
               isValid := decide (0 < (100 : Int) - BULLET_DAMAGE)
               health := 100 - BULLET_DAMAGE } ∧
      ∀ i : Nat, i ≠ 1 →
        (updateBullet (Flt.fin (3 / 5)) (newBullet ⟨0, 0⟩ ⟨1, 0⟩) sampleEnemies).2[i]? =
          sampleEnemies[i]? :=
  C6_first_match_wins (Flt.fin (3 / 5)) (newBullet ⟨0, 0⟩ ⟨1, 0⟩) sampleEnemies 1
    ⟨⟨300, 0⟩, true, 100⟩ rfl (by decide!) rfl rfl (by decide!)
    (by
      intro i a hi ha _
      obtain rfl : i = 0 := by omega
      have : a = ⟨⟨0, 300⟩, true, 100⟩ := by
        simp [sampleEnemies] at ha
        exact ha.symm
      subst this
      decide!)

/-- C7 (witness): in `aimedWorld` enemy 0 has 100 health and ten bullets are about to
land on it; the bullet phase of the pass `flightPoll` leaves it with health 0 and
invalid.  In `wonWorld` enemy 0 is invalid, and two more passes of one second each leave
it as it is. -/
theorem C7_lethal_damage_witness :
    aimedWorld.enemies[0]? = some ⟨⟨270, 0⟩, true, 100⟩ ∧
      (bulletUpdate refExtern aimedWorld flightPoll).enemies[0]? =
        some ⟨⟨270, 0⟩, false, 0⟩ ∧
      wonWorld.enemies[0]? = some ⟨⟨Flt.fin (943 / 4), 0⟩, false, 0⟩ ∧
      (run refExtern wonWorld [chargePoll, fleePoll]).enemies[0]? =
        some ⟨⟨Flt.fin (943 / 4), 0⟩, false, 0⟩ := by
  have h1 : aimedWorld.enemies[0]? = some ⟨⟨270, 0⟩, true, 100⟩ := by decide!
  have h2 : (bulletUpdate refExtern aimedWorld flightPoll).enemies[0]? =
      some ⟨⟨270, 0⟩, false, 0⟩ := by decide!
  have h3 : wonWorld.enemies[0]? = some ⟨⟨Flt.fin (943 / 4), 0⟩, false, 0⟩ := by decide!
  have ha : (⟨⟨270, 0⟩, false, 0⟩ : Enemy).isValid = false :=
    (C7_lethal_damage refExtern aimedWorld flightPoll [] 0
      ⟨⟨270, 0⟩, true, 100⟩ ⟨⟨270, 0⟩, false, 0⟩ ⟨0, 0⟩ h1).1 h2 (by decide) (by decide)
  have hb := (C7_lethal_damage refExtern wonWorld idlePoll [chargePoll, fleePoll] 0
    ⟨⟨Flt.fin (943 / 4), 0⟩, false, 0⟩ ⟨⟨270, 0⟩, false, 0⟩ ⟨0, 0⟩ h3).2.1 rfl (by decide)
  exact ⟨h1, h2, h3, hb⟩

/-- C8 (witness): in `aimedWorld`, a Playing world, ten bullets wait on the player;
the pass `flightPoll` lands them on enemy 0, the last one alive, and `isGameWon` is true
at its end and after two more passes. -/
theorem C8_win_condition_witness :
    aimedWorld.isPlayerDead = false ∧ aimedWorld.isGameWon = false ∧
      (frame refExtern aimedWorld flightPoll).isGameWon = true ∧
      (run refExtern (frame refExtern aimedWorld flightPoll)
        [chargePoll, clickPoll ⟨1, 0⟩]).isGameWon = true := by
  have hall' : (bulletUpdate refExtern (loopInput refExtern aimedWorld flightPoll)
      flightPoll).enemies.all (fun e => !e.isValid) = true := by decide!
  have hall : ∀ e ∈ (bulletUpdate refExtern (loopInput refExtern aimedWorld flightPoll)
      flightPoll).enemies, e.isValid = false := by
    intro e he
    simpa using List.all_eq_true.mp hall' e he
  have hw0 : (frame refExtern aimedWorld flightPoll).isGameWon = true := by decide!
  have h := C8_win_condition refExtern aimedWorld flightPoll
    (frame refExtern aimedWorld flightPoll) [chargePoll, clickPoll ⟨1, 0⟩] hall hw0
    (by decide)
  exact ⟨by decide!, by decide!, h.1, h.2⟩

/-- C9 (witness): in `duelWorld`, a Playing world, the pass `chargePoll` brings the
player within reach of enemy 0; the player is dead at its end and does not move in the
pass `fleePoll` that follows. -/
theorem C9_death_condition_witness :
    duelWorld.isPlayerDead = false ∧ duelWorld.isGameWon = false ∧
      (frame refExtern duelWorld chargePoll).isPlayerDead = true ∧
      (frame refExtern duelWorld chargePoll).player.isValid = false ∧
      (run refExtern (frame refExtern duelWorld chargePoll) [fleePoll]).isPlayerDead = true ∧
      (run refExtern (frame refExtern duelWorld chargePoll) [fleePoll]).player.position =
        (frame refExtern duelWorld chargePoll).player.position := by
  have ht : (enemyUpdate refExtern (bulletUpdate refExtern
      (loopInput refExtern duelWorld chargePoll) chargePoll)
      chargePoll.deltaTime).touchedPlayer = true := by decide!
  have h := C9_death_condition refExtern duelWorld chargePoll [fleePoll] idlePoll ht
    (by decide) rfl
  exact ⟨by decide!, by decide!, h.1, h.2.1, h.2.2.1, h.2.2.2.1⟩

/-- C10 (witness): the reset key in `deadWorld`. -/
theorem C10_reset_is_fresh_witness :
    deadWorld.isPlayerDead = true ∧
      loopInput refExtern deadWorld yesPoll = InitGame refExtern := by
  have hd : deadWorld.isPlayerDead = true := by decide!
  have h := C10_reset_is_fresh refExtern deadWorld yesPoll (Or.inl hd) rfl
  exact ⟨hd, h.1.trans h.2.1⟩

theorem reachable_run (E : Extern) (polls : List Poll) :
    ∀ w : World, Reachable E w → Reachable E (run E w polls) := by
  induction polls with
  | nil => intro w h; exact h
  | cons p rest ih => intro w h; exact ih _ (Reachable.pass w p h)

theorem duelWorld_reachable : Reachable refExtern duelWorld := by
  rw [← duelWorld_reached]
  exact reachable_run refExtern openingPolls _ Reachable.init

theorem refExtern_sqrt_exact :
    ∀ d ∈ ([300, 250, 200, 150, 100, 50] : List ℚ),
      refExtern.sqrtf (Flt.fin (d * d)) = Flt.fin d := by
  decide!

theorem soloWorld_shape : SoloShape soloWorld 0 300 100 := by
  refine ⟨rfl, rfl, rfl, ?_, rfl, ?_⟩
  · intro b hb
    rw [List.eq_of_mem_replicate hb]
  · intro i a hi ha
    rcases i with _ | _ | _ | i
    · exact absurd rfl hi
    · simp [soloWorld] at ha; rw [← ha]
    · simp [soloWorld] at ha; rw [← ha]
    · simp [soloWorld] at ha

theorem secondPoll_quiet : ∀ (n : Nat), ∀ p ∈ List.replicate n secondPoll, QuietSecond p := by
  intro n p hp
  rw [List.eq_of_mem_replicate hp]
  exact ⟨rfl, rfl, rfl, rfl, rfl, rfl⟩

/-- C11 (witness): `soloWorld` and six passes `secondPoll` under `refExtern`; the enemy
is at (50,0) with the player alive after five passes, at (0,0) with the player dead
after six. -/
theorem C11_example_scenario_witness :
    ((run refExtern soloWorld (List.replicate 5 secondPoll)).enemies[0]? =
        some ⟨⟨Flt.fin (300 - 50 * ((5 : Nat) : ℚ)), 0⟩, true, 100⟩ ∧
      (run refExtern soloWorld (List.replicate 5 secondPoll)).isPlayerDead = false) ∧
    ((run refExtern soloWorld (List.replicate 6 secondPoll)).enemies[0]? =
        some ⟨⟨Flt.fin (300 - 50 * ((6 : Nat) : ℚ)), 0⟩, true, 100⟩ ∧
      (run refExtern soloWorld (List.replicate 6 secondPoll)).isPlayerDead = true) := by
  have h5 := C11_example_scenario refExtern soloWorld 0 100 (List.replicate 5 secondPoll) 5
    (by decide) (by decide) (by simp) refExtern_sqrt_exact soloWorld_shape
    (secondPoll_quiet 5)
  have h6 := C11_example_scenario refExtern soloWorld 0 100 (List.replicate 6 secondPoll) 6
    (by decide) (by decide) (by simp) refExtern_sqrt_exact soloWorld_shape
    (secondPoll_quiet 6)
  exact ⟨⟨h5.1, by rw [h5.2.2]; rfl⟩, ⟨h6.1, by rw [h6.2.2]; rfl⟩⟩

/-- C12 (counterexample): enemy 1 of a freshly initialised world, 300 from the player at
(0,0) and off the axes, in a pass of one second.  In single precision the displacement
of line 231 is (25.0000458, -43.3012390), whose squared length is below 2500, the
square of `ENEMY_SPEED` times 1.  In the exact arithmetic of `moveEnemy`, with the
square root of `refExtern`, the squared length of the displacement is not 2500 either. -/
theorem C12_speed_not_exact :
    (InitGame singleExtern).enemies[1]? = some secondEnemy ∧
      (InitGame singleExtern).player.position = ⟨0, 0⟩ ∧
      Vector2ScaleRounded Flt.single (Vector2SubtractRounded Flt.single ⟨0, 0⟩ secondEnemy.position)
          (Flt.single (Flt.single (ENEMY_SPEED * 1) /
            Vector2LengthRounded Flt.single singleExtern
              (Vector2SubtractRounded Flt.single ⟨0, 0⟩ secondEnemy.position))) =
        ⟨Flt.fin (1638403 / 65536), Flt.fin (-1418895 / 32768)⟩ ∧
      (enemyUpdateRounded Flt.single singleExtern (InitGame singleExtern) 1).world.enemies[1]? =
        some { secondEnemy with
          position := Vector2AddRounded Flt.single secondEnemy.position
            ⟨Flt.fin (1638403 / 65536), Flt.fin (-1418895 / 32768)⟩ } ∧
      (1638403 / 65536 : ℚ) * (1638403 / 65536) + (-1418895 / 32768) * (-1418895 / 32768) <
        (50 * 1) * (50 * 1) ∧
      (Vector2Scale (Vector2Subtract ⟨0, 0⟩ secondEnemy.position)
            ((ENEMY_SPEED * 1) /
              Vector2Length refExtern (Vector2Subtract ⟨0, 0⟩ secondEnemy.position))).x *
          (Vector2Scale (Vector2Subtract ⟨0, 0⟩ secondEnemy.position)
            ((ENEMY_SPEED * 1) /
              Vector2Length refExtern (Vector2Subtract ⟨0, 0⟩ secondEnemy.position))).x +
        (Vector2Scale (Vector2Subtract ⟨0, 0⟩ secondEnemy.position)
            ((ENEMY_SPEED * 1) /
              Vector2Length refExtern (Vector2Subtract ⟨0, 0⟩ secondEnemy.position))).y *
          (Vector2Scale (Vector2Subtract ⟨0, 0⟩ secondEnemy.position)
            ((ENEMY_SPEED * 1) /
              Vector2Length refExtern (Vector2Subtract ⟨0, 0⟩ secondEnemy.position))).y ≠
        (ENEMY_SPEED * 1) * (ENEMY_SPEED * 1) := by
  refine ⟨?_, ?_, ?_, ?_, ?_, ?_⟩ <;> decide!

/-- C12 (witness): enemy 1 of a freshly initialised world in a pass of 1/60 s, in single
precision, where every operation is within the relative error 2^-24.  The enemy moves
by (0.41666746, -0.72168738), toward the player at (0,0), and the squared length of
that displacement is within the stated factors of the square of 50 times the frame
time. -/
theorem C12_constant_enemy_speed_witness :
    (enemyUpdateRounded Flt.single singleExtern (InitGame singleExtern)
        (Flt.fin (8947849 / 536870912))).world.enemies[1]? =
      some { secondEnemy with
        position := Vector2AddRounded Flt.single secondEnemy.position
          ⟨Flt.fin (873815 / 2097152), Flt.fin (-12107905 / 16777216)⟩ } ∧
    (1 - 1 / 16777216 : ℚ) ^ 6 * ((50 * (8947849 / 536870912)) * (50 * (8947849 / 536870912))) ≤
      (1 + 1 / 16777216) ^ 4 *
        ((873815 / 2097152) * (873815 / 2097152) +
          (-12107905 / 16777216) * (-12107905 / 16777216)) ∧
    (1 - 1 / 16777216 : ℚ) ^ 4 *
        ((873815 / 2097152) * (873815 / 2097152) +
          (-12107905 / 16777216) * (-12107905 / 16777216)) ≤
      (1 + 1 / 16777216) ^ 6 * ((50 * (8947849 / 536870912)) * (50 * (8947849 / 536870912))) := by
  have h := C12_constant_enemy_speed Flt.single singleExtern (InitGame singleExtern) 1
    secondEnemy (1 / 16777216) (8947849 / 536870912) (2457605 / 16384) (-2128343 / 8192)
    (11520047 / 512) (1079999 / 16) (2880001 / 32) (4915201 / 16384) (6990507 / 8388608)
    (11930463 / 4294967296) (873815 / 2097152) (-12107905 / 16777216)
    (by decide!) rfl (by norm_num) (by norm_num) (by norm_num) (by decide!)
    ⟨by decide!, by decide!⟩ ⟨by decide!, by decide!⟩ ⟨by decide!, by decide!⟩
    (by decide!) (by norm_num) (by constructor <;> norm_num)
    ⟨by decide!, by decide!⟩ ⟨by decide!, by decide!⟩ ⟨by decide!, by decide!⟩
    ⟨by decide!, by decide!⟩
  exact ⟨h.1, h.2.2.2.2.1, h.2.2.2.2.2⟩

/-- C13 (counterexample): an enemy on the player is not left where it is.  In the run
`openingPolls` followed by a pass of 18/5 s with no input, from a freshly initialised
world under `refExtern`, enemy 0 walks the 180 from (270,0) to (90,0), the position of
the player.  In the next pass, of one second, line 231 divides by the length 0 and the
coordinates of enemy 0 are no longer finite numbers. -/
theorem C13_enemy_on_player_not_guarded :
    (run refExtern (InitGame refExtern) (openingPolls ++ [waitPoll (18 / 5)])).player.position
        = ⟨90, 0⟩ ∧
      (run refExtern (InitGame refExtern) (openingPolls ++ [waitPoll (18 / 5)])).enemies[0]? =
        some ⟨⟨90, 0⟩, true, 100⟩ ∧
      (run refExtern (InitGame refExtern)
        (openingPolls ++ [waitPoll (18 / 5), secondPoll])).enemies[0]? =
        some ⟨⟨Flt.undef, Flt.undef⟩, true, 100⟩ := by
  rw [run_append, run_append, duelWorld_reached]
  decide!

/-- C13 (witness): the world of the counterexample with enemy 0 on the player, and the
enemy tick of a pass of one second. -/
theorem C13_enemy_on_player_witness :
    (enemyUpdate refExtern (frame refExtern duelWorld (waitPoll (18 / 5)))
        (Flt.fin 1)).world.enemies[0]? =
      some ⟨⟨Flt.undef, Flt.undef⟩, true, 100⟩ :=
  (C13_enemy_on_player refExtern (frame refExtern duelWorld (waitPoll (18 / 5))) 0
    ⟨⟨Flt.fin 90, Flt.fin 0⟩, true, 100⟩ 90 0 1 ⟨0, 0⟩ 0 0 (by decide!) rfl rfl (by decide!)
    (by decide!)).2.2.1

/-- C14 (witness): a fire operation in `duelWorld`, whose cursor is at 20. -/
theorem C14_fire_writes_cursor_slot_witness :
    (spawnNextBullet duelWorld ⟨1, 2⟩ ⟨1, 0⟩).bullets[duelWorld.nextBulletIndex.toNat]? =
        some ⟨⟨1, 2⟩, ⟨1, 0⟩, BULLET_LIFETIME, true⟩ ∧
      (spawnNextBullet duelWorld ⟨1, 2⟩ ⟨1, 0⟩).nextBulletIndex =
        (duelWorld.nextBulletIndex + 1) % NUM_BULLETS :=
  have h := C14_fire_writes_cursor_slot duelWorld ⟨1, 2⟩ ⟨1, 0⟩ (by decide) (by decide)
    (by decide)
  ⟨h.1, h.2.1⟩

/-- C15 (witness): `duelWorld` is reachable, and so is the world after a fire operation
in it. -/
theorem C15_cursor_in_bounds_witness :
    0 ≤ (spawnNextBullet duelWorld ⟨1, 2⟩ ⟨1, 0⟩).nextBulletIndex ∧
      (spawnNextBullet duelWorld ⟨1, 2⟩ ⟨1, 0⟩).nextBulletIndex < NUM_BULLETS ∧
      (spawnNextBullet duelWorld ⟨1, 2⟩ ⟨1, 0⟩).nextBulletIndex.toNat <
        (spawnNextBullet duelWorld ⟨1, 2⟩ ⟨1, 0⟩).bullets.length :=
  C15_cursor_in_bounds refExtern _ (Reachable.shot duelWorld ⟨1, 2⟩ ⟨1, 0⟩ duelWorld_reachable)

/-- C16 (witness): in `aimedWorld` the pass `flightPoll` lands ten bullets on enemy 0 at
(270,0); the enemy is dead after the bullet tick and is still at (270,0), dead, at the
end of the pass. -/
theorem C16_phase_ordering_witness :
    (bulletUpdate refExtern (loopInput refExtern aimedWorld flightPoll)
        flightPoll).enemies[0]? = some ⟨⟨270, 0⟩, false, 0⟩ ∧
      (frame refExtern aimedWorld flightPoll).enemies[0]? = some ⟨⟨270, 0⟩, false, 0⟩ := by
  have h1 : (loopInput refExtern aimedWorld flightPoll).enemies[0]? =
      some ⟨⟨270, 0⟩, true, 100⟩ := by decide!
  have h2 : (bulletUpdate refExtern (loopInput refExtern aimedWorld flightPoll)
      flightPoll).enemies[0]? = some ⟨⟨270, 0⟩, false, 0⟩ := by decide!
  exact ⟨h2, ((C16_phase_ordering refExtern aimedWorld flightPoll 0 0 ⟨⟨270, 0⟩, true, 100⟩
    ⟨⟨270, 0⟩, false, 0⟩).2.2.2.2 h1 rfl h2 rfl).1⟩

/-- C17 (witness): `oldBullet` sits on enemy 1 of `sampleEnemies` with half a second
left; in a pass of one second it is cleared and the enemies are left as they were. -/
theorem C17_expired_bullet_does_nothing_witness :
    (updateBullet (Flt.fin 1) oldBullet sampleEnemies).1.isValid = false ∧
      (updateBullet (Flt.fin 1) oldBullet sampleEnemies).2 = sampleEnemies :=
  have h := C17_expired_bullet_does_nothing oldBullet sampleEnemies (1 / 2) 1 rfl rfl
    (by norm_num)
  ⟨h.1, h.2.2.2⟩

/-- C18 (witness): enemy 0 of the reachable world `duelWorld`, with its 100 health. -/
theorem C18_enemy_health_invariant_witness :
    BULLET_DAMAGE ∣ (100 : Int) ∧ (0 : Int) ≤ 100 ∧ (100 : Int) ≤ ENEMY_INIT_HEALTH ∧
      (true = true ↔ (0 : Int) < 100) :=
  (C18_enemy_health_invariant refExtern duelWorld duelWorld_reachable).1
    ⟨⟨270, 0⟩, true, 100⟩ (by simp [duelWorld])

/-- C19 (witness): at the end of the run `lateWinPolls` the player is dead, and
invalid. -/
theorem C19_flag_consistency_witness :
    (run refExtern (InitGame refExtern) lateWinPolls).player.isValid = false :=
  (C19_flag_consistency refExtern lateWinPolls).1.mp (by rw [lateWin_wonWorld]; rfl)

theorem duelWorld_shot_misses :
    ∀ e ∈ duelWorld.enemies, e.isValid = true →
      CheckCollisionCircles e.position ENEMY_RADIUS
        (Vector2Add (movePlayer duelWorld shotPoll).player.position
          (Vector2Scale
            (refExtern.Vector2Normalize
              (Vector2Subtract shotPoll.WORLD_MOUSE_POS
                (movePlayer duelWorld shotPoll).player.position))
            (Flt.fin (1 / 5) * BULLET_SPEED)))
        BULLET_RADIUS = false := by
  have h : duelWorld.enemies.all (fun e => !e.isValid ||
      !CheckCollisionCircles e.position ENEMY_RADIUS
        (Vector2Add (movePlayer duelWorld shotPoll).player.position
          (Vector2Scale
            (refExtern.Vector2Normalize
              (Vector2Subtract shotPoll.WORLD_MOUSE_POS
                (movePlayer duelWorld shotPoll).player.position))
            (Flt.fin (1 / 5) * BULLET_SPEED)))
        BULLET_RADIUS) = true := by decide!
  intro e he hv
  have := List.all_eq_true.mp h e he
  simpa [hv] using this

/-- C20 (witness): in `duelWorld`, with the player at (90,0) and the cursor at 20, a
click to the right in a pass of 1/5 s; at the end of the pass slot 20 holds a valid
bullet at (190,0) with 14/5 s left. -/
theorem C20_fired_bullet_advanced_witness :
    (frame refExtern duelWorld shotPoll).bullets[20]? =
      some ⟨⟨190, 0⟩, ⟨1, 0⟩, Flt.fin (14 / 5), true⟩ := by
  have h := C20_fired_bullet_advanced refExtern duelWorld shotPoll (1 / 5) rfl rfl rfl rfl
    (by norm_num) (by norm_num) (by decide) (by decide) (by decide) duelWorld_shot_misses
  have hidx : duelWorld.nextBulletIndex.toNat = 20 := by decide
  rw [hidx] at h
  rw [h]
  decide!

end GameWorkshop
